import Mathlib

/-!
# fpselections: the travel-data server (`src/server.js`)

A shallow embedding of the request handlers of `src/server.js`.

* The data file holds one JSON document.  `JVal` is a value as `JSON.parse`
  returns it.  Numbers are integers: the handlers only test a number for being
  zero or print it inside a template literal.
* Property reads follow JavaScript: own properties first, then the names every
  object, array or primitive inherits (`getProp`).  A read that lands on an
  inherited built-in gives `JRes.other`.
* A handler maps the parsed document and the request to an `Outcome`: the
  response and, when the handler reaches `fs.writeFile(DATA_FILE, ...)`, the
  document handed to `JSON.stringify`.  The handlers are modelled for a data
  file that holds a JSON object (the Document of the data model), for path
  parameters that are strings and for request bodies that are JSON values.
* Built-in objects are as the runtime creates them: no earlier request has
  added a property to a prototype or to a built-in function.  A country key
  that resolves to a built-in (`constructor`, `toString`, ...) is therefore a
  truthy receiver without `cities`, `itineraries`, `transport`.
* `serve` and `putData` run a handler against the `data/` directory, with the
  I/O failures of `fs.readFile` and `fs.writeFile` as an input.
* `listImages`, `storedName`, `upload` and `uploadImage` model the image
  endpoints of server.js and the upload method of `src/public/script.js`;
  `limits.fileSize` is the maximum file size multer lets through.
* `guideRecord`, `itineraryRecord`, `transportRecord` and the `clientAdd...`
  functions model the form handlers of `src/public/script.js`: the record a
  form sends, and the edit of the client's copy after a successful request.
* `deleteImage` models the image delete of server.js over absolute POSIX
  paths, for the `filename` parameter as the router hands it over (one path
  segment of the request, percent-decoded).
-/

namespace FpSelections

/-! ## JSON values and JavaScript property access -/

/-- A value produced by `JSON.parse`. -/
inductive JVal where
  | null
  | bool (b : Bool)
  | num (n : Int)
  | str (s : String)
  | arr (items : List JVal)
  | obj (fields : List (String × JVal))

/-- The result of reading a property. -/
inductive JRes where
  /-- No such property. -/
  | undefined
  /-- A value stored in the document. -/
  | val (v : JVal)
  /-- A truthy value that is not part of the document: a built-in function or
  prototype object found on the prototype chain, or one code unit of a string. -/
  | other

/-- JavaScript truthiness of a JSON value (`!x` is its negation). -/
def JVal.truthy : JVal → Bool
  | .null => false
  | .bool b => b
  | .num n => n != 0
  | .str s => s != ""
  | .arr _ => true
  | .obj _ => true

/-- JavaScript truthiness of the result of a property read. -/
def JRes.truthy : JRes → Bool
  | .undefined => false
  | .val v => v.truthy
  | .other => true

/-- Value of a run of decimal digits, `none` when a character is not a digit. -/
def decimalValue : List Char → Nat → Option Nat
  | [], acc => some acc
  | c :: cs, acc =>
    if 48 ≤ c.toNat ∧ c.toNat ≤ 57 then decimalValue cs (acc * 10 + (c.toNat - 48)) else none

/-- The array index a property key denotes: the key must be the canonical
decimal text of an integer below `2^32 - 1` (so `"1"` is an index, `"01"`,
`"1.0"`, `" 1"` and `"length"` are not). -/
def arrayIndex (key : String) : Option Nat :=
  match key.data with
  | [] => none
  | [c] => decimalValue [c] 0
  | c :: cs => if c = '0' then none else (decimalValue (c :: cs) 0).filter (fun n => n < 4294967295)

/-- Number of UTF-16 code units of a string (its JavaScript `length`). -/
def utf16Length (s : String) : Nat :=
  (s.data.map (fun c => if c.toNat < 65536 then 1 else 2)).sum

/-- Property names of `Object.prototype`. -/
def objectProto : List String :=
  ["constructor", "__defineGetter__", "__defineSetter__", "hasOwnProperty",
   "__lookupGetter__", "__lookupSetter__", "isPrototypeOf", "propertyIsEnumerable",
   "toString", "valueOf", "__proto__", "toLocaleString"]

/-- Property names of `Array.prototype` (string-keyed). -/
def arrayProto : List String :=
  ["length", "constructor", "at", "concat", "copyWithin", "fill", "find", "findIndex",
   "findLast", "findLastIndex", "lastIndexOf", "pop", "push", "reverse", "shift",
   "unshift", "slice", "sort", "splice", "includes", "indexOf", "join", "keys",
   "entries", "values", "forEach", "filter", "flat", "flatMap", "map", "every", "some",
   "reduce", "reduceRight", "toLocaleString", "toString", "toReversed", "toSorted",
   "toSpliced", "with"]

/-- Property names of `String.prototype` (string-keyed). -/
def stringProto : List String :=
  ["length", "constructor", "anchor", "at", "big", "blink", "bold", "charAt",
   "charCodeAt", "codePointAt", "concat", "endsWith", "fontcolor", "fontsize", "fixed",
   "includes", "indexOf", "isWellFormed", "italics", "lastIndexOf", "link",
   "localeCompare", "match", "matchAll", "normalize", "padEnd", "padStart", "repeat",
   "replace", "replaceAll", "search", "slice", "small", "split", "strike", "sub",
   "substr", "substring", "sup", "startsWith", "toString", "toWellFormed", "trim",
   "trimStart", "trimLeft", "trimEnd", "trimRight", "toLocaleLowerCase",
   "toLocaleUpperCase", "toLowerCase", "toUpperCase", "valueOf"]

/-- Property names of `Number.prototype`. -/
def numberProto : List String :=
  ["constructor", "toExponential", "toFixed", "toPrecision", "toString", "valueOf",
   "toLocaleString"]

/-- Property names of `Boolean.prototype`. -/
def booleanProto : List String :=
  ["constructor", "toString", "valueOf"]

/-- A property found on one of the given prototypes, else `undefined`. -/
def inherited (tables : List (List String)) (key : String) : JRes :=
  if tables.any (fun t => t.contains key) then JRes.other else JRes.undefined

/-- The read `v[key]` for a string key; `none` when it throws a `TypeError`
(the receiver is `null`). -/
def getProp : JVal → String → Option JRes
  | .null, _ => none
  | .bool _, key => some (inherited [booleanProto, objectProto] key)
  | .num _, key => some (inherited [numberProto, objectProto] key)
  | .str s, key =>
    match arrayIndex key with
    | some i => some (if i < utf16Length s then JRes.other else JRes.undefined)
    | none =>
      if key = "length" then some (JRes.val (JVal.num (utf16Length s)))
      else some (inherited [stringProto, objectProto] key)
  | .arr items, key =>
    match arrayIndex key with
    | some i =>
      match items.get? i with
      | some v => some (JRes.val v)
      | none => some JRes.undefined
    | none =>
      if key = "length" then some (JRes.val (JVal.num items.length))
      else some (inherited [arrayProto, objectProto] key)
  | .obj fields, key =>
    match fields.lookup key with
    | some v => some (JRes.val v)
    | none => some (inherited [objectProto] key)

/-- Replace the value of the own property `key`, keeping its position. -/
def replaceOwn : List (String × JVal) → String → JVal → List (String × JVal)
  | [], _, _ => []
  | (k, w) :: rest, key, v =>
    if key = k then (k, v) :: rest else (k, w) :: replaceOwn rest key v

/-- Create the own property `key`.  A key that is an array index goes before
the first key that is not a smaller array index; any other key goes last
(the order in which `JSON.stringify` later lists the keys). -/
def insertOwn : List (String × JVal) → String → JVal → List (String × JVal)
  | [], key, v => [(key, v)]
  | (k, w) :: rest, key, v =>
    match arrayIndex key, arrayIndex k with
    | some n, some m => if m < n then (k, w) :: insertOwn rest key v else (key, v) :: (k, w) :: rest
    | some _, none => (key, v) :: (k, w) :: rest
    | none, _ => (k, w) :: insertOwn rest key v

/-- The assignment `o[key] = v` on an object with the given own properties. -/
def setOwn (fields : List (String × JVal)) (key : String) (v : JVal) : List (String × JVal) :=
  match fields.lookup key with
  | some _ => replaceOwn fields key v
  | none => insertOwn fields key v

/-- The statement `delete o[key]` on an object with the given own properties. -/
def deleteOwn (fields : List (String × JVal)) (key : String) : List (String × JVal) :=
  fields.filter (fun p => p.1 != key)

/-! ## Responses -/

/-- The JSON body of a response. -/
inductive Body where
  /-- The body `{ success: true, message }`. -/
  | success (message : String)
  /-- The body `{ error }`. -/
  | error (error : String)

/-- What a handler does once the data file has been read and parsed. -/
inductive Outcome where
  /-- The handler answers with `status` and `body`; `written` is the document it
  passed to `fs.writeFile(DATA_FILE, JSON.stringify(..))`, `none` when it
  answered without writing. -/
  | reply (status : Nat) (body : Body) (written : Option JVal)
  /-- The data file does not hold a JSON object, or one of the property names
  the handlers use (`cities`, `guides`, `items`, ...) resolves to a built-in,
  which the tables of inherited names exclude: outside this model. -/
  | beyond

/-! ## Countries -/

/-- Handler of `POST /api/countries` (server.js 167-182), after
`const data = JSON.parse(...)` and `const { countryKey, countryData } = req.body`. -/
def createCountry (data : JVal) (countryKey : String) (countryData : JVal) : Outcome :=
  match data with
  | .obj fields =>
    match getProp (.obj fields) countryKey with
    | none => .reply 500 (.error "Failed to add country") none
    | some r =>
      -- `if (data[countryKey])`
      if r.truthy then .reply 400 (.error "Country already exists") none
      -- `data[countryKey] = countryData`
      else .reply 200 (.success "Country added successfully")
             (some (.obj (setOwn fields countryKey countryData)))
  | _ => .beyond

/-- Handler of `DELETE /api/countries/:countryKey` (server.js 185-201). -/
def deleteCountry (data : JVal) (countryKey : String) : Outcome :=
  match data with
  | .obj fields =>
    match getProp (.obj fields) countryKey with
    | none => .reply 500 (.error "Failed to delete country") none
    | some r =>
      -- `if (!data[countryKey])`
      if !r.truthy then .reply 404 (.error "Country not found") none
      -- `delete data[countryKey]`
      else .reply 200 (.success "Country deleted successfully")
             (some (.obj (deleteOwn fields countryKey)))
  | _ => .beyond

/-! ## Cities and guides -/

/-- The effect, as `JSON.stringify` later sees it, of the assignment
`v.key = x` for a key that is not an array index: an object gets or updates
the own property; on an array the property is an extra one that
`JSON.stringify` leaves out; on a primitive the assignment does nothing. -/
def setProp (v : JVal) (key : String) (x : JVal) : JVal :=
  match v with
  | .obj fields => .obj (setOwn fields key x)
  | w => w

/-- The callback `c => c.slug === citySlug`; `none` when reading `c.slug`
throws (the element is `null`). -/
def slugIs (c : JVal) (citySlug : String) : Option Bool :=
  match getProp c "slug" with
  | none => none
  | some (.val (.str s)) => some (decide (s = citySlug))
  | some _ => some false

/-- Result of `find` / `findIndex` with the slug callback. -/
inductive Found where
  /-- The callback threw before any element matched. -/
  | threw
  /-- No element matched (`undefined`, index `-1`). -/
  | missing
  /-- The first matching element and its index. -/
  | hit (index : Nat) (city : JVal)

/-- The scan `cities.find(c => c.slug === citySlug)`, left to right. -/
def findBySlug : List JVal → String → Found
  | [], _ => .missing
  | c :: rest, citySlug =>
    match slugIs c citySlug with
    | none => .threw
    | some true => .hit 0 c
    | some false =>
      match findBySlug rest citySlug with
      | .hit i city => .hit (i + 1) city
      | r => r

/-- Handler of `POST /api/countries/:countryKey/cities` (server.js 204-224). -/
def addCity (data : JVal) (countryKey : String) (cityData : JVal) : Outcome :=
  match data with
  | .obj fields =>
    match getProp (.obj fields) countryKey with
    | none => .reply 500 (.error "Failed to add city") none
    | some r =>
      if !r.truthy then .reply 404 (.error "Country not found") none
      else
        match r with
        | .val c =>
          match getProp c "cities" with
          | none => .reply 500 (.error "Failed to add city") none
          | some rc =>
            if !rc.truthy then
              -- `data[countryKey].cities = []`, then the push
              match c with
              | .obj _ | .arr _ =>
                .reply 200 (.success "City added successfully")
                  (some (.obj (setOwn fields countryKey (setProp c "cities" (.arr [cityData])))))
              | _ => .reply 500 (.error "Failed to add city") none
            else
              -- `data[countryKey].cities.push(cityData)`; only an array has `push`
              match rc with
              | .val (.arr cities) =>
                .reply 200 (.success "City added successfully")
                  (some (.obj (setOwn fields countryKey
                    (setProp c "cities" (.arr (cities ++ [cityData]))))))
              | .other => .beyond
              | _ => .reply 500 (.error "Failed to add city") none
        | _ =>
          -- a built-in reached through the prototype chain: it gets the
          -- property, the document is written back as it was
          .reply 200 (.success "City added successfully") (some (.obj fields))
  | _ => .beyond

/-- Handler of `DELETE /api/countries/:countryKey/cities/:citySlug`
(server.js 227-248). -/
def deleteCity (data : JVal) (countryKey citySlug : String) : Outcome :=
  match data with
  | .obj fields =>
    match getProp (.obj fields) countryKey with
    | none => .reply 500 (.error "Failed to delete city") none
    | some r =>
      if !r.truthy then .reply 404 (.error "Country or cities not found") none
      else
        match r with
        | .val c =>
          match getProp c "cities" with
          | none => .reply 500 (.error "Failed to delete city") none
          | some rc =>
            if !rc.truthy then .reply 404 (.error "Country or cities not found") none
            else
              -- `findIndex` exists on arrays only; `splice(cityIndex, 1)` removes the match
              match rc with
              | .val (.arr cities) =>
                match findBySlug cities citySlug with
                | .threw => .reply 500 (.error "Failed to delete city") none
                | .missing => .reply 404 (.error "City not found") none
                | .hit cityIndex _ =>
                  .reply 200 (.success "City deleted successfully")
                    (some (.obj (setOwn fields countryKey
                      (setProp c "cities" (.arr (cities.eraseIdx cityIndex))))))
              | .other => .beyond
              | _ => .reply 500 (.error "Failed to delete city") none
        | _ =>
          -- a built-in reached through the prototype chain has no `cities`
          .reply 404 (.error "Country or cities not found") none
  | _ => .beyond

/-- Handler of `POST /api/countries/:countryKey/cities/:citySlug/guides`
(server.js 251-274). -/
def addGuide (data : JVal) (countryKey citySlug : String) (guideData : JVal) : Outcome :=
  match data with
  | .obj fields =>
    match getProp (.obj fields) countryKey with
    | none => .reply 500 (.error "Failed to add guide") none
    | some r =>
      if !r.truthy then .reply 404 (.error "Country not found") none
      else
        match r with
        | .val c =>
          -- `data[countryKey].cities?.find(...)`: `?.` gives `undefined` on a
          -- missing or `null` sequence, `find` exists on arrays only
          match getProp c "cities" with
          | none => .reply 500 (.error "Failed to add guide") none
          | some .undefined | some (.val .null) => .reply 404 (.error "City not found") none
          | some (.val (.arr cities)) =>
            match findBySlug cities citySlug with
            | .threw => .reply 500 (.error "Failed to add guide") none
            | .missing => .reply 404 (.error "City not found") none
            | .hit i city =>
              if !city.truthy then .reply 404 (.error "City not found") none
              else
                match getProp city "guides" with
                | none => .reply 500 (.error "Failed to add guide") none
                | some rg =>
                  -- `if (!city.guides) city.guides = []`, then the push
                  if !rg.truthy then
                    .reply 200 (.success "Guide added successfully")
                      (some (.obj (setOwn fields countryKey (setProp c "cities"
                        (.arr (cities.set i (setProp city "guides" (.arr [guideData]))))))))
                  else
                    match rg with
                    | .val (.arr guides) =>
                      .reply 200 (.success "Guide added successfully")
                        (some (.obj (setOwn fields countryKey (setProp c "cities"
                          (.arr (cities.set i
                            (setProp city "guides" (.arr (guides ++ [guideData])))))))))
                    | .other => .beyond
                    | _ => .reply 500 (.error "Failed to add guide") none
          | some .other => .beyond
          | some _ => .reply 500 (.error "Failed to add guide") none
        | _ =>
          -- a built-in reached through the prototype chain has no `cities`
          .reply 404 (.error "City not found") none
  | _ => .beyond

/-- The start position `splice` derives from a string key that passed the
truthiness test `guides[key]` on an array: an array index denotes itself; any
other such key is `"length"` or the name of an inherited method, for which
`ToNumber` is `NaN` and the start is 0. -/
def spliceStart (key : String) : Nat :=
  (arrayIndex key).getD 0

/-- The call `items.splice(key, 1)`: remove one element at the start position
(none when the start is at or past the end). -/
def spliceOne (items : List JVal) (key : String) : List JVal :=
  items.eraseIdx (spliceStart key)

/-- Handler of `DELETE /api/countries/:countryKey/cities/:citySlug/guides/:guideIndex`
(server.js 277-294). -/
def deleteGuide (data : JVal) (countryKey citySlug guideIndex : String) : Outcome :=
  match data with
  | .obj fields =>
    -- `data[countryKey]?.cities?.find(...)`, then
    -- `if (!city || !city.guides || !city.guides[guideIndex])`
    match getProp (.obj fields) countryKey with
    | none => .reply 500 (.error "Failed to delete guide") none
    | some .undefined | some (.val .null) => .reply 404 (.error "Guide not found") none
    -- a built-in reached through the prototype chain has no `cities`
    | some .other => .reply 404 (.error "Guide not found") none
    | some (.val c) =>
      match getProp c "cities" with
      | none => .reply 500 (.error "Failed to delete guide") none
      | some .undefined | some (.val .null) => .reply 404 (.error "Guide not found") none
      | some (.val (.arr cities)) =>
        match findBySlug cities citySlug with
        | .threw => .reply 500 (.error "Failed to delete guide") none
        | .missing => .reply 404 (.error "Guide not found") none
        | .hit i city =>
          if !city.truthy then .reply 404 (.error "Guide not found") none
          else
            match getProp city "guides" with
            | none => .reply 500 (.error "Failed to delete guide") none
            | some rg =>
              if !rg.truthy then .reply 404 (.error "Guide not found") none
              else
                match rg with
                | .val guides =>
                  match getProp guides guideIndex with
                  | none => .reply 500 (.error "Failed to delete guide") none
                  | some re =>
                    if !re.truthy then .reply 404 (.error "Guide not found") none
                    else
                      -- `city.guides.splice(guideIndex, 1)`; only an array has `splice`
                      match guides with
                      | .arr gs =>
                        .reply 200 (.success "Guide deleted successfully")
                          (some (.obj (setOwn fields countryKey (setProp c "cities"
                            (.arr (cities.set i
                              (setProp city "guides" (.arr (spliceOne gs guideIndex)))))))))
                      | _ => .reply 500 (.error "Failed to delete guide") none
                | _ => .beyond
      | some .other => .beyond
      | some _ => .reply 500 (.error "Failed to delete guide") none
  | _ => .beyond

/-! ## Itineraries and transport -/

mutual
/-- The string a template literal puts in place of a JSON value (`ToString`);
`none` when the conversion throws (an object whose own `toString` hides
the inherited method). -/
def JVal.toStr : JVal → Option String
  | .null => some "null"
  | .bool b => some (if b then "true" else "false")
  | .num n => some (toString n)
  | .str s => some s
  | .arr items => joinStr items
  | .obj fields => if (fields.lookup "toString").isSome then none else some "[object Object]"
/-- The text `Array.prototype.join` builds with the separator `","`: a `null`
element contributes the empty string. -/
def joinStr : List JVal → Option String
  | [] => some ""
  | .null :: rest =>
    match rest with
    | [] => some ""
    | _ :: _ => (joinStr rest).map (fun t => "," ++ t)
  | x :: rest =>
    match x.toStr, rest with
    | none, _ => none
    | some t, [] => some t
    | some t, _ :: _ => (joinStr rest).map (fun u => t ++ "," ++ u)
end

/-- The text of `${r}` for the result of a property read that is not a
built-in; `none` when the conversion throws. -/
def templateText : JRes → Option String
  | .undefined => some "undefined"
  | .val v => v.toStr
  | .other => none

/-- The object literal of server.js 308-312 after the push of line 315. -/
def newItineraries (name : String) (itineraryData : JVal) : JVal :=
  .obj [("title", .str (name ++ " Itineraries")),
        ("description", .str ("Explore " ++ name ++ " with our curated itineraries.")),
        ("items", .arr [itineraryData])]

/-- Handler of `POST /api/countries/:countryKey/itineraries` (server.js 297-322). -/
def addItinerary (data : JVal) (countryKey : String) (itineraryData : JVal) : Outcome :=
  match data with
  | .obj fields =>
    match getProp (.obj fields) countryKey with
    | none => .reply 500 (.error "Failed to add itinerary") none
    | some r =>
      if !r.truthy then .reply 404 (.error "Country not found") none
      else
        match r with
        | .val c =>
          match getProp c "itineraries" with
          | none => .reply 500 (.error "Failed to add itinerary") none
          | some ri =>
            if !ri.truthy then
              -- the block is created; the template literals read `data[countryKey].name`
              match getProp c "name" with
              | none => .reply 500 (.error "Failed to add itinerary") none
              | some .other => .beyond
              | some rn =>
                match templateText rn with
                | none => .reply 500 (.error "Failed to add itinerary") none
                | some name =>
                  match c with
                  | .obj _ | .arr _ =>
                    .reply 200 (.success "Itinerary added successfully")
                      (some (.obj (setOwn fields countryKey
                        (setProp c "itineraries" (newItineraries name itineraryData)))))
                  | _ => .reply 500 (.error "Failed to add itinerary") none
            else
              -- `data[countryKey].itineraries.items.push(itineraryData)`
              match ri with
              | .val block =>
                match getProp block "items" with
                | some (.val (.arr items)) =>
                  .reply 200 (.success "Itinerary added successfully")
                    (some (.obj (setOwn fields countryKey (setProp c "itineraries"
                      (setProp block "items" (.arr (items ++ [itineraryData])))))))
                | some .other => .beyond
                | _ => .reply 500 (.error "Failed to add itinerary") none
              | _ => .beyond
        | _ =>
          -- a built-in reached through the prototype chain: it gets the
          -- block, the document is written back as it was
          .reply 200 (.success "Itinerary added successfully") (some (.obj fields))
  | _ => .beyond

/-- The object literal of server.js 359-363 after the push of line 366. -/
def newTransport (name : String) (transportData : JVal) : JVal :=
  .obj [("title", .str ("Getting Around " ++ name)),
        ("description", .str ("Transportation options in " ++ name ++ ".")),
        ("modes", .arr [transportData])]

/-- Handler of `POST /api/countries/:countryKey/transport` (server.js 348-373). -/
def addTransport (data : JVal) (countryKey : String) (transportData : JVal) : Outcome :=
  match data with
  | .obj fields =>
    match getProp (.obj fields) countryKey with
    | none => .reply 500 (.error "Failed to add transport mode") none
    | some r =>
      if !r.truthy then .reply 404 (.error "Country not found") none
      else
        match r with
        | .val c =>
          match getProp c "transport" with
          | none => .reply 500 (.error "Failed to add transport mode") none
          | some rt =>
            if !rt.truthy then
              match getProp c "name" with
              | none => .reply 500 (.error "Failed to add transport mode") none
              | some .other => .beyond
              | some rn =>
                match templateText rn with
                | none => .reply 500 (.error "Failed to add transport mode") none
                | some name =>
                  match c with
                  | .obj _ | .arr _ =>
                    .reply 200 (.success "Transport mode added successfully")
                      (some (.obj (setOwn fields countryKey
                        (setProp c "transport" (newTransport name transportData)))))
                  | _ => .reply 500 (.error "Failed to add transport mode") none
            else
              match rt with
              | .val block =>
                match getProp block "modes" with
                | some (.val (.arr modes)) =>
                  .reply 200 (.success "Transport mode added successfully")
                    (some (.obj (setOwn fields countryKey (setProp c "transport"
                      (setProp block "modes" (.arr (modes ++ [transportData])))))))
                | some .other => .beyond
                | _ => .reply 500 (.error "Failed to add transport mode") none
              | _ => .beyond
        | _ =>
          -- a built-in reached through the prototype chain: it gets the
          -- block, the document is written back as it was
          .reply 200 (.success "Transport mode added successfully") (some (.obj fields))
  | _ => .beyond

/-- Handler of `DELETE /api/countries/:countryKey/itineraries/:itineraryIndex`
(server.js 325-345). -/
def deleteItinerary (data : JVal) (countryKey itineraryIndex : String) : Outcome :=
  match data with
  | .obj fields =>
    match getProp (.obj fields) countryKey with
    | none => .reply 500 (.error "Failed to delete itinerary") none
    | some r =>
      if !r.truthy then .reply 404 (.error "Country or itineraries not found") none
      else
        match r with
        | .val c =>
          match getProp c "itineraries" with
          | none => .reply 500 (.error "Failed to delete itinerary") none
          | some ri =>
            if !ri.truthy then .reply 404 (.error "Country or itineraries not found") none
            else
              match ri with
              | .val block =>
                match getProp block "items" with
                | none => .reply 500 (.error "Failed to delete itinerary") none
                | some rs =>
                  if !rs.truthy then
                    .reply 404 (.error "Country or itineraries not found") none
                  else
                    match rs with
                    | .val items =>
                      match getProp items itineraryIndex with
                      | none => .reply 500 (.error "Failed to delete itinerary") none
                      | some re =>
                        if !re.truthy then .reply 404 (.error "Itinerary not found") none
                        else
                          match items with
                          | .arr xs =>
                            .reply 200 (.success "Itinerary deleted successfully")
                              (some (.obj (setOwn fields countryKey (setProp c "itineraries"
                                (setProp block "items" (.arr (spliceOne xs itineraryIndex)))))))
                          | _ => .reply 500 (.error "Failed to delete itinerary") none
                    | _ => .beyond
              | _ => .beyond
        | _ =>
          -- a built-in reached through the prototype chain has no `itineraries`
          .reply 404 (.error "Country or itineraries not found") none
  | _ => .beyond

/-- Handler of `DELETE /api/countries/:countryKey/transport/:transportIndex`
(server.js 376-396). -/
def deleteTransport (data : JVal) (countryKey transportIndex : String) : Outcome :=
  match data with
  | .obj fields =>
    match getProp (.obj fields) countryKey with
    | none => .reply 500 (.error "Failed to delete transport mode") none
    | some r =>
      if !r.truthy then .reply 404 (.error "Country or transport modes not found") none
      else
        match r with
        | .val c =>
          match getProp c "transport" with
          | none => .reply 500 (.error "Failed to delete transport mode") none
          | some rt =>
            if !rt.truthy then
              .reply 404 (.error "Country or transport modes not found") none
            else
              match rt with
              | .val block =>
                match getProp block "modes" with
                | none => .reply 500 (.error "Failed to delete transport mode") none
                | some rs =>
                  if !rs.truthy then
                    .reply 404 (.error "Country or transport modes not found") none
                  else
                    match rs with
                    | .val modes =>
                      match getProp modes transportIndex with
                      | none => .reply 500 (.error "Failed to delete transport mode") none
                      | some re =>
                        if !re.truthy then
                          .reply 404 (.error "Transport mode not found") none
                        else
                          match modes with
                          | .arr xs =>
                            .reply 200 (.success "Transport mode deleted successfully")
                              (some (.obj (setOwn fields countryKey (setProp c "transport"
                                (setProp block "modes" (.arr (spliceOne xs transportIndex)))))))
                          | _ => .reply 500 (.error "Failed to delete transport mode") none
                    | _ => .beyond
              | _ => .beyond
        | _ =>
          -- a built-in reached through the prototype chain has no `transport`
          .reply 404 (.error "Country or transport modes not found") none
  | _ => .beyond

/-! ## The data directory

File texts are kept up to what `JSON.parse` makes of them: the server only
ever parses a text or copies it unchanged. -/

/-- The text of a file. -/
inductive Content where
  /-- A text that `JSON.parse` maps to `v`; `JSON.stringify(v, null, 2)` is one. -/
  | json (v : JVal)
  /-- A text that `JSON.parse` rejects. -/
  | junk (text : String)

/-- The directory `data/` next to server.js: file name and content. -/
structure Disk where
  files : List (String × Content)

/-- The file name of `DATA_FILE` inside `data/`. -/
def dataFile : String := "travel-data.json"

/-- How a call of `fs.writeFile` ends. -/
inductive WriteFault where
  /-- The write goes through. -/
  | none
  /-- The promise rejects; the target file is untouched (`left = none`) or is
  left holding the text `left`. -/
  | rejects (left : Option Content)

/-- The I/O failures of one request, other than a missing file. -/
structure Faults where
  /-- The call `fs.readFile(DATA_FILE)` rejects although the file is there. -/
  read : Bool
  /-- The write of the backup file (PUT only). -/
  backupWrite : WriteFault
  /-- The write of `DATA_FILE`. -/
  dataWrite : WriteFault

/-- No I/O failure. -/
def noFaults : Faults := ⟨false, .none, .none⟩

/-- Content of the file `name`, `none` when there is no such file. -/
def Disk.content (disk : Disk) (name : String) : Option Content :=
  disk.files.lookup name

/-- Create the file `name` or replace its content. -/
def Disk.store (disk : Disk) (name : String) (c : Content) : Disk :=
  ⟨(name, c) :: disk.files.filter (fun p => p.1 != name)⟩

/-- The call `fs.readFile(DATA_FILE, 'utf8')`: `none` when it rejects. -/
def readData (f : Faults) (disk : Disk) : Option Content :=
  if f.read then none else disk.content dataFile

/-- The call `fs.writeFile(name, c)`: whether it resolved, and the directory
afterwards. -/
def writeFile (w : WriteFault) (disk : Disk) (name : String) (c : Content) : Bool × Disk :=
  match w with
  | .none => (true, disk.store name c)
  | .rejects none => (false, disk)
  | .rejects (some t) => (false, disk.store name t)

/-- The skeleton shared by the handlers of server.js 167-396: read and parse
the data file, run the handler, write the document back when the handler got
that far; any exception gives status 500 with the message of that handler.
`none` when the handler leaves the model. -/
def serve (handler : JVal → Outcome) (failure : String) (f : Faults) (disk : Disk) :
    Option (Nat × Body × Disk) :=
  match readData f disk with
  | none => some (500, .error failure, disk)
  | some (.junk _) => some (500, .error failure, disk)
  | some (.json data) =>
    match handler data with
    | .beyond => none
    | .reply status body none => some (status, body, disk)
    | .reply status body (some doc) =>
      match writeFile f.dataWrite disk dataFile (.json doc) with
      | (true, disk1) => some (status, body, disk1)
      | (false, disk1) => some (500, .error failure, disk1)

/-- A request to one of the structural endpoints. -/
inductive Request where
  | createCountry (countryKey : String) (countryData : JVal)
  | deleteCountry (countryKey : String)
  | addCity (countryKey : String) (cityData : JVal)
  | deleteCity (countryKey citySlug : String)
  | addGuide (countryKey citySlug : String) (guideData : JVal)
  | deleteGuide (countryKey citySlug guideIndex : String)
  | addItinerary (countryKey : String) (itineraryData : JVal)
  | deleteItinerary (countryKey itineraryIndex : String)
  | addTransport (countryKey : String) (transportData : JVal)
  | deleteTransport (countryKey transportIndex : String)

/-- The route a request is dispatched to, with the message of its catch block. -/
def Request.handler : Request → (JVal → Outcome) × String
  | .createCountry k d => (fun data => FpSelections.createCountry data k d, "Failed to add country")
  | .deleteCountry k => (fun data => FpSelections.deleteCountry data k, "Failed to delete country")
  | .addCity k c => (fun data => FpSelections.addCity data k c, "Failed to add city")
  | .deleteCity k s => (fun data => FpSelections.deleteCity data k s, "Failed to delete city")
  | .addGuide k s g => (fun data => FpSelections.addGuide data k s g, "Failed to add guide")
  | .deleteGuide k s i =>
    (fun data => FpSelections.deleteGuide data k s i, "Failed to delete guide")
  | .addItinerary k x =>
    (fun data => FpSelections.addItinerary data k x, "Failed to add itinerary")
  | .deleteItinerary k i =>
    (fun data => FpSelections.deleteItinerary data k i, "Failed to delete itinerary")
  | .addTransport k x =>
    (fun data => FpSelections.addTransport data k x, "Failed to add transport mode")
  | .deleteTransport k i =>
    (fun data => FpSelections.deleteTransport data k i, "Failed to delete transport mode")

/-- A structural request served against the data directory. -/
def handle (req : Request) (f : Faults) (disk : Disk) : Option (Nat × Body × Disk) :=
  serve req.handler.1 req.handler.2 f disk

/-- The expression `new Date().toISOString().replace(/[:.]/g, '-')` applied to
the ISO text of the clock. -/
def backupStamp (iso : String) : String :=
  String.mk (iso.data.map (fun c => if c = ':' ∨ c = '.' then '-' else c))

/-- The file name of the backup inside `data/` (server.js 99). -/
def backupFile (iso : String) : String :=
  "backup-" ++ backupStamp iso ++ ".json"

/-- Handler of `PUT /api/data` (server.js 95-109); `iso` is the text
`new Date().toISOString()` of the request, `body` is `req.body`. -/
def putData (iso : String) (f : Faults) (disk : Disk) (body : JVal) : Nat × Body × Disk :=
  match readData f disk with
  | none => (500, .error "Failed to save data", disk)
  | some currentData =>
    match writeFile f.backupWrite disk (backupFile iso) currentData with
    | (false, disk1) => (500, .error "Failed to save data", disk1)
    | (true, disk1) =>
      match writeFile f.dataWrite disk1 dataFile (.json body) with
      | (false, disk2) => (500, .error "Failed to save data", disk2)
      | (true, disk2) => (200, .success "Data saved successfully", disk2)

/-! ## Images (server.js 24-48, 112-130 and 133-150, script.js 318-323)

Numbers are exact integers here as well: `Date.now()` and the value
`parseInt` gives for a run of digits are exact as long as they stay below 2^53. -/

/-- White space and line terminators of JavaScript: what `\s` matches and what
`parseInt` skips at the front. -/
def isJsSpace (c : Char) : Bool :=
  [9, 10, 11, 12, 13, 32, 160, 5760, 8232, 8233, 8239, 8287, 12288, 65279].contains c.toNat
    || (8192 ≤ c.toNat && c.toNat ≤ 8202)

/-- The replacement `replace(/\s+/g, '-')`; `inRun` tells that the previous
character belonged to a run of white space that is already replaced. -/
def collapseFrom (inRun : Bool) : List Char → List Char
  | [] => []
  | c :: cs =>
    if isJsSpace c then
      if inRun then collapseFrom true cs else '-' :: collapseFrom true cs
    else c :: collapseFrom false cs

/-- The expression `file.originalname.replace(/\s+/g, '-')`. -/
def collapseSpaces (originalname : String) : String :=
  String.mk (collapseFrom false originalname.data)

/-- The `filename` callback of the disk storage (server.js 28-32):
`Date.now() + '-' + file.originalname.replace(/\s+/g, '-')`. -/
def storedName (now : Nat) (originalname : String) : String :=
  toString now ++ "-" ++ collapseSpaces originalname

/-- The `fileFilter` callback (server.js 37-44):
`file.mimetype.startsWith('image/')`. -/
def fileFilter (mimetype : String) : Bool :=
  "image/".data.isPrefixOf mimetype.data

/-- The option `limits.fileSize` (server.js 46). -/
def fileSizeLimit : Nat := 5 * 1024 * 1024

/-- The size check of `uploadImage` in script.js 320: the client alerts and
returns without sending when `file.size > 5 * 1024 * 1024`. -/
def clientRefuses (size : Nat) : Bool :=
  decide (size > 5 * 1024 * 1024)

/-- How the upload of one file ends. -/
inductive UploadResult where
  /-- The client alerted and returned without sending (script.js 320-323). -/
  | refused
  /-- The file filter passed on the error 'Only image files are allowed!'. -/
  | notImage
  /-- The file has more bytes than `limits.fileSize`; multer ends the request
  with the error `LIMIT_FILE_SIZE`. -/
  | tooLarge
  /-- The file is in the uploads directory under `filename`, and the handler
  answered `success` with this `filePath`. -/
  | stored (filename filePath : String)

/-- The route `POST /api/images` (server.js 35-48 and 112-130) for a request
that carries one file in the field `image`, received at the time `now`.
`upload.single('image')` asks the file filter first, then writes the file under
the generated name while it counts the bytes against `limits.fileSize`, which
multer documents as the maximum file size in bytes; the handler then answers
with `/images/` and the stored name. -/
def upload (now : Nat) (mimetype originalname : String) (size : Nat) : UploadResult :=
  if !fileFilter mimetype then .notImage
  else if size > fileSizeLimit then .tooLarge
  else .stored (storedName now originalname) ("/images/" ++ storedName now originalname)

/-- The method `uploadImage(file)` of the client (script.js 318-370): the size
check, then the request to `POST /api/images`. -/
def uploadImage (now : Nat) (mimetype originalname : String) (size : Nat) : UploadResult :=
  if clientRefuses size then .refused else upload now mimetype originalname size

/-- The alternatives of the pattern `/\.(jpg|jpeg|png|gif|webp)$/i`. -/
def imageExtensions : List String :=
  ["jpg", "jpeg", "png", "gif", "webp"]

/-- The pattern matched at the front of `cs`: a dot, then one alternative
(letters compared without regard to case), then the end of the input. -/
def patternHere : List Char → Bool
  | '.' :: rest => imageExtensions.any (fun e => rest.map Char.toLower == e.data)
  | _ => false

/-- The pattern tried at every position from left to right. -/
def patternFrom : List Char → Bool
  | [] => false
  | c :: cs => patternHere (c :: cs) || patternFrom cs

/-- The test `/\.(jpg|jpeg|png|gif|webp)$/i.test(file)`. -/
def isImageName (file : String) : Bool :=
  patternFrom file.data

/-- An element of the array sent by `GET /api/images`. -/
structure ImageEntry where
  filename : String
  path : String
  uploadDate : String

/-- The expression `file.split('-')[0]`. -/
def splitFirst (file : String) : String :=
  String.mk (file.data.takeWhile (fun c => c != '-'))

/-- The object literal of server.js 138-142. -/
def toEntry (file : String) : ImageEntry :=
  ⟨file, "/images/" ++ file, splitFirst file⟩

/-- Value of a character as a digit of the radix, `none` when it is none. -/
def digitValue (radix : Nat) (c : Char) : Option Nat :=
  let v :=
    if 48 ≤ c.toNat ∧ c.toNat ≤ 57 then c.toNat - 48
    else if 97 ≤ c.toNat ∧ c.toNat ≤ 122 then c.toNat - 87
    else if 65 ≤ c.toNat ∧ c.toNat ≤ 90 then c.toNat - 55
    else radix
  if v < radix then some v else none

/-- Value of the longest run of digits at the front; `acc` is `none` until a
digit has been read. -/
def leadingValue (radix : Nat) : List Char → Option Nat → Option Nat
  | [], acc => acc
  | c :: cs, acc =>
    match digitValue radix c with
    | some d => leadingValue radix cs (some (acc.getD 0 * radix + d))
    | none => acc

/-- The digits of `parseInt` after the sign: radix 16 after `0x`, else 10. -/
def parseMagnitude : List Char → Option Nat
  | '0' :: 'x' :: rest => leadingValue 16 rest none
  | '0' :: 'X' :: rest => leadingValue 16 rest none
  | rest => leadingValue 10 rest none

/-- The call `parseInt(s)`; `none` is `NaN`. -/
def parseInt (s : String) : Option Int :=
  match s.data.dropWhile isJsSpace with
  | '-' :: rest => (parseMagnitude rest).map (fun n => - (n : Int))
  | '+' :: rest => (parseMagnitude rest).map (fun n => (n : Int))
  | rest => (parseMagnitude rest).map (fun n => (n : Int))

/-- The comparator `(a, b) => parseInt(b.uploadDate) - parseInt(a.uploadDate)`
as `sort` reads it: a `NaN` result counts as 0. -/
def compareDates (a b : ImageEntry) : Int :=
  match parseInt b.uploadDate, parseInt a.uploadDate with
  | some y, some x => y - x
  | _, _ => 0

/-- One step of the stable sort: `a` goes before the first element it does not
have to follow. -/
def insertEntry (a : ImageEntry) : List ImageEntry → List ImageEntry
  | [] => [a]
  | b :: rest => if compareDates a b ≤ 0 then a :: b :: rest else b :: insertEntry a rest

/-- The call `.sort(comparator)`.  `sort` is stable, and for a comparator that
orders the elements consistently the stable sorted order is unique: this is it.
When an `uploadDate` is no number the comparator is not an order and the
engine may return another permutation. -/
def sortEntries : List ImageEntry → List ImageEntry
  | [] => []
  | a :: rest => insertEntry a (sortEntries rest)

/-- The array sent by `GET /api/images` for the directory listing `files`
(server.js 135-143). -/
def listImages (files : List String) : List ImageEntry :=
  sortEntries ((files.filter isImageName).map toEntry)

/-- A name ends with a dot and the given extension, the letters of the
extension compared without regard to case (the wording of the specification). -/
def endsWithExtension (name ext : String) : Prop :=
  ∃ front body, name.data = front ++ '.' :: body ∧ body.map Char.toLower = ext.data

/-- A name ends with `.jpg`, `.jpeg`, `.png`, `.gif` or `.webp` (the wording of
the specification). -/
def hasImageSuffix (name : String) : Prop :=
  endsWithExtension name "jpg" ∨ endsWithExtension name "jpeg"
    ∨ endsWithExtension name "png" ∨ endsWithExtension name "gif"
    ∨ endsWithExtension name "webp"

/-! ## Reading a document, and sample documents -/

/-- The document in the data file once a request has been answered, given the
one the request found there. -/
def Outcome.persisted (o : Outcome) (before : JVal) : JVal :=
  match o with
  | .reply _ _ (some doc) => doc
  | _ => before

/-- The city sequence `data[countryKey].cities`, when it is an array. -/
def citiesOf (data : JVal) (countryKey : String) : Option (List JVal) :=
  match getProp data countryKey with
  | some (.val c) =>
    match getProp c "cities" with
    | some (.val (.arr cities)) => some cities
    | _ => none
  | _ => none

/-- The city Tokyo with two guides. -/
def tokyo : JVal :=
  .obj [("slug", .str "tokyo"), ("name", .str "Tokyo"),
        ("guides", .arr [.obj [("title", .str "Temples")], .obj [("title", .str "Food")]])]

/-- The country Japan with the single city Tokyo. -/
def japan : JVal :=
  .obj [("name", .str "Japan"), ("continent", .str "Asia"), ("cities", .arr [tokyo])]

/-- The document holding only Japan. -/
def japanDoc : JVal :=
  .obj [("japan", japan)]

/-- A second city whose slug is also `tokyo`. -/
def edo : JVal :=
  .obj [("slug", .str "tokyo"), ("name", .str "Edo"), ("guides", .arr [])]

/-- The city Kyoto, without guides. -/
def kyoto : JVal :=
  .obj [("slug", .str "kyoto"), ("name", .str "Kyoto"), ("guides", .arr [])]

/-- The document after the city `edo` was added to `japanDoc`. -/
def japanTwoTokyos : JVal :=
  .obj [("japan", .obj [("name", .str "Japan"), ("continent", .str "Asia"),
    ("cities", .arr [tokyo, edo])])]

/-- The document `japanTwoTokyos` without its first city. -/
def japanEdoOnly : JVal :=
  .obj [("japan", .obj [("name", .str "Japan"), ("continent", .str "Asia"),
    ("cities", .arr [edo])])]

/-- A data directory that holds only the data file, with `japanDoc` in it. -/
def japanDisk : Disk :=
  ⟨[("travel-data.json", .json japanDoc)]⟩

/-- The guide sequence of the first city of `data[countryKey]` whose slug is
`citySlug`, when it is an array. -/
def guidesOf (data : JVal) (countryKey citySlug : String) : Option (List JVal) :=
  match citiesOf data countryKey with
  | some cities =>
    match findBySlug cities citySlug with
    | .hit _ city =>
      match getProp city "guides" with
      | some (.val (.arr guides)) => some guides
      | _ => none
    | _ => none
  | none => none

/-- The sequence `data[countryKey][block][list]`, when it is an array:
`itineraries.items` or `transport.modes`. -/
def blockListOf (data : JVal) (countryKey block list : String) : Option (List JVal) :=
  match getProp data countryKey with
  | some (.val c) =>
    match getProp c block with
    | some (.val b) =>
      match getProp b list with
      | some (.val (.arr xs)) => some xs
      | _ => none
    | _ => none
  | _ => none

/-- A guide payload whose optional fields are empty strings. -/
def blankGuide : JVal :=
  .obj [("title", .str "Nightlife"), ("description", .str ""), ("duration", .str "")]

/-- The document `japanDoc` after add-guide of `blankGuide` to Tokyo. -/
def japanBlankGuide : JVal :=
  .obj [("japan", .obj [("name", .str "Japan"), ("continent", .str "Asia"),
    ("cities", .arr [.obj [("slug", .str "tokyo"), ("name", .str "Tokyo"),
      ("guides", .arr [.obj [("title", .str "Temples")], .obj [("title", .str "Food")],
        blankGuide])]])])]

/-- A transport payload. -/
def train : JVal :=
  .obj [("type", .str "Train"), ("details", .str "Rail pass")]

/-- Japan with two itineraries and two transport modes. -/
def japanTrips : JVal :=
  .obj [("japan", .obj [("name", .str "Japan"), ("cities", .arr []),
    ("itineraries", .obj [("title", .str "Japan Itineraries"),
      ("description", .str "Explore Japan with our curated itineraries."),
      ("items", .arr [.obj [("title", .str "Golden Route")], .obj [("title", .str "North")]])]),
    ("transport", .obj [("title", .str "Getting Around Japan"),
      ("description", .str "Transportation options in Japan."),
      ("modes", .arr [train, .obj [("type", .str "Bus"), ("details", .str "Night bus")]])])])]

/-- Japan with an `itineraries` block that lacks its `items` sequence. -/
def japanNoItems : JVal :=
  .obj [("japan", .obj [("name", .str "Japan"), ("cities", .arr []),
    ("itineraries", .obj [("title", .str "Japan Itineraries")])])]

/-- The slug of a city, when it has a string `slug`. -/
def slugOf (c : JVal) : Option String :=
  match getProp c "slug" with
  | some (.val (.str s)) => some s
  | _ => none

/-- No two cities of the sequence have the same slug. -/
def distinctSlugs (cities : List JVal) : Prop :=
  (cities.filterMap slugOf).Nodup

/-- In no country of the document do two cities have the same slug. -/
def SlugsUnique (data : JVal) : Prop :=
  ∀ K cities, citiesOf data K = some cities → distinctSlugs cities

/-! ## The client's forms (script.js 536-679)

The editor keeps the document it loaded in `this.data` and, after a request
the server answered with `success`, repeats the edit on that copy.  The copy
is described here as the JSON value `JSON.stringify` shows for it, in the same
way as the server's document; `none` stands for an edit that throws (the
handler then alerts and the success message is not shown). -/

/-- The loop `Object.keys(o).forEach(key => { if (!o[key]) delete o[key]; })`
on a fresh object literal: the properties with a falsy value go, the others
keep their order. -/
def removeEmpty (fields : List (String × JVal)) : List (String × JVal) :=
  fields.filter (fun p => p.2.truthy)

/-- The `guideData` that `handleAddGuide` sends and later pushes
(script.js 542-551), from the values of the three inputs. -/
def guideRecord (title description duration : String) : JVal :=
  .obj (removeEmpty
    [("title", .str title), ("description", .str description), ("duration", .str duration)])

/-- The call `citiesText.split('\n')` on the characters of the text. -/
def splitLines : List Char → List (List Char)
  | [] => [[]]
  | c :: cs =>
    if c = '\n' then [] :: splitLines cs
    else
      match splitLines cs with
      | [] => [[c]]
      | l :: ls => (c :: l) :: ls

/-- The call `city.trim()`: white space and line terminators go from both ends. -/
def trim (cs : List Char) : List Char :=
  ((cs.dropWhile isJsSpace).reverse.dropWhile isJsSpace).reverse

/-- The array `citiesText.split('\n').map(city => city.trim()).filter(city => city)`
(script.js 586). -/
def cityLines (citiesText : String) : List JVal :=
  (((splitLines citiesText.data).map trim).filter (fun l => !l.isEmpty)).map
    (fun l => .str (String.mk l))

/-- The `itineraryData` that `handleAddItinerary` sends and later pushes
(script.js 585-598). -/
def itineraryRecord (title citiesText duration description : String) : JVal :=
  .obj (removeEmpty
    [("title", .str title), ("cities", .arr (cityLines citiesText)),
     ("duration", .str duration), ("description", .str description)])

/-- The `transportData` that `handleAddTransport` sends and later pushes
(script.js 637-647). -/
def transportRecord (type details image cost : String) : JVal :=
  .obj (removeEmpty
    [("type", .str type), ("details", .str details), ("image", .str image),
     ("cost", .str cost)])

/-- The edit of `this.data` after a successful add-guide (script.js 563-565):
`const city = this.data[countryKey].cities.find(c => c.slug === citySlug);
if (!city.guides) city.guides = []; city.guides.push(guideData)`. -/
def clientAddGuide (data : JVal) (countryKey citySlug : String) (guideData : JVal) :
    Option JVal :=
  match data with
  | .obj fields =>
    match getProp (.obj fields) countryKey with
    | some (.val c) =>
      match getProp c "cities" with
      | some (.val (.arr cities)) =>
        match findBySlug cities citySlug with
        | .hit i city =>
          match getProp city "guides" with
          | none => none
          | some rg =>
            if !rg.truthy then
              -- the class body is strict code: the assignment throws on a primitive
              match city with
              | .obj _ | .arr _ =>
                some (.obj (setOwn fields countryKey (setProp c "cities"
                  (.arr (cities.set i (setProp city "guides" (.arr ([] ++ [guideData]))))))))
              | _ => none
            else
              match rg with
              | .val (.arr guides) =>
                some (.obj (setOwn fields countryKey (setProp c "cities"
                  (.arr (cities.set i (setProp city "guides" (.arr (guides ++ [guideData]))))))))
              | _ => none
        -- the callback threw, or `city` is `undefined` and `city.guides` throws
        | _ => none
      -- without a sequence there is no `find` to call
      | _ => none
    -- `undefined.cities` throws; a built-in has no `cities`
    | _ => none
  | _ => none

/-- The object literal of script.js 608-612 after the push of line 614. -/
def clientItineraries (name : String) (itineraryData : JVal) : JVal :=
  .obj [("title", .str (name ++ " Itineraries")),
        ("description", .str ("Explore " ++ name ++ " with our curated itineraries.")),
        ("items", .arr ([] ++ [itineraryData]))]

/-- The edit of `this.data` after a successful add-itinerary (script.js 607-614). -/
def clientAddItinerary (data : JVal) (countryKey : String) (itineraryData : JVal) :
    Option JVal :=
  match data with
  | .obj fields =>
    match getProp (.obj fields) countryKey with
    | some (.val c) =>
      match getProp c "itineraries" with
      | none => none
      | some ri =>
        if !ri.truthy then
          match getProp c "name" with
          | some rn =>
            match templateText rn with
            | none => none
            | some name =>
              -- the class body is strict code: the assignment throws on a primitive
              match c with
              | .obj _ | .arr _ =>
                some (.obj (setOwn fields countryKey
                  (setProp c "itineraries" (clientItineraries name itineraryData))))
              | _ => none
          | none => none
        else
          match ri with
          | .val block =>
            match getProp block "items" with
            | some (.val (.arr items)) =>
              some (.obj (setOwn fields countryKey (setProp c "itineraries"
                (setProp block "items" (.arr (items ++ [itineraryData]))))))
            | _ => none
          | _ => none
    -- a built-in reached through the prototype chain gets the block, the
    -- document's own properties stay
    | some .other => some (.obj fields)
    | _ => none
  | _ => none

/-- The object literal of script.js 657-661 after the push of line 663. -/
def clientTransport (name : String) (transportData : JVal) : JVal :=
  .obj [("title", .str ("Getting Around " ++ name)),
        ("description", .str ("Transportation options in " ++ name ++ ".")),
        ("modes", .arr ([] ++ [transportData]))]

/-- The edit of `this.data` after a successful add-transport (script.js 656-663). -/
def clientAddTransport (data : JVal) (countryKey : String) (transportData : JVal) :
    Option JVal :=
  match data with
  | .obj fields =>
    match getProp (.obj fields) countryKey with
    | some (.val c) =>
      match getProp c "transport" with
      | none => none
      | some rt =>
        if !rt.truthy then
          match getProp c "name" with
          | some rn =>
            match templateText rn with
            | none => none
            | some name =>
              match c with
              | .obj _ | .arr _ =>
                some (.obj (setOwn fields countryKey
                  (setProp c "transport" (clientTransport name transportData))))
              | _ => none
          | none => none
        else
          match rt with
          | .val block =>
            match getProp block "modes" with
            | some (.val (.arr modes)) =>
              some (.obj (setOwn fields countryKey (setProp c "transport"
                (setProp block "modes" (.arr (modes ++ [transportData]))))))
            | _ => none
          | _ => none
    | some .other => some (.obj fields)
    | _ => none
  | _ => none

/-! ## Deleting an image (server.js 11-12 and 153-164)

Paths are absolute POSIX paths, written as the list of their segments from
the root; `dirname` is the directory of `server.js`. -/

/-- The pieces of a path text between its `/` separators; `cur` holds the
piece being read, last character first. -/
def segmentsFrom (cur : List Char) : List Char → List String
  | [] => [String.mk cur.reverse]
  | c :: cs =>
    if c = '/' then String.mk cur.reverse :: segmentsFrom [] cs
    else segmentsFrom (c :: cur) cs

/-- The normalisation `path.join` applies below an absolute directory: empty
and `.` segments are skipped, `..` leaves the directory reached so far (the
root is its own parent).  `stack` is that directory, last segment first. -/
def resolveFrom (stack : List String) : List String → List String
  | [] => stack.reverse
  | seg :: rest =>
    if seg = "" ∨ seg = "." then resolveFrom stack rest
    else if seg = ".." then resolveFrom stack.tail rest
    else resolveFrom (seg :: stack) rest

/-- The constant `UPLOADS_DIR = path.join(__dirname, 'images')`. -/
def uploadsDir (dirname : List String) : List String :=
  dirname ++ ["images"]

/-- The constant `DATA_FILE = path.join(__dirname, 'data', 'travel-data.json')`. -/
def dataFilePath (dirname : List String) : List String :=
  dirname ++ ["data", "travel-data.json"]

/-- The value `filePath = path.join(UPLOADS_DIR, filename)` (server.js 156). -/
def unlinkPath (dirname : List String) (filename : String) : List String :=
  resolveFrom (uploadsDir dirname).reverse (segmentsFrom [] filename.data)

/-- A path lies inside a directory: it continues the directory's segments by
at least one more. -/
def insideDir (dir p : List String) : Bool :=
  dir.isPrefixOf p && decide (dir.length < p.length)

/-- Handler of `DELETE /api/images/:filename` (server.js 153-164) over the
regular files `files` of the machine: `fs.unlink` removes the file at
`filePath`; it rejects when no regular file is there, and for a path text that
ends with a separator, which `path.join` keeps. -/
def deleteImage (dirname : List String) (files : List (List String)) (filename : String) :
    Nat × Body × List (List String) :=
  let filePath := unlinkPath dirname filename
  if files.contains filePath && filename.data.getLast? != some '/' then
    (200, .success "Image deleted successfully", files.erase filePath)
  else (500, .error "Failed to delete image", files)

/-- A machine with the document file, one uploaded image and one other file. -/
def sampleFiles : List (List String) :=
  [["srv", "app", "data", "travel-data.json"],
   ["srv", "app", "images", "1700000000000-beach.png"],
   ["srv", "app", "server.js"]]

/-! # Properties -/

/-! ## Own properties -/

theorem lookup_replaceOwn_self (fs : List (String × JVal)) (k : String) (v w : JVal)
    (h : fs.lookup k = some w) : (replaceOwn fs k v).lookup k = some v := by
  induction fs with
  | nil => simp at h
  | cons p rest ih =>
    obtain ⟨a, b⟩ := p
    by_cases hk : k = a
    · subst hk; simp [replaceOwn, List.lookup]
    · have hb : (k == a) = false := by simpa using hk
      simp only [List.lookup, hb] at h
      simp [replaceOwn, hk, List.lookup, hb, ih h]

theorem lookup_replaceOwn_other (fs : List (String × JVal)) (k k2 : String) (v : JVal)
    (h : k2 ≠ k) : (replaceOwn fs k v).lookup k2 = fs.lookup k2 := by
  induction fs with
  | nil => rfl
  | cons p rest ih =>
    obtain ⟨a, b⟩ := p
    by_cases hk : k = a
    · subst hk
      have hb : (k2 == k) = false := by simpa using h
      simp [replaceOwn, List.lookup, hb]
    · by_cases h2 : k2 = a
      · subst h2; simp [replaceOwn, hk, List.lookup]
      · have hb : (k2 == a) = false := by simpa using h2
        simp [replaceOwn, hk, List.lookup, hb, ih]

theorem replaceOwn_same (fs : List (String × JVal)) (k : String) (v : JVal)
    (h : fs.lookup k = some v) : replaceOwn fs k v = fs := by
  induction fs with
  | nil => rfl
  | cons p rest ih =>
    obtain ⟨a, b⟩ := p
    by_cases hk : k = a
    · subst hk
      simp only [List.lookup, beq_self_eq_true] at h
      simp [replaceOwn] 
      simpa using h.symm
    · have hb : (k == a) = false := by simpa using hk
      simp only [List.lookup, hb] at h
      simp [replaceOwn, hk, ih h]

theorem replaceOwn_twice (fs : List (String × JVal)) (k : String) (v w : JVal) :
    replaceOwn (replaceOwn fs k v) k w = replaceOwn fs k w := by
  induction fs with
  | nil => rfl
  | cons p rest ih =>
    obtain ⟨a, b⟩ := p
    by_cases hk : k = a
    · subst hk; simp [replaceOwn]
    · simp [replaceOwn, hk, ih]

theorem lookup_insertOwn_self (fs : List (String × JVal)) (k : String) (v : JVal)
    (h : fs.lookup k = none) : (insertOwn fs k v).lookup k = some v := by
  induction fs with
  | nil => simp [insertOwn, List.lookup]
  | cons p rest ih =>
    obtain ⟨a, b⟩ := p
    by_cases hk : k = a
    · subst hk; simp [List.lookup] at h
    · have hb : (k == a) = false := by simpa using hk
      simp only [List.lookup, hb] at h
      unfold insertOwn
      split
      · split <;> simp [List.lookup, hb, ih h]
      · simp [List.lookup]
      · simp [List.lookup, hb, ih h]

theorem lookup_insertOwn_other (fs : List (String × JVal)) (k k2 : String) (v : JVal)
    (h : k2 ≠ k) : (insertOwn fs k v).lookup k2 = fs.lookup k2 := by
  have hb : (k2 == k) = false := by simpa using h
  induction fs with
  | nil => simp [insertOwn, List.lookup, hb]
  | cons p rest ih =>
    obtain ⟨a, b⟩ := p
    unfold insertOwn
    split
    · split
      · by_cases h2 : k2 = a
        · subst h2; simp [List.lookup]
        · have hb2 : (k2 == a) = false := by simpa using h2
          simp [List.lookup, hb2, ih]
      · simp [List.lookup, hb]
    · simp [List.lookup, hb]
    · by_cases h2 : k2 = a
      · subst h2; simp [List.lookup]
      · have hb2 : (k2 == a) = false := by simpa using h2
        simp [List.lookup, hb2, ih]

theorem lookup_setOwn_self (fs : List (String × JVal)) (k : String) (v : JVal) :
    (setOwn fs k v).lookup k = some v := by
  unfold setOwn
  split
  · next w hw => exact lookup_replaceOwn_self fs k v w hw
  · next hn => exact lookup_insertOwn_self fs k v hn

theorem lookup_setOwn_other (fs : List (String × JVal)) (k k2 : String) (v : JVal)
    (h : k2 ≠ k) : (setOwn fs k v).lookup k2 = fs.lookup k2 := by
  unfold setOwn
  split
  · exact lookup_replaceOwn_other fs k k2 v h
  · exact lookup_insertOwn_other fs k k2 v h

theorem setOwn_of_lookup (fs : List (String × JVal)) (k : String) (v w : JVal)
    (h : fs.lookup k = some w) : setOwn fs k v = replaceOwn fs k v := by
  simp only [setOwn, h]

theorem setOwn_same (fs : List (String × JVal)) (k : String) (v : JVal)
    (h : fs.lookup k = some v) : setOwn fs k v = fs := by
  rw [setOwn_of_lookup fs k v v h, replaceOwn_same fs k v h]

theorem setOwn_twice (fs : List (String × JVal)) (k : String) (v w u : JVal)
    (h : fs.lookup k = some u) : setOwn (setOwn fs k v) k w = setOwn fs k w := by
  rw [setOwn_of_lookup (setOwn fs k v) k w v (lookup_setOwn_self fs k v),
    setOwn_of_lookup fs k v u h, setOwn_of_lookup fs k w u h, replaceOwn_twice]

/-! ## Countries -/

theorem getProp_obj_own (fs : List (String × JVal)) (k : String) (v : JVal)
    (h : fs.lookup k = some v) : getProp (.obj fs) k = some (.val v) := by
  simp [getProp, h]

/-- C1 (defect in the code): the guides of Tokyo have length 2 and the index
parameter `length` denotes no integer, yet delete-guide answers 200 and removes
the first guide instead of answering 404 'Guide not found'. -/
theorem deleteGuide_length_removes_first :
    deleteGuide japanDoc "japan" "tokyo" "length" =
      .reply 200 (.success "Guide deleted successfully")
        (some (.obj [("japan", .obj [("name", .str "Japan"), ("continent", .str "Asia"),
          ("cities", .arr [.obj [("slug", .str "tokyo"), ("name", .str "Tokyo"),
            ("guides", .arr [.obj [("title", .str "Food")]])]])])])) := rfl

/-- C2 (as stated, refuted): create-country with the payload `null` stores
`null` under the key, and a second create-country for the same key is then
accepted and overwrites it, although the key exists in the document. -/
theorem createCountry_after_null_accepted :
    createCountry (.obj []) "japan" .null =
        .reply 200 (.success "Country added successfully") (some (.obj [("japan", .null)]))
      ∧ createCountry (.obj [("japan", .null)]) "japan" japan =
        .reply 200 (.success "Country added successfully") (some japanDoc) :=
  ⟨rfl, rfl⟩

/-- C2 (amended): when the first payload `d` is truthy (every object is), a
second create-country for the same key is answered 400 'Country already exists'
and writes nothing; more generally create-country is answered so whenever the
value stored under the key is truthy. -/
theorem createCountry_existing_rejected (fields : List (String × JVal)) (K : String)
    (d d2 : JVal) (hd : d.truthy = true) :
    createCountry ((createCountry (.obj fields) K d).persisted (.obj fields)) K d2 =
        .reply 400 (.error "Country already exists") none
      ∧ ∀ v, fields.lookup K = some v → v.truthy = true →
          createCountry (.obj fields) K d2 = .reply 400 (.error "Country already exists") none := by
  have key : ∀ (fs : List (String × JVal)) (v : JVal), fs.lookup K = some v → v.truthy = true →
      createCountry (.obj fs) K d2 = .reply 400 (.error "Country already exists") none := by
    intro fs v hv ht
    simp [createCountry, getProp, hv, JRes.truthy, ht]
  refine ⟨?_, key fields⟩
  cases hlook : fields.lookup K with
  | some v =>
    by_cases ht : v.truthy = true
    · have h1 : createCountry (.obj fields) K d = .reply 400 (.error "Country already exists") none := by
        simp [createCountry, getProp, hlook, JRes.truthy, ht]
      rw [h1]
      exact key fields v hlook ht
    · have h1 : createCountry (.obj fields) K d =
          .reply 200 (.success "Country added successfully") (some (.obj (setOwn fields K d))) := by
        simp [createCountry, getProp, hlook, JRes.truthy, ht]
      rw [h1]
      exact key _ d (lookup_setOwn_self fields K d) hd
  | none =>
    by_cases hin : (inherited [objectProto] K).truthy = true
    · have h1 : createCountry (.obj fields) K d = .reply 400 (.error "Country already exists") none := by
        simp [createCountry, getProp, hlook, hin]
      rw [h1]
      simp [Outcome.persisted, createCountry, getProp, hlook, hin]
    · have h1 : createCountry (.obj fields) K d =
          .reply 200 (.success "Country added successfully") (some (.obj (setOwn fields K d))) := by
        simp [createCountry, getProp, hlook, hin]
      rw [h1]
      exact key _ d (lookup_setOwn_self fields K d) hd

/-- Witness for C2: Japan is created with an object payload, a second create is refused. -/
theorem createCountry_existing_rejected_witness :
    createCountry ((createCountry (.obj []) "japan" japan).persisted (.obj [])) "japan" .null =
        .reply 400 (.error "Country already exists") none :=
  (createCountry_existing_rejected [] "japan" japan .null rfl).1

/-- C3 (defect in the code): `constructor` is not a key of the empty document,
yet create-country answers 400 'Country already exists' and stores nothing,
because `data[countryKey]` finds the method every object inherits. -/
theorem createCountry_constructor_rejected :
    createCountry (.obj []) "constructor" japan =
      .reply 400 (.error "Country already exists") none := rfl

/-- Support for C3: for a key that is neither in the document nor an inherited
name, create-country stores the payload under the key and keeps the rest. -/
theorem createCountry_fresh (fields : List (String × JVal)) (K : String) (d : JVal)
    (hnew : fields.lookup K = none) (hinh : K ∉ objectProto) :
    createCountry (.obj fields) K d =
        .reply 200 (.success "Country added successfully") (some (.obj (setOwn fields K d)))
      ∧ (setOwn fields K d).lookup K = some d
      ∧ ∀ k, k ≠ K → (setOwn fields K d).lookup k = fields.lookup k := by
  refine ⟨?_, lookup_setOwn_self fields K d, fun k hk => lookup_setOwn_other fields K k d hk⟩
  simp [createCountry, getProp, hnew, inherited, hinh, JRes.truthy]

/-- C5 (defect in the code): `constructor` is not a key of the document, yet
delete-country answers 200 'Country deleted successfully' (and rewrites the
document as it was) instead of 404 'Country not found'. -/
theorem deleteCountry_constructor_accepted :
    deleteCountry japanDoc "constructor" =
      .reply 200 (.success "Country deleted successfully") (some japanDoc) := rfl

theorem lookup_deleteOwn_self (fs : List (String × JVal)) (k : String) :
    (deleteOwn fs k).lookup k = none := by
  induction fs with
  | nil => rfl
  | cons p rest ih =>
    obtain ⟨a, b⟩ := p
    unfold deleteOwn at ih ⊢
    by_cases hk : a = k
    · rw [List.filter_cons_of_neg (by simp [hk])]
      exact ih
    · have hb : (k == a) = false := by simpa using fun h => hk h.symm
      rw [List.filter_cons_of_pos (by simp [hk])]
      simp only [List.lookup, hb]
      exact ih

theorem lookup_deleteOwn_other (fs : List (String × JVal)) (k k2 : String) (h : k2 ≠ k) :
    (deleteOwn fs k).lookup k2 = fs.lookup k2 := by
  induction fs with
  | nil => rfl
  | cons p rest ih =>
    obtain ⟨a, b⟩ := p
    unfold deleteOwn at ih ⊢
    by_cases hk : a = k
    · subst hk
      have hb : (k2 == a) = false := by simpa using h
      rw [List.filter_cons_of_neg (by simp)]
      simp only [List.lookup, hb]
      exact ih
    · rw [List.filter_cons_of_pos (by simp [hk])]
      by_cases h2 : k2 = a
      · subst h2; simp [List.lookup]
      · have hb : (k2 == a) = false := by simpa using h2
        simp only [List.lookup, hb]
        exact ih

/-- Support for C5: a key whose stored value is truthy is deleted, every other
key keeps its value; a key that resolves to nothing is answered 404. -/
theorem deleteCountry_own (fields : List (String × JVal)) (K : String) (v : JVal)
    (hv : fields.lookup K = some v) (ht : v.truthy = true) :
    deleteCountry (.obj fields) K =
        .reply 200 (.success "Country deleted successfully") (some (.obj (deleteOwn fields K)))
      ∧ (deleteOwn fields K).lookup K = none
      ∧ ∀ k, k ≠ K → (deleteOwn fields K).lookup k = fields.lookup k := by
  refine ⟨?_, lookup_deleteOwn_self fields K, fun k hk => lookup_deleteOwn_other fields K k hk⟩
  simp [deleteCountry, getProp, hv, JRes.truthy, ht]

/-! ## Cities -/

theorem findBySlug_append_fresh (cities : List JVal) (c : JVal) (s : String)
    (hfresh : ∀ x ∈ cities, slugIs x s = some false) (hs : slugIs c s = some true) :
    findBySlug (cities ++ [c]) s = .hit cities.length c := by
  induction cities with
  | nil => simp [findBySlug, hs]
  | cons x rest ih =>
    have hx : slugIs x s = some false := hfresh x (by simp)
    have hrest : ∀ y ∈ rest, slugIs y s = some false := fun y hy => hfresh y (by simp [hy])
    simp [findBySlug, hx, ih hrest]

theorem eraseIdx_append_last (xs : List JVal) (c : JVal) :
    (xs ++ [c]).eraseIdx xs.length = xs := by
  induction xs with
  | nil => rfl
  | cons x rest ih => simp [List.eraseIdx, ih]

/-- C4 (as stated, refuted): Japan already has a city with slug `tokyo`; after
add-city of another city with that slug and delete-city of `tokyo`, the city
sequence holds the new city instead of the old one. -/
theorem addCity_deleteCity_duplicate_slug :
    addCity japanDoc "japan" edo =
        .reply 200 (.success "City added successfully") (some japanTwoTokyos)
      ∧ deleteCity japanTwoTokyos "japan" "tokyo" =
        .reply 200 (.success "City deleted successfully") (some japanEdoOnly)
      ∧ citiesOf japanDoc "japan" = some [tokyo]
      ∧ citiesOf japanEdoOnly "japan" = some [edo]
      ∧ citiesOf japanEdoOnly "japan" ≠ citiesOf japanDoc "japan" := by
  refine ⟨rfl, rfl, rfl, rfl, ?_⟩
  simp [citiesOf, japanEdoOnly, japanDoc, japan, getProp, List.lookup, edo, tokyo]

/-- C4 (amended): when country K is an object whose `cities` is an array in
which no element has the slug of the new city `c` (and reading the slug of each
element does not throw), add-city of `c` followed by delete-city of its slug
both succeed and the second writes back the document as it was before the add,
so the city sequence of K is the prior one. -/
theorem addCity_deleteCity_restores (fields cfields : List (String × JVal)) (K s : String)
    (cities : List JVal) (c : JVal)
    (hK : fields.lookup K = some (.obj cfields))
    (hc : cfields.lookup "cities" = some (.arr cities))
    (hfresh : ∀ x ∈ cities, slugIs x s = some false)
    (hs : slugIs c s = some true) :
    ∃ doc1,
      addCity (.obj fields) K c = .reply 200 (.success "City added successfully") (some doc1)
      ∧ citiesOf doc1 K = some (cities ++ [c])
      ∧ deleteCity doc1 K s =
          .reply 200 (.success "City deleted successfully") (some (.obj fields))
      ∧ citiesOf (.obj fields) K = some cities := by
  refine ⟨.obj (setOwn fields K (.obj (setOwn cfields "cities" (.arr (cities ++ [c]))))),
    ?_, ?_, ?_, ?_⟩
  · simp [addCity, getProp, hK, hc, JRes.truthy, JVal.truthy, setProp]
  · simp [citiesOf, getProp, lookup_setOwn_self]
  · have h1 : setOwn (setOwn cfields "cities" (.arr (cities ++ [c]))) "cities" (.arr cities)
        = cfields := by
      rw [setOwn_twice _ _ _ _ _ hc, setOwn_same _ _ _ hc]
    have h2 : setOwn (setOwn fields K (.obj (setOwn cfields "cities" (.arr (cities ++ [c])))))
        K (.obj cfields) = fields := by
      rw [setOwn_twice _ _ _ _ _ hK, setOwn_same _ _ _ hK]
    simp [deleteCity, getProp, lookup_setOwn_self, JRes.truthy, JVal.truthy, setProp,
      findBySlug_append_fresh cities c s hfresh hs, eraseIdx_append_last, h1, h2]
  · simp [citiesOf, getProp, hK, hc]

/-- Witness for C4: Kyoto is added to Japan and deleted again. -/
theorem addCity_deleteCity_restores_witness :
    ∃ doc1,
      addCity japanDoc "japan" kyoto = .reply 200 (.success "City added successfully") (some doc1)
      ∧ citiesOf doc1 "japan" = some ([tokyo] ++ [kyoto])
      ∧ deleteCity doc1 "japan" "kyoto" =
          .reply 200 (.success "City deleted successfully") (some japanDoc)
      ∧ citiesOf japanDoc "japan" = some [tokyo] :=
  addCity_deleteCity_restores [("japan", japan)]
    [("name", .str "Japan"), ("continent", .str "Asia"), ("cities", .arr [tokyo])]
    "japan" "kyoto" [tokyo] kyoto rfl rfl (by simp [tokyo, slugIs, getProp, List.lookup]) rfl

/-! ## The data directory -/

theorem content_store_self (disk : Disk) (name : String) (c : Content) :
    (disk.store name c).content name = some c := by
  simp [Disk.store, Disk.content, List.lookup]

theorem content_store_other (disk : Disk) (name other : String) (c : Content)
    (h : other ≠ name) : (disk.store name c).content other = disk.content other := by
  have hb : (other == name) = false := by simpa using h
  simp only [Disk.store, Disk.content, List.lookup, hb]
  induction disk.files with
  | nil => rfl
  | cons p rest ih =>
    obtain ⟨a, b⟩ := p
    by_cases hk : a = name
    · subst hk
      rw [List.filter_cons_of_neg (by simp)]
      simp only [List.lookup, hb]
      exact ih
    · rw [List.filter_cons_of_pos (by simp [hk])]
      by_cases h2 : other = a
      · subst h2; simp [List.lookup]
      · have hb2 : (other == a) = false := by simpa using h2
        simp only [List.lookup, hb2]
        exact ih

theorem backupFile_ne_dataFile (iso : String) : backupFile iso ≠ dataFile := by
  intro h
  have := congrArg String.data h
  simp [backupFile, dataFile] at this

theorem content_writeFile_other (w : WriteFault) (disk : Disk) (name other : String)
    (c : Content) (h : other ≠ name) :
    (writeFile w disk name c).2.content other = disk.content other := by
  cases w with
  | none => exact content_store_other disk name other c h
  | rejects left =>
    cases left with
    | none => rfl
    | some t => exact content_store_other disk name other t h

/-- C6 (as stated, refuted): delete-country on a directory that holds only the
data file succeeds and leaves a directory whose only file is the data file:
no backup with the prior document is written. -/
theorem deleteCountry_writes_no_backup :
    handle (.deleteCountry "japan") noFaults japanDisk =
        some (200, .success "Country deleted successfully",
          ⟨[("travel-data.json", .json (.obj []))]⟩)
      ∧ japanDisk.files.map Prod.fst = ["travel-data.json"]
      ∧ (Disk.files ⟨[("travel-data.json", .json (.obj []))]⟩).map Prod.fst
          = ["travel-data.json"] :=
  ⟨rfl, rfl, rfl⟩

/-- C6 (amended): a request to a structural endpoint (create or delete country,
add or delete city, guide, itinerary, transport mode) changes no file of the
data directory other than the data file itself, whatever the answer: it writes
no backup file.  Backups are written by the full-document save only. -/
theorem handle_keeps_other_files (req : Request) (f : Faults) (disk disk1 : Disk)
    (status : Nat) (body : Body) (h : handle req f disk = some (status, body, disk1))
    (name : String) (hn : name ≠ dataFile) :
    disk1.content name = disk.content name := by
  unfold handle serve at h
  split at h
  · simp only [Option.some.injEq, Prod.mk.injEq] at h
    rw [← h.2.2]
  · simp only [Option.some.injEq, Prod.mk.injEq] at h
    rw [← h.2.2]
  · split at h
    · exact absurd h (by simp)
    · simp only [Option.some.injEq, Prod.mk.injEq] at h
      rw [← h.2.2]
    · next doc _ =>
      have hw := content_writeFile_other f.dataWrite disk dataFile name (.json doc) hn
      split at h
      · next d1 heq =>
        simp only [Option.some.injEq, Prod.mk.injEq] at h
        rw [← h.2.2, ← hw, heq]
      · next d1 heq =>
        simp only [Option.some.injEq, Prod.mk.injEq] at h
        rw [← h.2.2, ← hw, heq]

/-- Witness for C6: delete-country on the sample directory creates no backup file. -/
theorem handle_keeps_other_files_witness :
    Disk.content ⟨[("travel-data.json", .json (.obj []))]⟩ "backup-2024-01-02T03-04-05-678Z.json"
      = japanDisk.content "backup-2024-01-02T03-04-05-678Z.json" :=
  handle_keeps_other_files (.deleteCountry "japan") noFaults japanDisk
    ⟨[("travel-data.json", .json (.obj []))]⟩ 200 (.success "Country deleted successfully")
    rfl "backup-2024-01-02T03-04-05-678Z.json" (by decide)

/-- C7 (as stated, refuted): with no data file in the directory the
full-document save answers 500 'Failed to save data' and stores nothing. -/
theorem putData_without_primary_fails :
    putData "2024-01-02T03:04:05.678Z" noFaults ⟨[]⟩ japanDoc =
        (500, .error "Failed to save data", ⟨[]⟩)
      ∧ Disk.content ⟨[]⟩ dataFile = none :=
  ⟨rfl, rfl⟩

/-- C7 (amended): when the data file holds the text `c` and no I/O call fails,
the full-document save answers success, the backup file named after the
timestamp then holds exactly `c`, and the data file holds the serialisation of
the new document `d`; when there is no data file, the save answers 500
'Failed to save data' and leaves the directory as it was. -/
theorem putData_backs_up_then_replaces (iso : String) (disk : Disk) (d : JVal) :
    match disk.content dataFile with
    | some c =>
      ∃ disk1, putData iso noFaults disk d = (200, .success "Data saved successfully", disk1)
        ∧ disk1.content (backupFile iso) = some c
        ∧ disk1.content dataFile = some (.json d)
    | none => ∀ f, putData iso f disk d = (500, .error "Failed to save data", disk) := by
  cases hc : disk.content dataFile with
  | none =>
    intro f
    have hr : readData f disk = none := by
      unfold readData; split <;> simp [hc]
    simp [putData, hr]
  | some c =>
    refine ⟨(disk.store (backupFile iso) c).store dataFile (.json d), ?_, ?_, ?_⟩
    · simp [putData, readData, noFaults, hc, writeFile]
    · rw [content_store_other _ _ _ _ (backupFile_ne_dataFile iso), content_store_self]
    · exact content_store_self _ _ _

/-- C8: when the backup step of the full-document save fails (the read of the
data file or the write of the backup file rejects), the save answers 500
'Failed to save data' and the data file holds exactly what it held before. -/
theorem putData_backup_failure_keeps_primary (iso : String) (f : Faults) (disk : Disk)
    (d : JVal) (h : readData f disk = none ∨ ∃ left, f.backupWrite = .rejects left) :
    (putData iso f disk d).1 = 500
      ∧ (putData iso f disk d).2.1 = .error "Failed to save data"
      ∧ (putData iso f disk d).2.2.content dataFile = disk.content dataFile := by
  cases hr : readData f disk with
  | none => simp [putData, hr]
  | some c =>
    rcases h with h | ⟨left, hl⟩
    · rw [hr] at h; exact absurd h (by simp)
    · cases left with
      | none => simp [putData, hr, hl, writeFile]
      | some t =>
        have hne : dataFile ≠ backupFile iso := fun e => backupFile_ne_dataFile iso e.symm
        simp [putData, hr, hl, writeFile, content_store_other _ _ _ _ hne]

/-- Witness for C8: the backup write rejects and leaves a truncated backup file. -/
theorem putData_backup_failure_keeps_primary_witness :
    (putData "2024-01-02T03:04:05.678Z" ⟨false, .rejects (some (.junk "tru")), .none⟩
        japanDisk (.obj [])).1 = 500
      ∧ (putData "2024-01-02T03:04:05.678Z" ⟨false, .rejects (some (.junk "tru")), .none⟩
        japanDisk (.obj [])).2.1 = .error "Failed to save data"
      ∧ (putData "2024-01-02T03:04:05.678Z" ⟨false, .rejects (some (.junk "tru")), .none⟩
        japanDisk (.obj [])).2.2.content dataFile = japanDisk.content dataFile :=
  putData_backup_failure_keeps_primary "2024-01-02T03:04:05.678Z"
    ⟨false, .rejects (some (.junk "tru")), .none⟩ japanDisk (.obj []) (Or.inr ⟨_, rfl⟩)

/-! ## Itineraries -/

/-- C10: when country K is an object with name N and without an `itineraries`
property, add-itinerary of the payload `p` succeeds and writes a document in
which K has the block with title N ++ " Itineraries", description
"Explore " ++ N ++ " with our curated itineraries." and items `[p]`; every
other property of K and every other country is as before. -/
theorem addItinerary_creates_block (fields cfields : List (String × JVal)) (K N : String)
    (p : JVal)
    (hK : fields.lookup K = some (.obj cfields))
    (hname : cfields.lookup "name" = some (.str N))
    (hnone : cfields.lookup "itineraries" = none) :
    ∃ fields1 cfields1,
      addItinerary (.obj fields) K p =
          .reply 200 (.success "Itinerary added successfully") (some (.obj fields1))
      ∧ fields1.lookup K = some (.obj cfields1)
      ∧ cfields1.lookup "itineraries" = some (.obj
          [("title", .str (N ++ " Itineraries")),
           ("description", .str ("Explore " ++ N ++ " with our curated itineraries.")),
           ("items", .arr [p])])
      ∧ (∀ k, k ≠ "itineraries" → cfields1.lookup k = cfields.lookup k)
      ∧ (∀ k, k ≠ K → fields1.lookup k = fields.lookup k) := by
  refine ⟨setOwn fields K (.obj (setOwn cfields "itineraries" (newItineraries N p))),
    setOwn cfields "itineraries" (newItineraries N p), ?_, lookup_setOwn_self _ _ _,
    lookup_setOwn_self _ _ _, fun k hk => lookup_setOwn_other _ _ _ _ hk,
    fun k hk => lookup_setOwn_other _ _ _ _ hk⟩
  have hin : inherited [objectProto] "itineraries" = .undefined := rfl
  simp [addItinerary, getProp, hK, hname, hnone, hin, JRes.truthy, JVal.truthy, templateText,
    JVal.toStr, setProp]

/-- Witness for C10: the first itinerary of Japan. -/
theorem addItinerary_creates_block_witness :
    ∃ fields1 cfields1,
      addItinerary japanDoc "japan" (.obj [("title", .str "Golden Route")]) =
          .reply 200 (.success "Itinerary added successfully") (some (.obj fields1))
      ∧ fields1.lookup "japan" = some (.obj cfields1)
      ∧ cfields1.lookup "itineraries" = some (.obj
          [("title", .str ("Japan" ++ " Itineraries")),
           ("description", .str ("Explore " ++ "Japan" ++ " with our curated itineraries.")),
           ("items", .arr [.obj [("title", .str "Golden Route")]])])
      ∧ (∀ k, k ≠ "itineraries" → cfields1.lookup k =
          List.lookup k [("name", .str "Japan"), ("continent", .str "Asia"),
            ("cities", .arr [tokyo])])
      ∧ (∀ k, k ≠ "japan" → fields1.lookup k = List.lookup k [("japan", japan)]) :=
  addItinerary_creates_block [("japan", japan)]
    [("name", .str "Japan"), ("continent", .str "Asia"), ("cities", .arr [tokyo])]
    "japan" "Japan" (.obj [("title", .str "Golden Route")]) rfl rfl rfl

/-! ## Payloads are stored as received -/

theorem getProp_val_named (v x : JVal) (key : String) (hidx : arrayIndex key = none)
    (hlen : key ≠ "length") (h : getProp v key = some (.val x)) :
    ∃ fs, v = .obj fs ∧ fs.lookup key = some x := by
  cases v with
  | null => simp [getProp] at h
  | bool b => simp only [getProp, inherited] at h; split at h <;> simp at h
  | num n => simp only [getProp, inherited] at h; split at h <;> simp at h
  | str s =>
    simp only [getProp, hidx, hlen, if_false, inherited] at h
    split at h <;> simp at h
  | arr items =>
    simp only [getProp, hidx, hlen, if_false, inherited] at h
    split at h <;> simp at h
  | obj fs =>
    refine ⟨fs, rfl, ?_⟩
    simp only [getProp, inherited] at h
    cases hl : fs.lookup key with
    | none => rw [hl] at h; simp only at h; split at h <;> simp at h
    | some w => rw [hl] at h; simpa using h

theorem slugIs_true (c : JVal) (s : String) (h : slugIs c s = some true) :
    ∃ cf, c = .obj cf ∧ cf.lookup "slug" = some (.str s) := by
  unfold slugIs at h
  split at h
  · simp at h
  · next t ht =>
    simp only [Option.some.injEq, decide_eq_true_eq] at h
    subst h
    exact getProp_val_named c (.str t) "slug" rfl (by decide) ht
  · simp at h

theorem findBySlug_set (cities : List JVal) (s : String) (i : Nat) (city city1 : JVal)
    (h : findBySlug cities s = .hit i city) (h1 : slugIs city1 s = some true) :
    findBySlug (cities.set i city1) s = .hit i city1 := by
  induction cities generalizing i with
  | nil => simp [findBySlug] at h
  | cons x rest ih =>
    unfold findBySlug at h
    split at h
    · simp at h
    · simp only [Found.hit.injEq] at h
      obtain ⟨hi, _⟩ := h
      subst hi
      simp [List.set, findBySlug, h1]
    · next hx =>
      split at h
      · next j cj hj =>
        simp only [Found.hit.injEq] at h
        obtain ⟨hi, hc⟩ := h
        subst hi
        rw [hc] at hj
        simp [List.set, findBySlug, hx, ih j hj]
      · next r hr =>
        cases hrest : findBySlug rest s with
        | threw => rw [hrest] at h; simp at h
        | missing => rw [hrest] at h; simp at h
        | hit j cj => exact absurd hrest (hr j cj)

theorem findBySlug_hit_slug (cities : List JVal) (s : String) (i : Nat) (city : JVal)
    (h : findBySlug cities s = .hit i city) : slugIs city s = some true := by
  induction cities generalizing i with
  | nil => simp [findBySlug] at h
  | cons x rest ih =>
    unfold findBySlug at h
    split at h
    · simp at h
    · next hx =>
      simp only [Found.hit.injEq] at h
      rw [← h.2]; exact hx
    · split at h
      · next j cj hj =>
        simp only [Found.hit.injEq] at h
        rw [h.2] at hj; exact ih j hj
      · next r hr =>
        cases hrest : findBySlug rest s with
        | threw => rw [hrest] at h; simp at h
        | missing => rw [hrest] at h; simp at h
        | hit j cj => exact absurd hrest (hr j cj)

theorem slugIs_setOwn_guides (cf : List (String × JVal)) (s : String) (x : JVal)
    (hslug : cf.lookup "slug" = some (.str s)) :
    slugIs (.obj (setOwn cf "guides" x)) s = some true := by
  have h : (setOwn cf "guides" x).lookup "slug" = some (.str s) := by
    rw [lookup_setOwn_other cf "guides" "slug" x (by decide)]; exact hslug
  simp [slugIs, getProp, h]

theorem guidesOf_written (fields cfields cf : List (String × JVal)) (K S : String)
    (cities : List JVal) (i : Nat) (gs : List JVal)
    (hf : findBySlug cities S = .hit i (.obj cf))
    (hslug : cf.lookup "slug" = some (.str S)) :
    guidesOf (.obj (setOwn fields K (.obj (setOwn cfields "cities"
      (.arr (cities.set i (.obj (setOwn cf "guides" (.arr gs)))))))) ) K S = some gs := by
  have h1 := findBySlug_set cities S i (.obj cf) (.obj (setOwn cf "guides" (.arr gs))) hf
    (slugIs_setOwn_guides cf S (.arr gs) hslug)
  simp [guidesOf, citiesOf, getProp, lookup_setOwn_self, h1]

theorem truthy_obj (fs : List (String × JVal)) : (JVal.obj fs).truthy = true := rfl

theorem truthy_arr (xs : List JVal) : (JVal.arr xs).truthy = true := rfl

theorem addGuide_stores_payload (fields cfields : List (String × JVal)) (K S : String)
    (g : JVal) (hK : fields.lookup K = some (.obj cfields))
    (status : Nat) (body : Body) (doc1 : JVal)
    (h : addGuide (.obj fields) K S g = .reply status body (some doc1)) :
    ∃ xs, guidesOf doc1 K S = some (xs ++ [g]) := by
  have hinC : inherited [objectProto] "cities" = .undefined := rfl
  have hinG : inherited [objectProto] "guides" = .undefined := rfl
  cases hcl : cfields.lookup "cities" with
  | none => simp [addGuide, getProp, hK, hcl, hinC, JRes.truthy, truthy_obj] at h
  | some v =>
    cases v with
    | arr cities =>
      cases hf : findBySlug cities S with
      | threw => simp [addGuide, getProp, hK, hcl, hf, JRes.truthy, truthy_obj] at h
      | missing => simp [addGuide, getProp, hK, hcl, hf, JRes.truthy, truthy_obj] at h
      | hit i city =>
        obtain ⟨cf, rfl, hslug⟩ := slugIs_true city S (findBySlug_hit_slug cities S i city hf)
        cases hg : cf.lookup "guides" with
        | none =>
          simp [addGuide, getProp, hK, hcl, hf, hg, hinG, JRes.truthy, truthy_obj, setProp] at h
          refine ⟨[], ?_⟩
          rw [← h.2.2]
          exact guidesOf_written fields cfields cf K S cities i [g] hf hslug
        | some gv =>
          by_cases ht : gv.truthy = true
          · cases gv with
            | arr guides =>
              simp [addGuide, getProp, hK, hcl, hf, hg, JRes.truthy, truthy_obj, truthy_arr,
                setProp] at h
              refine ⟨guides, ?_⟩
              rw [← h.2.2]
              exact guidesOf_written fields cfields cf K S cities i (guides ++ [g]) hf hslug
            | _ => simp [addGuide, getProp, hK, hcl, hf, hg, JRes.truthy, truthy_obj, ht] at h
          · have ht1 : gv.truthy = false := by simpa using ht
            simp [addGuide, getProp, hK, hcl, hf, hg, JRes.truthy, truthy_obj, ht1, setProp] at h
            refine ⟨[], ?_⟩
            rw [← h.2.2]
            exact guidesOf_written fields cfields cf K S cities i [g] hf hslug
    | _ => simp [addGuide, getProp, hK, hcl, JRes.truthy, truthy_obj] at h

theorem blockListOf_written (fields cfields bf : List (String × JVal)) (K block list : String)
    (xs : List JVal) (h : bf.lookup list = some (.arr xs)) :
    blockListOf (.obj (setOwn fields K (.obj (setOwn cfields block (.obj bf))))) K block list
      = some xs := by
  simp [blockListOf, getProp, lookup_setOwn_self, h]

theorem truthy_val_obj (fs : List (String × JVal)) : (JRes.val (.obj fs)).truthy = true := rfl

theorem addItinerary_stores_payload (fields cfields : List (String × JVal)) (K : String)
    (p : JVal) (hK : fields.lookup K = some (.obj cfields))
    (status : Nat) (body : Body) (doc1 : JVal)
    (h : addItinerary (.obj fields) K p = .reply status body (some doc1)) :
    ∃ xs, blockListOf doc1 K "itineraries" "items" = some (xs ++ [p]) := by
  have hgK := getProp_obj_own _ _ _ hK
  have created : ∀ name : String,
      blockListOf (.obj (setOwn fields K (.obj (setOwn cfields "itineraries"
        (newItineraries name p))))) K "itineraries" "items" = some ([] ++ [p]) :=
    fun name => blockListOf_written fields cfields _ K "itineraries" "items" [p] rfl
  have fresh : ∀ r : JRes, r.truthy = false →
      getProp (.obj cfields) "itineraries" = some r →
      ∃ xs, blockListOf doc1 K "itineraries" "items" = some (xs ++ [p]) := by
    intro r hr hgr
    cases hn : cfields.lookup "name" with
    | none =>
      have hgn : getProp (.obj cfields) "name" = some .undefined := by
        simp only [getProp, hn]; rfl
      simp [addItinerary, hgK, truthy_val_obj, hgr, hr, hgn, templateText, setProp] at h
      exact ⟨[], by rw [← h.2.2]; exact created _⟩
    | some nv =>
      have hgn := getProp_obj_own _ _ _ hn
      cases hts : nv.toStr with
      | none =>
        simp [addItinerary, hgK, truthy_val_obj, hgr, hr, hgn, templateText, hts] at h
      | some name =>
        simp [addItinerary, hgK, truthy_val_obj, hgr, hr, hgn, templateText, hts, setProp] at h
        exact ⟨[], by rw [← h.2.2]; exact created _⟩
  cases hl : cfields.lookup "itineraries" with
  | none => exact fresh .undefined rfl (by simp only [getProp, hl]; rfl)
  | some bv =>
    have hgl := getProp_obj_own _ _ _ hl
    by_cases ht : bv.truthy = true
    · have htb : (JRes.val bv).truthy = true := ht
      cases hgi : getProp bv "items" with
      | none => simp [addItinerary, hgK, truthy_val_obj, hgl, htb, hgi] at h
      | some r =>
        cases r with
        | val x =>
          cases x with
          | arr items =>
            obtain ⟨bf, rfl, hbf⟩ := getProp_val_named bv (.arr items) "items" rfl (by decide) hgi
            simp [addItinerary, hgK, truthy_val_obj, hgl, hgi, setProp] at h
            refine ⟨items, ?_⟩
            rw [← h.2.2]
            exact blockListOf_written fields cfields _ K "itineraries" "items" (items ++ [p])
              (lookup_setOwn_self bf "items" _)
          | _ => simp [addItinerary, hgK, truthy_val_obj, hgl, htb, hgi] at h
        | _ => simp [addItinerary, hgK, truthy_val_obj, hgl, htb, hgi] at h
    · exact fresh (.val bv) (by simpa [JRes.truthy] using ht) hgl

theorem addTransport_stores_payload (fields cfields : List (String × JVal)) (K : String)
    (p : JVal) (hK : fields.lookup K = some (.obj cfields))
    (status : Nat) (body : Body) (doc1 : JVal)
    (h : addTransport (.obj fields) K p = .reply status body (some doc1)) :
    ∃ xs, blockListOf doc1 K "transport" "modes" = some (xs ++ [p]) := by
  have hgK := getProp_obj_own _ _ _ hK
  have created : ∀ name : String,
      blockListOf (.obj (setOwn fields K (.obj (setOwn cfields "transport"
        (newTransport name p))))) K "transport" "modes" = some ([] ++ [p]) :=
    fun name => blockListOf_written fields cfields _ K "transport" "modes" [p] rfl
  have fresh : ∀ r : JRes, r.truthy = false →
      getProp (.obj cfields) "transport" = some r →
      ∃ xs, blockListOf doc1 K "transport" "modes" = some (xs ++ [p]) := by
    intro r hr hgr
    cases hn : cfields.lookup "name" with
    | none =>
      have hgn : getProp (.obj cfields) "name" = some .undefined := by
        simp only [getProp, hn]; rfl
      simp [addTransport, hgK, truthy_val_obj, hgr, hr, hgn, templateText, setProp] at h
      exact ⟨[], by rw [← h.2.2]; exact created _⟩
    | some nv =>
      have hgn := getProp_obj_own _ _ _ hn
      cases hts : nv.toStr with
      | none =>
        simp [addTransport, hgK, truthy_val_obj, hgr, hr, hgn, templateText, hts] at h
      | some name =>
        simp [addTransport, hgK, truthy_val_obj, hgr, hr, hgn, templateText, hts, setProp] at h
        exact ⟨[], by rw [← h.2.2]; exact created _⟩
  cases hl : cfields.lookup "transport" with
  | none => exact fresh .undefined rfl (by simp only [getProp, hl]; rfl)
  | some bv =>
    have hgl := getProp_obj_own _ _ _ hl
    by_cases ht : bv.truthy = true
    · have htb : (JRes.val bv).truthy = true := ht
      cases hgi : getProp bv "modes" with
      | none => simp [addTransport, hgK, truthy_val_obj, hgl, htb, hgi] at h
      | some r =>
        cases r with
        | val x =>
          cases x with
          | arr modes =>
            obtain ⟨bf, rfl, hbf⟩ := getProp_val_named bv (.arr modes) "modes" rfl (by decide) hgi
            simp [addTransport, hgK, truthy_val_obj, hgl, hgi, setProp] at h
            refine ⟨modes, ?_⟩
            rw [← h.2.2]
            exact blockListOf_written fields cfields _ K "transport" "modes" (modes ++ [p])
              (lookup_setOwn_self bf "modes" _)
          | _ => simp [addTransport, hgK, truthy_val_obj, hgl, htb, hgi] at h
        | _ => simp [addTransport, hgK, truthy_val_obj, hgl, htb, hgi] at h
    · exact fresh (.val bv) (by simpa [JRes.truthy] using ht) hgl

/-- C9 (as stated, refuted): add-guide with a payload whose `description` and
`duration` are empty strings stores that very payload as the last guide of
Tokyo: the stored record has the field `description` with value "". -/
theorem addGuide_keeps_empty_fields :
    addGuide japanDoc "japan" "tokyo" blankGuide =
        .reply 200 (.success "Guide added successfully") (some japanBlankGuide)
      ∧ guidesOf japanBlankGuide "japan" "tokyo" =
          some [.obj [("title", .str "Temples")], .obj [("title", .str "Food")], blankGuide]
      ∧ getProp blankGuide "description" = some (.val (.str "")) :=
  ⟨rfl, rfl, rfl⟩

/-- C9 (amended): the server stores the payload of add-guide, add-itinerary
and add-transport-mode exactly as received: whenever such a request on a
country object is answered with a written document, the last element of the
targeted sequence in that document is the payload itself, so a field that is
the empty string in the payload is the empty string in the stored record. -/
theorem adds_store_payload_as_received (fields cfields : List (String × JVal))
    (K S : String) (p : JVal) (hK : fields.lookup K = some (.obj cfields)) :
    (∀ status body doc1, addGuide (.obj fields) K S p = .reply status body (some doc1) →
        ∃ xs, guidesOf doc1 K S = some (xs ++ [p]))
      ∧ (∀ status body doc1, addItinerary (.obj fields) K p = .reply status body (some doc1) →
        ∃ xs, blockListOf doc1 K "itineraries" "items" = some (xs ++ [p]))
      ∧ (∀ status body doc1, addTransport (.obj fields) K p = .reply status body (some doc1) →
        ∃ xs, blockListOf doc1 K "transport" "modes" = some (xs ++ [p])) :=
  ⟨fun status body doc1 h => addGuide_stores_payload fields cfields K S p hK status body doc1 h,
   fun status body doc1 h => addItinerary_stores_payload fields cfields K p hK status body doc1 h,
   fun status body doc1 h => addTransport_stores_payload fields cfields K p hK status body doc1 h⟩

/-- Witness for C9: the three requests on the sample document, each with the
payload `blankGuide`. -/
theorem adds_store_payload_as_received_witness :
    (∃ xs, guidesOf japanBlankGuide "japan" "tokyo" = some (xs ++ [blankGuide]))
      ∧ (∃ xs, blockListOf
          (.obj [("japan", .obj [("name", .str "Japan"), ("continent", .str "Asia"),
            ("cities", .arr [tokyo]),
            ("itineraries", .obj [("title", .str "Japan Itineraries"),
              ("description", .str "Explore Japan with our curated itineraries."),
              ("items", .arr [blankGuide])])])])
          "japan" "itineraries" "items" = some (xs ++ [blankGuide]))
      ∧ (∃ xs, blockListOf
          (.obj [("japan", .obj [("name", .str "Japan"), ("continent", .str "Asia"),
            ("cities", .arr [tokyo]),
            ("transport", .obj [("title", .str "Getting Around Japan"),
              ("description", .str "Transportation options in Japan."),
              ("modes", .arr [blankGuide])])])])
          "japan" "transport" "modes" = some (xs ++ [blankGuide])) :=
  have h := adds_store_payload_as_received [("japan", japan)]
    [("name", .str "Japan"), ("continent", .str "Asia"), ("cities", .arr [tokyo])]
    "japan" "tokyo" blankGuide rfl
  ⟨h.1 200 (.success "Guide added successfully") _ rfl,
   h.2.1 200 (.success "Itinerary added successfully") _ rfl,
   h.2.2 200 (.success "Transport mode added successfully") _ rfl⟩

/-! ## Transport modes -/

/-- C11 (defect in the code): `constructor` is not a key of the document, yet
add-transport-mode answers 200 'Transport mode added successfully' (the block
is put on the inherited built-in and the document is written back as it was)
instead of 404 'Country not found'. -/
theorem addTransport_constructor_accepted :
    addTransport japanDoc "constructor" train =
      .reply 200 (.success "Transport mode added successfully") (some japanDoc) := rfl

/-- Support for C11: on a country object with name N, add-transport-mode
creates the block with the two derived texts and modes `[m]` when there is no
`transport` property, and appends `m` to the modes of an existing block,
keeping its other properties. -/
theorem addTransport_on_country (fields cfields : List (String × JVal)) (K N : String)
    (m : JVal) (hK : fields.lookup K = some (.obj cfields))
    (hname : cfields.lookup "name" = some (.str N)) :
    (cfields.lookup "transport" = none →
        addTransport (.obj fields) K m =
          .reply 200 (.success "Transport mode added successfully")
            (some (.obj (setOwn fields K (.obj (setOwn cfields "transport"
              (.obj [("title", .str ("Getting Around " ++ N)),
                     ("description", .str ("Transportation options in " ++ N ++ ".")),
                     ("modes", .arr [m])])))))))
      ∧ (∀ bf modes, cfields.lookup "transport" = some (.obj bf) →
          bf.lookup "modes" = some (.arr modes) →
          addTransport (.obj fields) K m =
            .reply 200 (.success "Transport mode added successfully")
              (some (.obj (setOwn fields K (.obj (setOwn cfields "transport"
                (.obj (setOwn bf "modes" (.arr (modes ++ [m])))))))))
          ∧ (∀ k, k ≠ "modes" →
            (setOwn bf "modes" (.arr (modes ++ [m]))).lookup k = bf.lookup k)) := by
  have hgK := getProp_obj_own _ _ _ hK
  have hgn := getProp_obj_own _ _ _ hname
  constructor
  · intro hnone
    have hgt : getProp (.obj cfields) "transport" = some .undefined := by
      simp only [getProp, hnone]; rfl
    simp [addTransport, hgK, truthy_val_obj, truthy_obj, hgt, hgn, JRes.truthy, templateText,
      JVal.toStr, setProp, newTransport]
  · intro bf modes hb hm
    have hgt := getProp_obj_own _ _ _ hb
    have hgm := getProp_obj_own _ _ _ hm
    refine ⟨?_, fun k hk => lookup_setOwn_other _ _ _ _ hk⟩
    simp [addTransport, hgK, truthy_val_obj, hgt, hgm, setProp]

/-- Support for C11: a key that resolves to nothing is answered 404
'Country not found' and nothing is written. -/
theorem addTransport_missing (fields : List (String × JVal)) (K : String) (m : JVal)
    (hnew : fields.lookup K = none) (hinh : K ∉ objectProto) :
    addTransport (.obj fields) K m = .reply 404 (.error "Country not found") none := by
  simp [addTransport, getProp, hnew, inherited, hinh, JRes.truthy]

/-- C14 (defect in the code): the itineraries of Japan have 2 items and its
transport block has 2 modes; the index parameter `length` denotes no integer,
yet delete-itinerary and delete-transport-mode answer 200 and remove the first
element instead of answering 404. -/
theorem deleteItinerary_length_removes_first :
    deleteItinerary japanTrips "japan" "length" =
        .reply 200 (.success "Itinerary deleted successfully")
          (some (.obj [("japan", .obj [("name", .str "Japan"), ("cities", .arr []),
            ("itineraries", .obj [("title", .str "Japan Itineraries"),
              ("description", .str "Explore Japan with our curated itineraries."),
              ("items", .arr [.obj [("title", .str "North")]])]),
            ("transport", .obj [("title", .str "Getting Around Japan"),
              ("description", .str "Transportation options in Japan."),
              ("modes", .arr [train,
                .obj [("type", .str "Bus"), ("details", .str "Night bus")]])])])]))
      ∧ deleteTransport japanTrips "japan" "length" =
        .reply 200 (.success "Transport mode deleted successfully")
          (some (.obj [("japan", .obj [("name", .str "Japan"), ("cities", .arr []),
            ("itineraries", .obj [("title", .str "Japan Itineraries"),
              ("description", .str "Explore Japan with our curated itineraries."),
              ("items", .arr [.obj [("title", .str "Golden Route")],
                .obj [("title", .str "North")]])]),
            ("transport", .obj [("title", .str "Getting Around Japan"),
              ("description", .str "Transportation options in Japan."),
              ("modes", .arr [.obj [("type", .str "Bus"), ("details", .str "Night bus")]])])])])) :=
  ⟨rfl, rfl⟩

/-! ## Deleting a city -/

theorem findBySlug_first (pre post : List JVal) (c : JVal) (s : String)
    (hpre : ∀ x ∈ pre, slugIs x s = some false) (hc : slugIs c s = some true) :
    findBySlug (pre ++ c :: post) s = .hit pre.length c := by
  induction pre with
  | nil => simp [findBySlug, hc]
  | cons x rest ih =>
    have hx : slugIs x s = some false := hpre x (by simp)
    have hrest : ∀ y ∈ rest, slugIs y s = some false := fun y hy => hpre y (by simp [hy])
    simp [findBySlug, hx, ih hrest]

theorem findBySlug_none (cities : List JVal) (s : String)
    (h : ∀ x ∈ cities, slugIs x s = some false) : findBySlug cities s = .missing := by
  induction cities with
  | nil => rfl
  | cons x rest ih =>
    have hx : slugIs x s = some false := h x (by simp)
    have hrest : ∀ y ∈ rest, slugIs y s = some false := fun y hy => h y (by simp [hy])
    simp [findBySlug, hx, ih hrest]

theorem eraseIdx_middle (pre post : List JVal) (c : JVal) :
    (pre ++ c :: post).eraseIdx pre.length = pre ++ post := by
  induction pre with
  | nil => rfl
  | cons x rest ih => simp [List.eraseIdx, ih]

theorem getProp_setOwn_other (fields : List (String × JVal)) (K k : String) (v : JVal)
    (h : k ≠ K) : getProp (.obj (setOwn fields K v)) k = getProp (.obj fields) k := by
  simp only [getProp, lookup_setOwn_other fields K k v h]

/-- C12: when country K is an object whose city sequence is `pre ++ c :: post`,
`c` being the first city with slug S, delete-city answers success and writes a
document in which K's sequence is `pre ++ post` (exactly that city removed,
every other city in its place) and every other country is as before; when no
city of K has slug S, or K has no city sequence, or K is not a key of the
document, it answers 404 and writes nothing. -/
theorem deleteCity_removes_first_match (fields : List (String × JVal)) (K S : String) :
    (∀ cfields pre post c, fields.lookup K = some (.obj cfields) →
        cfields.lookup "cities" = some (.arr (pre ++ c :: post)) →
        (∀ x ∈ pre, slugIs x S = some false) → slugIs c S = some true →
        ∃ doc1,
          deleteCity (.obj fields) K S =
            .reply 200 (.success "City deleted successfully") (some doc1)
          ∧ citiesOf doc1 K = some (pre ++ post)
          ∧ ∀ k, k ≠ K → getProp doc1 k = getProp (.obj fields) k)
      ∧ (∀ cfields cities, fields.lookup K = some (.obj cfields) →
        cfields.lookup "cities" = some (.arr cities) →
        (∀ x ∈ cities, slugIs x S = some false) →
        deleteCity (.obj fields) K S = .reply 404 (.error "City not found") none)
      ∧ (∀ cfields, fields.lookup K = some (.obj cfields) →
        cfields.lookup "cities" = none →
        deleteCity (.obj fields) K S = .reply 404 (.error "Country or cities not found") none)
      ∧ (fields.lookup K = none →
        deleteCity (.obj fields) K S =
          .reply 404 (.error "Country or cities not found") none) := by
  refine ⟨?_, ?_, ?_, ?_⟩
  · intro cfields pre post c hK hc hpre hs
    have hgK := getProp_obj_own _ _ _ hK
    have hgc := getProp_obj_own _ _ _ hc
    refine ⟨.obj (setOwn fields K (.obj (setOwn cfields "cities" (.arr (pre ++ post))))),
      ?_, ?_, fun k hk => getProp_setOwn_other fields K k _ hk⟩
    · simp [deleteCity, hgK, truthy_obj, hgc, JRes.truthy, truthy_arr,
        findBySlug_first pre post c S hpre hs, eraseIdx_middle, setProp]
    · simp [citiesOf, getProp, lookup_setOwn_self]
  · intro cfields cities hK hc hall
    have hgK := getProp_obj_own _ _ _ hK
    have hgc := getProp_obj_own _ _ _ hc
    simp [deleteCity, hgK, truthy_obj, hgc, JRes.truthy, truthy_arr,
      findBySlug_none cities S hall]
  · intro cfields hK hc
    have hgK := getProp_obj_own _ _ _ hK
    have hgc : getProp (.obj cfields) "cities" = some .undefined := by
      simp only [getProp, hc]; rfl
    simp [deleteCity, hgK, truthy_obj, hgc, JRes.truthy]
  · intro hnone
    simp only [deleteCity, getProp, hnone, inherited]
    split <;> simp [JRes.truthy]

/-- Witness for C12: `tokyo` is deleted from the sequence `[tokyo, edo]`, both
with the slug `tokyo`; deleting `osaka` or a city of `korea` is answered 404. -/
theorem deleteCity_removes_first_match_witness :
    (∃ doc1,
        deleteCity japanTwoTokyos "japan" "tokyo" =
          .reply 200 (.success "City deleted successfully") (some doc1)
        ∧ citiesOf doc1 "japan" = some ([] ++ [edo])
        ∧ ∀ k, k ≠ "japan" → getProp doc1 k = getProp japanTwoTokyos k)
      ∧ deleteCity japanTwoTokyos "japan" "osaka" = .reply 404 (.error "City not found") none
      ∧ deleteCity japanTwoTokyos "korea" "tokyo" =
          .reply 404 (.error "Country or cities not found") none :=
  have h := deleteCity_removes_first_match
    [("japan", .obj [("name", .str "Japan"), ("continent", .str "Asia"),
      ("cities", .arr [tokyo, edo])])] "japan" "tokyo"
  have h2 := deleteCity_removes_first_match
    [("japan", .obj [("name", .str "Japan"), ("continent", .str "Asia"),
      ("cities", .arr [tokyo, edo])])] "japan" "osaka"
  have h3 := deleteCity_removes_first_match
    [("japan", .obj [("name", .str "Japan"), ("continent", .str "Asia"),
      ("cities", .arr [tokyo, edo])])] "korea" "tokyo"
  ⟨h.1 _ [] [edo] tokyo rfl rfl (by simp) rfl,
   h2.2.1 _ [tokyo, edo] rfl rfl (by simp [tokyo, edo, slugIs, getProp, List.lookup]),
   h3.2.2.2 rfl⟩

/-! ## Error messages -/

theorem truthy_val_arr (xs : List JVal) : (JRes.val (.arr xs)).truthy = true := rfl

theorem getProp_obj_missing (fs : List (String × JVal)) (k : String)
    (h : fs.lookup k = none) :
    getProp (.obj fs) k = some .undefined ∨ getProp (.obj fs) k = some .other := by
  simp only [getProp, h, inherited]
  split
  · exact Or.inr rfl
  · exact Or.inl rfl

/-- C13 (as stated, refuted): delete-guide answers 'Guide not found' when the
country is missing and when the city is missing, and delete-city answers
'Country or cities not found' when the country is missing: the missing segment
is not named. -/
theorem deleteGuide_message_is_uniform :
    deleteGuide japanDoc "korea" "seoul" "0" = .reply 404 (.error "Guide not found") none
      ∧ deleteGuide japanDoc "japan" "osaka" "0" = .reply 404 (.error "Guide not found") none
      ∧ deleteCity japanDoc "korea" "seoul" =
          .reply 404 (.error "Country or cities not found") none
      ∧ Body.error "Guide not found" ≠ Body.error "Country not found"
      ∧ Body.error "Guide not found" ≠ Body.error "City not found"
      ∧ Body.error "Country or cities not found" ≠ Body.error "Country not found" := by
  refine ⟨rfl, rfl, rfl, ?_, ?_, ?_⟩ <;> simp

/-- C13 (amended): delete-guide answers 404 'Guide not found' whichever
segment is missing (the country, the city, or a guide at the index);
delete-city answers 404 'Country or cities not found' for a missing country and
404 'City not found' for a missing city; add-guide answers 404
'Country not found' for a country key that resolves to nothing and 404
'City not found' for a missing city.  None of these requests writes. -/
theorem not_found_messages (fields : List (String × JVal)) (K S : String) :
    (∀ i, fields.lookup K = none →
        deleteGuide (.obj fields) K S i = .reply 404 (.error "Guide not found") none)
      ∧ (∀ i cfields cities, fields.lookup K = some (.obj cfields) →
        cfields.lookup "cities" = some (.arr cities) →
        (∀ x ∈ cities, slugIs x S = some false) →
        deleteGuide (.obj fields) K S i = .reply 404 (.error "Guide not found") none)
      ∧ (∀ i cfields pre post cf guides, fields.lookup K = some (.obj cfields) →
        cfields.lookup "cities" = some (.arr (pre ++ .obj cf :: post)) →
        (∀ x ∈ pre, slugIs x S = some false) → cf.lookup "slug" = some (.str S) →
        cf.lookup "guides" = some (.arr guides) →
        (getProp (.arr guides) i).map JRes.truthy = some false →
        deleteGuide (.obj fields) K S i = .reply 404 (.error "Guide not found") none)
      ∧ (fields.lookup K = none →
        deleteCity (.obj fields) K S = .reply 404 (.error "Country or cities not found") none)
      ∧ (∀ cfields cities, fields.lookup K = some (.obj cfields) →
        cfields.lookup "cities" = some (.arr cities) →
        (∀ x ∈ cities, slugIs x S = some false) →
        deleteCity (.obj fields) K S = .reply 404 (.error "City not found") none)
      ∧ (∀ g, fields.lookup K = none → K ∉ objectProto →
        addGuide (.obj fields) K S g = .reply 404 (.error "Country not found") none)
      ∧ (∀ g cfields cities, fields.lookup K = some (.obj cfields) →
        cfields.lookup "cities" = some (.arr cities) →
        (∀ x ∈ cities, slugIs x S = some false) →
        addGuide (.obj fields) K S g = .reply 404 (.error "City not found") none) := by
  refine ⟨?_, ?_, ?_, ?_, ?_, ?_, ?_⟩
  · intro i hnone
    rcases getProp_obj_missing fields K hnone with hg | hg <;> simp [deleteGuide, hg]
  · intro i cfields cities hK hc hall
    have hgK := getProp_obj_own _ _ _ hK
    have hgc := getProp_obj_own _ _ _ hc
    simp [deleteGuide, hgK, hgc, findBySlug_none cities S hall]
  · intro i cfields pre post cf guides hK hc hpre hslug hg hidx
    have hgK := getProp_obj_own _ _ _ hK
    have hgc := getProp_obj_own _ _ _ hc
    have hgg := getProp_obj_own _ _ _ hg
    have hs : slugIs (.obj cf) S = some true := by simp [slugIs, getProp, hslug]
    cases hgi : getProp (.arr guides) i with
    | none => rw [hgi] at hidx; simp at hidx
    | some re =>
      rw [hgi] at hidx
      have hre : re.truthy = false := by simpa using hidx
      simp [deleteGuide, hgK, hgc, findBySlug_first pre post (.obj cf) S hpre hs, truthy_obj,
        hgg, truthy_val_arr, hgi, hre]
  · intro hnone
    rcases getProp_obj_missing fields K hnone with hg | hg <;>
      simp [deleteCity, hg, JRes.truthy]
  · intro cfields cities hK hc hall
    have hgK := getProp_obj_own _ _ _ hK
    have hgc := getProp_obj_own _ _ _ hc
    simp [deleteCity, hgK, truthy_obj, hgc, JRes.truthy, truthy_arr,
      findBySlug_none cities S hall]
  · intro g hnone hinh
    simp [addGuide, getProp, hnone, inherited, hinh, JRes.truthy]
  · intro g cfields cities hK hc hall
    have hgK := getProp_obj_own _ _ _ hK
    have hgc := getProp_obj_own _ _ _ hc
    simp [addGuide, hgK, truthy_obj, hgc, JRes.truthy, findBySlug_none cities S hall]

/-- Witness for C13: the three missing segments of delete-guide on the sample
document, and the missing country and city of delete-city and add-guide. -/
theorem not_found_messages_witness :
    deleteGuide japanDoc "korea" "tokyo" "0" = .reply 404 (.error "Guide not found") none
      ∧ deleteGuide japanDoc "japan" "osaka" "0" = .reply 404 (.error "Guide not found") none
      ∧ deleteGuide japanDoc "japan" "tokyo" "2" = .reply 404 (.error "Guide not found") none
      ∧ deleteCity japanDoc "korea" "tokyo" =
          .reply 404 (.error "Country or cities not found") none
      ∧ deleteCity japanDoc "japan" "osaka" = .reply 404 (.error "City not found") none
      ∧ addGuide japanDoc "korea" "tokyo" blankGuide =
          .reply 404 (.error "Country not found") none
      ∧ addGuide japanDoc "japan" "osaka" blankGuide =
          .reply 404 (.error "City not found") none :=
  have hk := not_found_messages [("japan", japan)] "korea" "tokyo"
  have ho := not_found_messages [("japan", japan)] "japan" "osaka"
  have ht := not_found_messages [("japan", japan)] "japan" "tokyo"
  have hfalse : ∀ x ∈ [tokyo], slugIs x "osaka" = some false := by
    simp [tokyo, slugIs, getProp, List.lookup]
  ⟨hk.1 "0" rfl,
   ho.2.1 "0" _ [tokyo] rfl rfl hfalse,
   ht.2.2.1 "2" _ [] [] _ _ rfl rfl (by simp) rfl rfl rfl,
   hk.2.2.2.1 rfl,
   ho.2.2.2.2.1 _ [tokyo] rfl rfl hfalse,
   hk.2.2.2.2.2.1 blankGuide rfl (by decide),
   ho.2.2.2.2.2.2 blankGuide _ [tokyo] rfl rfl hfalse⟩

/-! ## Errors write nothing -/

theorem addCity_error_writes_nothing (data : JVal) (K : String) (c : JVal) (st : Nat)
    (b : Body) (w : Option JVal) (h : addCity data K c = .reply st b w) (hst : st ≠ 200) :
    w = none := by
  unfold addCity at h
  repeat' split at h
  all_goals (cases h <;> first | rfl | exact absurd rfl hst)

theorem deleteCity_error_writes_nothing (data : JVal) (K S : String) (st : Nat)
    (b : Body) (w : Option JVal) (h : deleteCity data K S = .reply st b w) (hst : st ≠ 200) :
    w = none := by
  unfold deleteCity at h
  repeat' split at h
  all_goals (cases h <;> first | rfl | exact absurd rfl hst)

theorem addGuide_error_writes_nothing (data : JVal) (K S : String) (g : JVal) (st : Nat)
    (b : Body) (w : Option JVal) (h : addGuide data K S g = .reply st b w) (hst : st ≠ 200) :
    w = none := by
  unfold addGuide at h
  repeat' split at h
  all_goals (cases h <;> first | rfl | exact absurd rfl hst)

theorem deleteGuide_error_writes_nothing (data : JVal) (K S i : String) (st : Nat)
    (b : Body) (w : Option JVal) (h : deleteGuide data K S i = .reply st b w) (hst : st ≠ 200) :
    w = none := by
  unfold deleteGuide at h
  repeat' split at h
  all_goals (cases h <;> first | rfl | exact absurd rfl hst)

theorem addItinerary_error_writes_nothing (data : JVal) (K : String) (p : JVal) (st : Nat)
    (b : Body) (w : Option JVal) (h : addItinerary data K p = .reply st b w) (hst : st ≠ 200) :
    w = none := by
  unfold addItinerary at h
  repeat' split at h
  all_goals (cases h <;> first | rfl | exact absurd rfl hst)

theorem deleteItinerary_error_writes_nothing (data : JVal) (K i : String) (st : Nat)
    (b : Body) (w : Option JVal) (h : deleteItinerary data K i = .reply st b w)
    (hst : st ≠ 200) : w = none := by
  unfold deleteItinerary at h
  repeat' split at h
  all_goals (cases h <;> first | rfl | exact absurd rfl hst)

theorem addTransport_error_writes_nothing (data : JVal) (K : String) (p : JVal) (st : Nat)
    (b : Body) (w : Option JVal) (h : addTransport data K p = .reply st b w) (hst : st ≠ 200) :
    w = none := by
  unfold addTransport at h
  repeat' split at h
  all_goals (cases h <;> first | rfl | exact absurd rfl hst)

theorem deleteTransport_error_writes_nothing (data : JVal) (K i : String) (st : Nat)
    (b : Body) (w : Option JVal) (h : deleteTransport data K i = .reply st b w)
    (hst : st ≠ 200) : w = none := by
  unfold deleteTransport at h
  repeat' split at h
  all_goals (cases h <;> first | rfl | exact absurd rfl hst)

theorem createCountry_error_writes_nothing (data : JVal) (K : String) (d : JVal) (st : Nat)
    (b : Body) (w : Option JVal) (h : createCountry data K d = .reply st b w)
    (hst : st ≠ 200) : w = none := by
  unfold createCountry at h
  repeat' split at h
  all_goals (cases h <;> first | rfl | exact absurd rfl hst)

theorem deleteCountry_error_writes_nothing (data : JVal) (K : String) (st : Nat)
    (b : Body) (w : Option JVal) (h : deleteCountry data K = .reply st b w)
    (hst : st ≠ 200) : w = none := by
  unfold deleteCountry at h
  repeat' split at h
  all_goals (cases h <;> first | rfl | exact absurd rfl hst)

theorem handler_error_writes_nothing (req : Request) (data : JVal) (st : Nat) (b : Body)
    (w : Option JVal) (h : req.handler.1 data = .reply st b w) (hst : st ≠ 200) :
    w = none := by
  cases req with
  | createCountry k d => exact createCountry_error_writes_nothing data k d st b w h hst
  | deleteCountry k => exact deleteCountry_error_writes_nothing data k st b w h hst
  | addCity k c => exact addCity_error_writes_nothing data k c st b w h hst
  | deleteCity k s => exact deleteCity_error_writes_nothing data k s st b w h hst
  | addGuide k s g => exact addGuide_error_writes_nothing data k s g st b w h hst
  | deleteGuide k s i => exact deleteGuide_error_writes_nothing data k s i st b w h hst
  | addItinerary k x => exact addItinerary_error_writes_nothing data k x st b w h hst
  | deleteItinerary k i => exact deleteItinerary_error_writes_nothing data k i st b w h hst
  | addTransport k x => exact addTransport_error_writes_nothing data k x st b w h hst
  | deleteTransport k i => exact deleteTransport_error_writes_nothing data k i st b w h hst

theorem addItinerary_not_object (fields : List (String × JVal)) (K : String) (p c : JVal)
    (st : Nat) (b : Body) (w : Option JVal)
    (hK : fields.lookup K = some c) (hobj : ∀ cf, c ≠ .obj cf)
    (h : addItinerary (.obj fields) K p = .reply st b w) :
    w = none ∨ w = some (.obj fields) := by
  have hgK := getProp_obj_own _ _ _ hK
  cases c with
  | obj cf => exact absurd rfl (hobj cf)
  | arr xs =>
    right
    have h1 : getProp (.arr xs) "itineraries" = some .undefined := rfl
    have h2 : getProp (.arr xs) "name" = some .undefined := rfl
    simp [addItinerary, hgK, truthy_val_arr, truthy_arr, h1, h2, JRes.truthy, templateText, setProp,
      setOwn_same _ _ _ hK] at h
    exact h.2.2.symm
  | null => left; simp [addItinerary, hgK, JRes.truthy, JVal.truthy] at h; exact h.2.2.symm
  | bool x =>
    left
    have h1 : getProp (.bool x) "itineraries" = some .undefined := rfl
    have h2 : getProp (.bool x) "name" = some .undefined := rfl
    simp only [addItinerary, hgK, h1, h2] at h
    repeat' split at h
    all_goals (cases h <;> rfl)
  | num x =>
    left
    have h1 : getProp (.num x) "itineraries" = some .undefined := rfl
    have h2 : getProp (.num x) "name" = some .undefined := rfl
    simp only [addItinerary, hgK, h1, h2] at h
    repeat' split at h
    all_goals (cases h <;> rfl)
  | str x =>
    left
    have h1 : getProp (.str x) "itineraries" = some .undefined := rfl
    have h2 : getProp (.str x) "name" = some .undefined := rfl
    simp only [addItinerary, hgK, h1, h2] at h
    repeat' split at h
    all_goals (cases h <;> rfl)

theorem addTransport_not_object (fields : List (String × JVal)) (K : String) (p c : JVal)
    (st : Nat) (b : Body) (w : Option JVal)
    (hK : fields.lookup K = some c) (hobj : ∀ cf, c ≠ .obj cf)
    (h : addTransport (.obj fields) K p = .reply st b w) :
    w = none ∨ w = some (.obj fields) := by
  have hgK := getProp_obj_own _ _ _ hK
  cases c with
  | obj cf => exact absurd rfl (hobj cf)
  | arr xs =>
    right
    have h1 : getProp (.arr xs) "transport" = some .undefined := rfl
    have h2 : getProp (.arr xs) "name" = some .undefined := rfl
    simp [addTransport, hgK, truthy_val_arr, truthy_arr, h1, h2, JRes.truthy, templateText, setProp,
      setOwn_same _ _ _ hK] at h
    exact h.2.2.symm
  | null => left; simp [addTransport, hgK, JRes.truthy, JVal.truthy] at h; exact h.2.2.symm
  | bool x =>
    left
    have h1 : getProp (.bool x) "transport" = some .undefined := rfl
    have h2 : getProp (.bool x) "name" = some .undefined := rfl
    simp only [addTransport, hgK, h1, h2] at h
    repeat' split at h
    all_goals (cases h <;> rfl)
  | num x =>
    left
    have h1 : getProp (.num x) "transport" = some .undefined := rfl
    have h2 : getProp (.num x) "name" = some .undefined := rfl
    simp only [addTransport, hgK, h1, h2] at h
    repeat' split at h
    all_goals (cases h <;> rfl)
  | str x =>
    left
    have h1 : getProp (.str x) "transport" = some .undefined := rfl
    have h2 : getProp (.str x) "name" = some .undefined := rfl
    simp only [addTransport, hgK, h1, h2] at h
    repeat' split at h
    all_goals (cases h <;> rfl)

theorem addItinerary_all_or_nothing (fields : List (String × JVal)) (K : String) (p : JVal) :
    (∃ xs, blockListOf ((addItinerary (.obj fields) K p).persisted (.obj fields)) K
        "itineraries" "items" = some (xs ++ [p]))
      ∨ (addItinerary (.obj fields) K p).persisted (.obj fields) = .obj fields := by
  cases ho : addItinerary (.obj fields) K p with
  | beyond => exact Or.inr rfl
  | reply st b w =>
    cases w with
    | none => exact Or.inr rfl
    | some doc1 =>
      cases hl : fields.lookup K with
      | none =>
        right
        rcases getProp_obj_missing fields K hl with hg | hg
        · simp [addItinerary, hg, JRes.truthy] at ho
        · simp [addItinerary, hg, JRes.truthy] at ho
          simp [Outcome.persisted, ho.2.2]
      | some c =>
        by_cases hobj : ∃ cf, c = .obj cf
        · obtain ⟨cf, rfl⟩ := hobj
          exact Or.inl (addItinerary_stores_payload fields cf K p hl st b doc1 ho)
        · right
          have hno : ∀ cf, c ≠ .obj cf := fun cf hc => hobj ⟨cf, hc⟩
          rcases addItinerary_not_object fields K p c st b (some doc1) hl hno ho with h1 | h1
          · simp at h1
          · simp only [Option.some.injEq] at h1
            simp [Outcome.persisted, h1]

theorem addTransport_all_or_nothing (fields : List (String × JVal)) (K : String) (p : JVal) :
    (∃ xs, blockListOf ((addTransport (.obj fields) K p).persisted (.obj fields)) K
        "transport" "modes" = some (xs ++ [p]))
      ∨ (addTransport (.obj fields) K p).persisted (.obj fields) = .obj fields := by
  cases ho : addTransport (.obj fields) K p with
  | beyond => exact Or.inr rfl
  | reply st b w =>
    cases w with
    | none => exact Or.inr rfl
    | some doc1 =>
      cases hl : fields.lookup K with
      | none =>
        right
        rcases getProp_obj_missing fields K hl with hg | hg
        · simp [addTransport, hg, JRes.truthy] at ho
        · simp [addTransport, hg, JRes.truthy] at ho
          simp [Outcome.persisted, ho.2.2]
      | some c =>
        by_cases hobj : ∃ cf, c = .obj cf
        · obtain ⟨cf, rfl⟩ := hobj
          exact Or.inl (addTransport_stores_payload fields cf K p hl st b doc1 ho)
        · right
          have hno : ∀ cf, c ≠ .obj cf := fun cf hc => hobj ⟨cf, hc⟩
          rcases addTransport_not_object fields K p c st b (some doc1) hl hno ho with h1 | h1
          · simp at h1
          · simp only [Option.some.injEq] at h1
            simp [Outcome.persisted, h1]

theorem serve_error_keeps_disk (handler : JVal → Outcome) (failure : String) (f : Faults)
    (disk disk1 : Disk) (st : Nat) (b : Body)
    (hw : ∀ data s y w, handler data = .reply s y w → s ≠ 200 → w = none)
    (hdw : ∀ t, f.dataWrite ≠ .rejects (some t))
    (h : serve handler failure f disk = some (st, b, disk1)) (hst : st ≠ 200) :
    disk1 = disk := by
  unfold serve at h
  split at h
  · simp only [Option.some.injEq, Prod.mk.injEq] at h; exact h.2.2.symm
  · simp only [Option.some.injEq, Prod.mk.injEq] at h; exact h.2.2.symm
  · next data _ =>
    split at h
    · exact absurd h (by simp)
    · simp only [Option.some.injEq, Prod.mk.injEq] at h; exact h.2.2.symm
    · next s y doc hh =>
      have h200 : s = 200 := by
        by_contra hne
        have := hw data s y (some doc) hh hne
        simp at this
      cases hfw : f.dataWrite with
      | none =>
        simp only [hfw, writeFile, Option.some.injEq, Prod.mk.injEq] at h
        exact absurd (h200 ▸ h.1.symm) hst
      | rejects left =>
        cases left with
        | none =>
          simp only [hfw, writeFile, Option.some.injEq, Prod.mk.injEq] at h
          exact h.2.2.symm
        | some t => exact absurd hfw (hdw t)

theorem serve_partial_write (handler : JVal → Outcome) (failure : String) (f : Faults)
    (disk : Disk) (data doc : JVal) (st : Nat) (b : Body) (t : Content)
    (hr : readData f disk = some (.json data)) (hh : handler data = .reply st b (some doc))
    (hw : f.dataWrite = .rejects (some t)) :
    serve handler failure f disk = some (500, .error failure, disk.store dataFile t) := by
  simp [serve, hr, hh, hw, writeFile]

/-- C16 (as stated, refuted): delete-country of Japan reaches the write of the
data file; when that write rejects after it has cut the file short, the
request is answered 500 'Failed to delete country' and the data file no longer
holds the prior document. -/
theorem deleteCountry_partial_write_changes_file :
    handle (.deleteCountry "japan") ⟨false, .none, .rejects (some (.junk "tru"))⟩ japanDisk
        = some (500, .error "Failed to delete country",
            ⟨[("travel-data.json", .junk "tru")]⟩)
      ∧ japanDisk.content dataFile = some (.json japanDoc)
      ∧ Disk.content ⟨[("travel-data.json", .junk "tru")]⟩ dataFile = some (.junk "tru")
      ∧ Content.junk "tru" ≠ Content.json japanDoc := by
  refine ⟨rfl, rfl, rfl, ?_⟩
  intro h
  cases h

/-- C16 (amended): provided no write of the data file fails after it has
changed the file, a structural request that is answered with an error has
written nothing, and a full-document save answered with an error has left the
data file as it was; add-itinerary and add-transport-mode either persist a
document in which the block of the country ends with the payload, or leave the
persisted document as it was. -/
theorem errors_leave_document (req : Request) (f : Faults) (disk : Disk)
    (hdw : ∀ t, f.dataWrite ≠ .rejects (some t)) :
    (∀ data st b w, req.handler.1 data = .reply st b w → st ≠ 200 → w = none)
      ∧ (∀ st b disk1, handle req f disk = some (st, b, disk1) → st ≠ 200 → disk1 = disk)
      ∧ (∀ iso d, (putData iso f disk d).1 ≠ 200 →
          (putData iso f disk d).2.2.content dataFile = disk.content dataFile)
      ∧ (∀ fields K p,
          (∃ xs, blockListOf ((addItinerary (.obj fields) K p).persisted (.obj fields)) K
              "itineraries" "items" = some (xs ++ [p]))
            ∨ (addItinerary (.obj fields) K p).persisted (.obj fields) = .obj fields)
      ∧ (∀ fields K p,
          (∃ xs, blockListOf ((addTransport (.obj fields) K p).persisted (.obj fields)) K
              "transport" "modes" = some (xs ++ [p]))
            ∨ (addTransport (.obj fields) K p).persisted (.obj fields) = .obj fields) := by
  refine ⟨fun data st b w h hst => handler_error_writes_nothing req data st b w h hst,
    fun st b disk1 h hst => serve_error_keeps_disk req.handler.1 req.handler.2 f disk disk1 st b
      (fun data s y w hh hs => handler_error_writes_nothing req data s y w hh hs) hdw h hst,
    ?_, addItinerary_all_or_nothing, addTransport_all_or_nothing⟩
  intro iso d hst
  cases hr : readData f disk with
  | none => simp [putData, hr]
  | some c =>
    have hne : dataFile ≠ backupFile iso := fun e => backupFile_ne_dataFile iso e.symm
    cases hbw : f.backupWrite with
    | rejects left =>
      cases left with
      | none => simp [putData, hr, hbw, writeFile]
      | some t => simp [putData, hr, hbw, writeFile, content_store_other _ _ _ _ hne]
    | none =>
      cases hfw : f.dataWrite with
      | none => simp [putData, hr, hbw, hfw, writeFile] at hst
      | rejects left =>
        cases left with
        | none => simp [putData, hr, hbw, hfw, writeFile, content_store_other _ _ _ _ hne]
        | some t => exact absurd hfw (hdw t)

/-- Witness for C16: add-itinerary on a block without `items` is answered 500
and the directory stays as it was. -/
theorem errors_leave_document_witness :
    handle (.addItinerary "japan" train) noFaults ⟨[("travel-data.json", .json japanNoItems)]⟩
        = some (500, .error "Failed to add itinerary",
            ⟨[("travel-data.json", .json japanNoItems)]⟩)
      ∧ (⟨[("travel-data.json", .json japanNoItems)]⟩ : Disk)
        = ⟨[("travel-data.json", .json japanNoItems)]⟩ :=
  ⟨rfl, (errors_leave_document (.addItinerary "japan" train) noFaults
    ⟨[("travel-data.json", .json japanNoItems)]⟩ (fun _ h => by cases h)).2.1
    500 (.error "Failed to add itinerary") _ rfl (by decide)⟩

/-! ## Slugs -/

theorem deleteCity_written (fields : List (String × JVal)) (K S : String) (st : Nat)
    (b : Body) (doc1 : JVal)
    (h : deleteCity (.obj fields) K S = .reply st b (some doc1)) :
    ∃ v xs, doc1 = .obj (setOwn fields K (setProp v "cities" (.arr xs)))
      ∧ ∃ cities i, citiesOf (.obj fields) K = some cities ∧ xs = cities.eraseIdx i := by
  simp only [deleteCity] at h
  repeat' split at h
  all_goals (cases h)
  exact ⟨_, _, rfl, _, _, by simp [citiesOf, *], rfl⟩

theorem addGuide_written (fields : List (String × JVal)) (K S : String) (g : JVal) (st : Nat)
    (b : Body) (doc1 : JVal)
    (h : addGuide (.obj fields) K S g = .reply st b (some doc1)) :
    ∃ v xs, doc1 = .obj (setOwn fields K (setProp v "cities" (.arr xs)))
      ∧ ∃ cities i city X, citiesOf (.obj fields) K = some cities
        ∧ findBySlug cities S = .hit i city ∧ xs = cities.set i (setProp city "guides" X) := by
  simp only [addGuide] at h
  repeat' split at h
  all_goals (cases h)
  all_goals exact ⟨_, _, rfl, _, _, _, _, by simp [citiesOf, *], by assumption, rfl⟩

theorem deleteGuide_written (fields : List (String × JVal)) (K S idx : String) (st : Nat)
    (b : Body) (doc1 : JVal)
    (h : deleteGuide (.obj fields) K S idx = .reply st b (some doc1)) :
    ∃ v xs, doc1 = .obj (setOwn fields K (setProp v "cities" (.arr xs)))
      ∧ ∃ cities i city X, citiesOf (.obj fields) K = some cities
        ∧ findBySlug cities S = .hit i city ∧ xs = cities.set i (setProp city "guides" X) := by
  simp only [deleteGuide] at h
  repeat' split at h
  all_goals (cases h)
  all_goals exact ⟨_, _, rfl, _, _, _, _, by simp [citiesOf, *], by assumption, rfl⟩

theorem addCity_written (fields : List (String × JVal)) (K : String) (c : JVal) (st : Nat)
    (b : Body) (doc1 : JVal)
    (h : addCity (.obj fields) K c = .reply st b (some doc1)) :
    doc1 = .obj fields
      ∨ ∃ v xs, doc1 = .obj (setOwn fields K (setProp v "cities" (.arr xs)))
        ∧ (xs = [c] ∨ ∃ cities, citiesOf (.obj fields) K = some cities ∧ xs = cities ++ [c]) := by
  simp only [addCity] at h
  repeat' split at h
  all_goals (cases h)
  all_goals first
    | exact Or.inl rfl
    | exact Or.inr ⟨_, _, rfl, Or.inl rfl⟩
    | exact Or.inr ⟨_, _, rfl, Or.inr ⟨_, by simp [citiesOf, *], rfl⟩⟩

theorem cities_of_setProp (v : JVal) (xs ys : List JVal)
    (h : getProp (setProp v "cities" (.arr xs)) "cities" = some (.val (.arr ys))) : ys = xs := by
  obtain ⟨fs, hv, hl⟩ := getProp_val_named _ _ "cities" rfl (by decide) h
  cases v with
  | obj cf =>
    simp only [setProp, JVal.obj.injEq] at hv
    rw [← hv, lookup_setOwn_self] at hl
    simpa using hl.symm
  | null => simp [setProp] at hv
  | bool x => simp [setProp] at hv
  | num x => simp [setProp] at hv
  | str x => simp [setProp] at hv
  | arr x => simp [setProp] at hv

theorem slugsUnique_setOwn (fields : List (String × JVal)) (K : String) (v : JVal)
    (xs : List JVal) (hu : SlugsUnique (.obj fields)) (hxs : distinctSlugs xs) :
    SlugsUnique (.obj (setOwn fields K (setProp v "cities" (.arr xs)))) := by
  intro K2 cities hc
  by_cases hk : K2 = K
  · subst hk
    simp only [citiesOf, getProp, lookup_setOwn_self] at hc
    split at hc
    · next ys hys =>
      simp only [Option.some.injEq] at hc
      rw [← hc, cities_of_setProp v xs ys hys]
      exact hxs
    · simp at hc
  · apply hu K2 cities
    simpa only [citiesOf, getProp_setOwn_other fields K K2 _ hk] using hc

theorem slugOf_setProp_guides (city X : JVal) :
    slugOf (setProp city "guides" X) = slugOf city := by
  cases city with
  | obj cf =>
    simp only [slugOf, setProp, getProp, lookup_setOwn_other cf "guides" "slug" X (by decide)]
  | _ => rfl

theorem findBySlug_hit_get (cities : List JVal) (s : String) (i : Nat) (city : JVal)
    (h : findBySlug cities s = .hit i city) : cities.get? i = some city := by
  induction cities generalizing i with
  | nil => simp [findBySlug] at h
  | cons x rest ih =>
    unfold findBySlug at h
    split at h
    · simp at h
    · simp only [Found.hit.injEq] at h
      obtain ⟨hi, hc⟩ := h
      subst hi; subst hc; rfl
    · split at h
      · next j cj hj =>
        simp only [Found.hit.injEq] at h
        obtain ⟨hi, hc⟩ := h
        subst hi
        rw [hc] at hj
        simpa using ih j hj
      · next r hr =>
        cases hrest : findBySlug rest s with
        | threw => rw [hrest] at h; simp at h
        | missing => rw [hrest] at h; simp at h
        | hit j cj => exact absurd hrest (hr j cj)

theorem filterMap_set_same (f : JVal → Option String) (l : List JVal) (i : Nat) (a a1 : JVal)
    (hget : l.get? i = some a) (hf : f a1 = f a) :
    (l.set i a1).filterMap f = l.filterMap f := by
  induction l generalizing i with
  | nil => simp at hget
  | cons x rest ih =>
    cases i with
    | zero =>
      simp only [List.get?_cons_zero, Option.some.injEq] at hget
      subst hget
      simp [List.set, List.filterMap_cons, hf]
    | succ j =>
      simp only [List.get?_cons_succ] at hget
      simp [List.set, List.filterMap_cons, ih j hget]

theorem distinctSlugs_eraseIdx (cities : List JVal) (i : Nat) (h : distinctSlugs cities) :
    distinctSlugs (cities.eraseIdx i) :=
  List.Nodup.sublist ((List.eraseIdx_sublist cities i).filterMap slugOf) h

/-- C15 (as stated, refuted): in `japanDoc` no country has two cities with the
same slug; add-city of a second city with the slug `tokyo` succeeds, and in the
resulting document Japan has two cities with that slug. -/
theorem addCity_breaks_unique_slugs :
    SlugsUnique japanDoc
      ∧ addCity japanDoc "japan" edo =
          .reply 200 (.success "City added successfully") (some japanTwoTokyos)
      ∧ ¬ SlugsUnique japanTwoTokyos := by
  refine ⟨?_, rfl, ?_⟩
  · intro K cities hc
    by_cases hk : K = "japan"
    · subst hk
      have : cities = [tokyo] := by
        have h1 : citiesOf japanDoc "japan" = some [tokyo] := rfl
        rw [h1] at hc
        simpa using hc.symm
      subst this
      simp [distinctSlugs, List.filterMap, slugOf, tokyo, getProp, List.lookup]
    · have hb : (K == "japan") = false := by simpa using hk
      have hl : List.lookup K [("japan", japan)] = none := by simp [List.lookup, hb]
      rcases getProp_obj_missing _ K hl with hg | hg <;>
        simp [citiesOf, japanDoc, hg] at hc
  · intro h
    have h2 := h "japan" [tokyo, edo] rfl
    simp [distinctSlugs, List.filterMap, slugOf, tokyo, edo, getProp, List.lookup] at h2

/-- C15 (amended): slug uniqueness is kept by delete-city, add-guide and
delete-guide, and by add-city when no city of the country has the slug of the
new city: if no country of the document has two cities with the same slug,
the document written by such a request has none either.  (add-city itself
never compares slugs.) -/
theorem slugs_stay_unique (fields : List (String × JVal)) (K : String)
    (hu : SlugsUnique (.obj fields)) :
    (∀ S st b doc1, deleteCity (.obj fields) K S = .reply st b (some doc1) → SlugsUnique doc1)
      ∧ (∀ S g st b doc1, addGuide (.obj fields) K S g = .reply st b (some doc1) →
          SlugsUnique doc1)
      ∧ (∀ S i st b doc1, deleteGuide (.obj fields) K S i = .reply st b (some doc1) →
          SlugsUnique doc1)
      ∧ (∀ c st b doc1,
          (∀ cities s, citiesOf (.obj fields) K = some cities → slugOf c = some s →
            s ∉ cities.filterMap slugOf) →
          addCity (.obj fields) K c = .reply st b (some doc1) → SlugsUnique doc1) := by
  refine ⟨?_, ?_, ?_, ?_⟩
  · intro S st b doc1 h
    obtain ⟨v, xs, rfl, cities, i, hc, rfl⟩ := deleteCity_written fields K S st b doc1 h
    exact slugsUnique_setOwn fields K v _ hu (distinctSlugs_eraseIdx cities i (hu K cities hc))
  · intro S g st b doc1 h
    obtain ⟨v, xs, rfl, cities, i, city, X, hc, hf, rfl⟩ :=
      addGuide_written fields K S g st b doc1 h
    refine slugsUnique_setOwn fields K v _ hu ?_
    unfold distinctSlugs
    rw [filterMap_set_same slugOf cities i city _ (findBySlug_hit_get cities S i city hf)
      (slugOf_setProp_guides city X)]
    exact hu K cities hc
  · intro S idx st b doc1 h
    obtain ⟨v, xs, rfl, cities, i, city, X, hc, hf, rfl⟩ :=
      deleteGuide_written fields K S idx st b doc1 h
    refine slugsUnique_setOwn fields K v _ hu ?_
    unfold distinctSlugs
    rw [filterMap_set_same slugOf cities i city _ (findBySlug_hit_get cities S i city hf)
      (slugOf_setProp_guides city X)]
    exact hu K cities hc
  · intro c st b doc1 hfresh h
    rcases addCity_written fields K c st b doc1 h with rfl | ⟨v, xs, rfl, hxs⟩
    · exact hu
    · refine slugsUnique_setOwn fields K v _ hu ?_
      rcases hxs with rfl | ⟨cities, hc, rfl⟩
      · unfold distinctSlugs
        cases hs : slugOf c <;> simp [List.filterMap_cons, hs]
      · unfold distinctSlugs
        rw [List.filterMap_append]
        cases hs : slugOf c with
        | none => simpa [List.filterMap_cons, hs] using hu K cities hc
        | some s =>
          have hnot := hfresh cities s hc hs
          have hnd : (cities.filterMap slugOf).Nodup := hu K cities hc
          simp only [List.filterMap_cons, hs, List.filterMap_nil]
          rw [List.nodup_append]
          refine ⟨hnd, by simp, ?_⟩
          intro a ha hb
          simp only [List.mem_singleton] at hb
          exact hnot (hb ▸ ha)

/-- Witness for C15: add-guide on the sample document, whose slugs are unique,
writes a document whose slugs are unique. -/
theorem slugs_stay_unique_witness :
    SlugsUnique japanBlankGuide :=
  (slugs_stay_unique [("japan", japan)] "japan"
    (by
      intro K cities hc
      by_cases hk : K = "japan"
      · subst hk
        have h1 : citiesOf (.obj [("japan", japan)]) "japan" = some [tokyo] := rfl
        rw [h1] at hc
        have : cities = [tokyo] := by simpa using hc.symm
        subst this
        simp [distinctSlugs, List.filterMap, slugOf, tokyo, getProp, List.lookup]
      · have hb : (K == "japan") = false := by simpa using hk
        have hl : List.lookup K [("japan", japan)] = none := by simp [List.lookup, hb]
        rcases getProp_obj_missing _ K hl with hg | hg <;>
          simp [citiesOf, hg] at hc)).2.1
    "tokyo" blankGuide 200 (.success "Guide added successfully") japanBlankGuide rfl

/-! ## The image list -/

theorem insertEntry_perm (a : ImageEntry) (l : List ImageEntry) :
    (insertEntry a l).Perm (a :: l) := by
  induction l with
  | nil => exact List.Perm.refl _
  | cons b rest ih =>
    unfold insertEntry
    split
    · exact List.Perm.refl _
    · exact (List.Perm.cons b ih).trans (List.Perm.swap a b rest)

theorem sortEntries_perm (l : List ImageEntry) : (sortEntries l).Perm l := by
  induction l with
  | nil => exact List.Perm.refl _
  | cons a rest ih =>
    exact (insertEntry_perm a (sortEntries rest)).trans (List.Perm.cons a ih)

theorem patternFrom_iff (cs : List Char) :
    patternFrom cs = true ↔
      ∃ front body, cs = front ++ '.' :: body
        ∧ ∃ e ∈ imageExtensions, body.map Char.toLower = e.data := by
  induction cs with
  | nil => simp [patternFrom]
  | cons c rest ih =>
    simp only [patternFrom, Bool.or_eq_true, ih]
    constructor
    · rintro (h | ⟨front, body, hcs, he⟩)
      · unfold patternHere at h
        split at h
        · next c1 r heq =>
          simp only [List.cons.injEq] at heq
          obtain ⟨hc, hr⟩ := heq
          subst hc; subst hr
          simp only [List.any_eq_true, beq_iff_eq] at h
          exact ⟨[], rest, rfl, h⟩
        · simp at h
      · exact ⟨c :: front, body, by simp [hcs], he⟩
    · rintro ⟨front, body, hcs, he⟩
      cases front with
      | nil =>
        simp only [List.nil_append, List.cons.injEq] at hcs
        obtain ⟨hc, hr⟩ := hcs
        subst hc; subst hr
        left
        simp only [patternHere, List.any_eq_true, beq_iff_eq]
        exact he
      | cons x front1 =>
        simp only [List.cons_append, List.cons.injEq] at hcs
        exact Or.inr ⟨front1, body, hcs.2, he⟩

theorem isImageName_iff (name : String) : isImageName name = true ↔ hasImageSuffix name := by
  unfold isImageName
  rw [patternFrom_iff]
  unfold hasImageSuffix endsWithExtension imageExtensions
  constructor
  · rintro ⟨front, body, hcs, e, he, hb⟩
    simp only [List.mem_cons, List.mem_singleton, List.not_mem_nil, or_false] at he
    rcases he with rfl | rfl | rfl | rfl | rfl
    · exact Or.inl ⟨front, body, hcs, hb⟩
    · exact Or.inr (Or.inl ⟨front, body, hcs, hb⟩)
    · exact Or.inr (Or.inr (Or.inl ⟨front, body, hcs, hb⟩))
    · exact Or.inr (Or.inr (Or.inr (Or.inl ⟨front, body, hcs, hb⟩)))
    · exact Or.inr (Or.inr (Or.inr (Or.inr ⟨front, body, hcs, hb⟩)))
  · rintro (⟨f, b, h1, h2⟩ | ⟨f, b, h1, h2⟩ | ⟨f, b, h1, h2⟩ | ⟨f, b, h1, h2⟩ | ⟨f, b, h1, h2⟩)
    · exact ⟨f, b, h1, "jpg", by simp, h2⟩
    · exact ⟨f, b, h1, "jpeg", by simp, h2⟩
    · exact ⟨f, b, h1, "png", by simp, h2⟩
    · exact ⟨f, b, h1, "gif", by simp, h2⟩
    · exact ⟨f, b, h1, "webp", by simp, h2⟩

theorem takeWhile_before_dash (cs : List Char) :
    '-' ∉ cs.takeWhile (fun c => c != '-')
      ∧ ∃ rest, cs = cs.takeWhile (fun c => c != '-') ++ rest
        ∧ (rest = [] ∨ ∃ r, rest = '-' :: r) := by
  induction cs with
  | nil => exact ⟨by simp, [], rfl, Or.inl rfl⟩
  | cons c rest ih =>
    by_cases hc : c = '-'
    · subst hc
      exact ⟨by simp [List.takeWhile], '-' :: rest, by simp [List.takeWhile], Or.inr ⟨rest, rfl⟩⟩
    · have hp : (c != '-') = true := by simpa using hc
      obtain ⟨h1, r, h2, h3⟩ := ih
      refine ⟨?_, r, ?_, h3⟩
      · simp only [List.takeWhile, hp, List.mem_cons, not_or]
        exact ⟨fun e => hc e.symm, h1⟩
      · simp only [List.takeWhile, hp, List.cons_append]
        rw [← h2]

theorem mem_listImages (files : List String) (e : ImageEntry) :
    e ∈ listImages files ↔ ∃ f ∈ files, isImageName f = true ∧ e = toEntry f := by
  unfold listImages
  rw [(sortEntries_perm _).mem_iff]
  simp only [List.mem_map, List.mem_filter]
  constructor
  · rintro ⟨f, ⟨hf, hi⟩, rfl⟩
    exact ⟨f, hf, hi, rfl⟩
  · rintro ⟨f, hf, hi, rfl⟩
    exact ⟨f, ⟨hf, hi⟩, rfl⟩

/-- C17: a name of the directory listing appears in the image list exactly
when it ends with `.jpg`, `.jpeg`, `.png`, `.gif` or `.webp`, letters compared
without regard to case; every entry has the path "/images/" ++ filename, and
its `uploadDate` is the text of the filename before its first `-`: it contains
no `-`, and the filename continues after it with a `-` or ends there. -/
theorem listImages_entries (files : List String) :
    (∀ name, (∃ e ∈ listImages files, e.filename = name) ↔ (name ∈ files ∧ hasImageSuffix name))
      ∧ ∀ e ∈ listImages files,
          e.path = "/images/" ++ e.filename
          ∧ '-' ∉ e.uploadDate.data
          ∧ ∃ rest, e.filename.data = e.uploadDate.data ++ rest
              ∧ (rest = [] ∨ ∃ r, rest = '-' :: r) := by
  constructor
  · intro name
    constructor
    · rintro ⟨e, he, rfl⟩
      obtain ⟨f, hf, hi, rfl⟩ := (mem_listImages files e).1 he
      exact ⟨hf, (isImageName_iff f).1 hi⟩
    · rintro ⟨hf, hs⟩
      exact ⟨toEntry name, (mem_listImages files _).2 ⟨name, hf, (isImageName_iff name).2 hs, rfl⟩,
        rfl⟩
  · intro e he
    obtain ⟨f, _, _, rfl⟩ := (mem_listImages files e).1 he
    exact ⟨rfl, takeWhile_before_dash f.data⟩

/-! ## Newest first -/

theorem decimalValue_digits (ds : List Char) (acc t : Nat) (h : decimalValue ds acc = some t) :
    ∀ c ∈ ds, 48 ≤ c.toNat ∧ c.toNat ≤ 57 := by
  induction ds generalizing acc with
  | nil => simp
  | cons c rest ih =>
    unfold decimalValue at h
    split at h
    · next hc =>
      intro x hx
      rcases List.mem_cons.1 hx with rfl | hx
      · exact hc
      · exact ih _ h x hx
    · simp at h

theorem isJsSpace_digit (c : Char) (h : 48 ≤ c.toNat ∧ c.toNat ≤ 57) : isJsSpace c = false := by
  simp only [isJsSpace, Bool.or_eq_false_iff, Bool.and_eq_false_iff, decide_eq_false_iff_not]
  refine ⟨?_, Or.inl (by omega)⟩
  simp only [List.contains, List.elem_eq_mem, decide_eq_false_iff_not, List.mem_cons,
    List.mem_singleton, List.not_mem_nil, or_false]
  omega

theorem digitValue_digit (c : Char) (h : 48 ≤ c.toNat ∧ c.toNat ≤ 57) :
    digitValue 10 c = some (c.toNat - 48) := by
  have h1 : c.toNat - 48 < 10 := by omega
  simp [digitValue, h, h1]

theorem leadingValue_digits (ds : List Char) (acc t : Nat) (a : Option Nat)
    (h : decimalValue ds acc = some t)
    (ha : a = some acc ∨ (a = none ∧ acc = 0 ∧ ds ≠ [])) :
    leadingValue 10 ds a = some t := by
  induction ds generalizing acc a with
  | nil =>
    rcases ha with rfl | ⟨_, _, hne⟩
    · simpa [decimalValue, leadingValue] using h
    · exact absurd rfl hne
  | cons c rest ih =>
    have hd := decimalValue_digits _ _ _ h c (by simp)
    unfold decimalValue at h
    rw [if_pos hd] at h
    unfold leadingValue
    rw [digitValue_digit c hd]
    apply ih _ _ h
    left
    rcases ha with rfl | ⟨rfl, rfl, _⟩ <;> simp

theorem takeWhile_digits_dash (ds rest : List Char)
    (hd : ∀ c ∈ ds, 48 ≤ c.toNat ∧ c.toNat ≤ 57) :
    (ds ++ '-' :: rest).takeWhile (fun c => c != '-') = ds := by
  induction ds with
  | nil => simp [List.takeWhile]
  | cons c cs ih =>
    have hc := hd c (by simp)
    have hne : (c != '-') = true := by
      simp only [bne_iff_ne, ne_eq]
      intro e
      subst e
      exact absurd hc.1 (by decide)
    have hrest := ih (fun x hx => hd x (by simp [hx]))
    simp only [List.cons_append, List.takeWhile, hne, List.cons.injEq, true_and]
    exact hrest

theorem parseInt_digits (ds : List Char) (t : Nat) (hne : ds ≠ [])
    (h : decimalValue ds 0 = some t) : parseInt (String.mk ds) = some (t : Int) := by
  have hd := decimalValue_digits ds 0 t h
  cases ds with
  | nil => exact absurd rfl hne
  | cons c cs =>
    have hc := hd c (by simp)
    have hdrop : (c :: cs).dropWhile isJsSpace = c :: cs := by
      simp [List.dropWhile, isJsSpace_digit c hc]
    have hmag : parseMagnitude (c :: cs) = some t := by
      unfold parseMagnitude
      split
      · next r heq =>
        simp only [List.cons.injEq] at heq
        have := hd 'x' (by rw [heq.2]; simp)
        exact absurd this.2 (by decide)
      · next r heq =>
        simp only [List.cons.injEq] at heq
        have := hd 'X' (by rw [heq.2]; simp)
        exact absurd this.2 (by decide)
      · exact leadingValue_digits (c :: cs) 0 t none h (Or.inr ⟨rfl, rfl, hne⟩)
    unfold parseInt
    simp only [hdrop]
    split
    · next r heq =>
      simp only [List.cons.injEq] at heq
      rw [heq.1] at hc
      exact absurd hc.1 (by decide)
    · next r heq =>
      simp only [List.cons.injEq] at heq
      rw [heq.1] at hc
      exact absurd hc.1 (by decide)
    · simp [hmag]

theorem insertEntry_sorted (a : ImageEntry) (l : List ImageEntry)
    (hall : ∀ e ∈ a :: l, ∃ t : Int, parseInt e.uploadDate = some t)
    (hs : l.Pairwise (fun x y => ∃ u v : Int, parseInt x.uploadDate = some u
      ∧ parseInt y.uploadDate = some v ∧ u ≥ v)) :
    (insertEntry a l).Pairwise (fun x y => ∃ u v : Int, parseInt x.uploadDate = some u
      ∧ parseInt y.uploadDate = some v ∧ u ≥ v) := by
  induction l with
  | nil => simp [insertEntry]
  | cons b rest ih =>
    obtain ⟨ta, hta⟩ := hall a (by simp)
    obtain ⟨tb, htb⟩ := hall b (by simp)
    have hcmp : compareDates a b = tb - ta := by simp [compareDates, hta, htb]
    rw [List.pairwise_cons] at hs
    unfold insertEntry
    split
    · next hle =>
      rw [hcmp] at hle
      refine List.Pairwise.cons ?_ (List.Pairwise.cons hs.1 hs.2)
      intro y hy
      rcases List.mem_cons.1 hy with rfl | hy
      · exact ⟨ta, tb, hta, htb, by omega⟩
      · obtain ⟨u, v, hu, hv, huv⟩ := hs.1 y hy
        rw [htb] at hu
        simp only [Option.some.injEq] at hu
        exact ⟨ta, v, hta, hv, by omega⟩
    · next hgt =>
      rw [hcmp] at hgt
      refine List.Pairwise.cons ?_ (ih (fun e he => hall e ?_) hs.2)
      · intro y hy
        rcases List.mem_cons.1 ((insertEntry_perm a rest).mem_iff.1 hy) with rfl | hy
        · exact ⟨tb, ta, htb, hta, by omega⟩
        · exact hs.1 y hy
      · rcases List.mem_cons.1 he with rfl | he
        · simp
        · simp [he]

theorem sortEntries_sorted (l : List ImageEntry)
    (hall : ∀ e ∈ l, ∃ t : Int, parseInt e.uploadDate = some t) :
    (sortEntries l).Pairwise (fun x y => ∃ u v : Int, parseInt x.uploadDate = some u
      ∧ parseInt y.uploadDate = some v ∧ u ≥ v) := by
  induction l with
  | nil => simp [sortEntries]
  | cons a rest ih =>
    unfold sortEntries
    apply insertEntry_sorted
    · intro e he
      rcases List.mem_cons.1 he with rfl | he
      · exact hall _ (by simp)
      · exact hall e (by simp [(sortEntries_perm rest).mem_iff.1 he])
    · exact ih (fun e he => hall e (by simp [he]))

/-- C18: when every image name of the listing begins with a timestamp (a run
of decimal digits with a value below 2^53, as every `Date.now()` is) followed
by `-`, the image list is a permutation of the matching names and is ordered
newest first: of any two entries, hence of any two consecutive ones, the
earlier has a parsed timestamp greater than or equal to that of the later. -/
theorem listImages_newest_first (files : List String)
    (h : ∀ f ∈ files, isImageName f = true →
      ∃ ds rest t, f.data = ds ++ '-' :: rest ∧ ds ≠ [] ∧ decimalValue ds 0 = some t
        ∧ t < 9007199254740992) :
    ((listImages files).map (fun e => e.filename)).Perm (files.filter isImageName)
      ∧ (listImages files).Pairwise (fun x y => ∃ u v : Int,
          parseInt x.uploadDate = some u ∧ parseInt y.uploadDate = some v ∧ u ≥ v)
      ∧ (listImages files).Chain' (fun x y => ∃ u v : Int,
          parseInt x.uploadDate = some u ∧ parseInt y.uploadDate = some v ∧ u ≥ v) := by
  have hsorted : (listImages files).Pairwise (fun x y => ∃ u v : Int,
      parseInt x.uploadDate = some u ∧ parseInt y.uploadDate = some v ∧ u ≥ v) := by
    apply sortEntries_sorted
    intro e he
    simp only [List.mem_map, List.mem_filter] at he
    obtain ⟨f, ⟨hf, hi⟩, rfl⟩ := he
    obtain ⟨ds, rest, t, hdata, hne, hval, _⟩ := h f hf hi
    refine ⟨(t : Int), ?_⟩
    have hsplit : splitFirst f = String.mk ds := by
      unfold splitFirst
      rw [hdata, takeWhile_digits_dash ds rest (decimalValue_digits ds 0 t hval)]
    show parseInt (splitFirst f) = some (t : Int)
    rw [hsplit]
    exact parseInt_digits ds t hne hval
  refine ⟨?_, hsorted, List.Pairwise.chain' hsorted⟩
  have hp := (sortEntries_perm ((files.filter isImageName).map toEntry)).map (fun e => e.filename)
  have hid : ((files.filter isImageName).map toEntry).map (fun e => e.filename)
      = files.filter isImageName := by
    simp [List.map_map, Function.comp_def, toEntry]
  rw [hid] at hp
  exact hp

/-- Witness for C18: three uploads and a text file. -/
theorem listImages_newest_first_witness :
    ((listImages ["5-a.png", "notes.txt", "20-b.JPG", "7-c.gif"]).map (fun e => e.filename)).Perm
        (["5-a.png", "notes.txt", "20-b.JPG", "7-c.gif"].filter isImageName)
      ∧ (listImages ["5-a.png", "notes.txt", "20-b.JPG", "7-c.gif"]).Pairwise (fun x y =>
          ∃ u v : Int, parseInt x.uploadDate = some u ∧ parseInt y.uploadDate = some v ∧ u ≥ v)
      ∧ (listImages ["5-a.png", "notes.txt", "20-b.JPG", "7-c.gif"]).Chain' (fun x y =>
          ∃ u v : Int, parseInt x.uploadDate = some u ∧ parseInt y.uploadDate = some v ∧ u ≥ v) :=
  listImages_newest_first ["5-a.png", "notes.txt", "20-b.JPG", "7-c.gif"] (by
    intro f hf hi
    simp only [List.mem_cons, List.mem_singleton, List.not_mem_nil, or_false] at hf
    rcases hf with rfl | rfl | rfl | rfl
    · exact ⟨['5'], "a.png".data, 5, rfl, by simp, rfl, by decide⟩
    · exact absurd hi (by decide)
    · exact ⟨['2', '0'], "b.JPG".data, 20, rfl, by simp, rfl, by decide⟩
    · exact ⟨['7'], "c.gif".data, 7, rfl, by simp, rfl, by decide⟩)

/-! ## Stored file names -/

theorem digitChar_toNat : ∀ m, m < 10 → (Nat.digitChar m).toNat = 48 + m := by decide

theorem decimalValue_toDigitsCore (fuel n : Nat) (ds : List Char) (h : n < fuel) :
    decimalValue (Nat.toDigitsCore 10 fuel n ds) 0 = decimalValue ds n := by
  induction fuel generalizing n ds with
  | zero => exact absurd h (Nat.not_lt_zero n)
  | succ fuel ih =>
    have hm : n % 10 < 10 := Nat.mod_lt n (by decide)
    have hd : (Nat.digitChar (n % 10)).toNat = 48 + n % 10 := digitChar_toNat _ hm
    have hstep : ∀ acc, decimalValue (Nat.digitChar (n % 10) :: ds) acc
        = decimalValue ds (acc * 10 + n % 10) := by
      intro acc
      have hrange : 48 ≤ (Nat.digitChar (n % 10)).toNat ∧ (Nat.digitChar (n % 10)).toNat ≤ 57 := by
        omega
      have hval : (Nat.digitChar (n % 10)).toNat - 48 = n % 10 := by omega
      simp only [decimalValue, hrange, and_self, if_true, hval]
    unfold Nat.toDigitsCore
    by_cases h0 : n / 10 = 0
    · simp only [h0, if_true]
      rw [hstep 0]
      have : n % 10 = n := Nat.mod_eq_of_lt (by omega)
      simp [this]
    · have hlt : n / 10 < fuel := by omega
      have hsum : n / 10 * 10 + n % 10 = n := by omega
      simp only [h0, if_false]
      rw [ih (n / 10) _ hlt, hstep, hsum]

theorem decimalValue_repr (t : Nat) : decimalValue (Nat.toDigits 10 t) 0 = some t := by
  unfold Nat.toDigits
  rw [decimalValue_toDigitsCore (t + 1) t [] (Nat.lt_succ_self t)]
  rfl

theorem toDigits_ne_nil (t : Nat) : Nat.toDigits 10 t ≠ [] := by
  intro h
  have h1 := decimalValue_repr t
  rw [h] at h1
  have ht : t = 0 := by simpa [decimalValue] using h1.symm
  subst ht
  exact absurd h (by decide)

theorem toString_data (t : Nat) : (toString t).data = Nat.toDigits 10 t := rfl

theorem collapseFrom_no_space (r : Bool) (cs : List Char) :
    ∀ c ∈ collapseFrom r cs, isJsSpace c = false := by
  induction cs generalizing r with
  | nil => simp [collapseFrom]
  | cons x rest ih =>
    intro c hc
    unfold collapseFrom at hc
    split at hc
    · split at hc
      · exact ih true c hc
      · rcases List.mem_cons.1 hc with rfl | hc
        · decide
        · exact ih true c hc
    · next hx =>
      rcases List.mem_cons.1 hc with rfl | hc
      · simpa using hx
      · exact ih false c hc

theorem collapseFrom_plain (r : Bool) (cs : List Char) (h : ∀ c ∈ cs, isJsSpace c = false) :
    collapseFrom r cs = cs := by
  induction cs generalizing r with
  | nil => rfl
  | cons x rest ih =>
    have hx := h x (by simp)
    simp [collapseFrom, hx, ih false (fun c hc => h c (by simp [hc]))]

theorem collapseFrom_true_spaces (ws b : List Char) (hws : ∀ c ∈ ws, isJsSpace c = true) :
    collapseFrom true (ws ++ b) = collapseFrom true b := by
  induction ws with
  | nil => rfl
  | cons x rest ih =>
    have hx := hws x (by simp)
    simp [collapseFrom, hx, ih (fun c hc => hws c (by simp [hc]))]

theorem collapseFrom_true_head (b : List Char)
    (hb : ∀ y, b.head? = some y → isJsSpace y = false) :
    collapseFrom true b = collapseFrom false b := by
  cases b with
  | nil => rfl
  | cons y rest =>
    have hy := hb y rfl
    simp [collapseFrom, hy]

theorem collapseFrom_run (r : Bool) (a ws b : List Char) (hne : ws ≠ [])
    (hws : ∀ c ∈ ws, isJsSpace c = true)
    (ha : ∀ x, a.getLast? = some x → isJsSpace x = false)
    (hr : a = [] → r = false)
    (hb : ∀ y, b.head? = some y → isJsSpace y = false) :
    collapseFrom r (a ++ ws ++ b) = collapseFrom r a ++ '-' :: collapseFrom false b := by
  induction a generalizing r with
  | nil =>
    have hrf := hr rfl
    subst hrf
    cases ws with
    | nil => exact absurd rfl hne
    | cons w rest =>
      have hw := hws w (by simp)
      have h2 := collapseFrom_true_spaces rest b (fun c hc => hws c (by simp [hc]))
      have h3 := collapseFrom_true_head b hb
      simp only [List.nil_append, List.cons_append, collapseFrom, hw, if_true, Bool.false_eq_true,
        if_false, List.append_eq, h2, h3]
  | cons x rest ih =>
    have hlast : ∀ z, rest.getLast? = some z → isJsSpace z = false := by
      intro z hz
      apply ha z
      cases rest with
      | nil => simp at hz
      | cons y ys => simpa [List.getLast?_cons_cons] using hz
    by_cases hx : isJsSpace x = true
    · have hrest : rest ≠ [] := by
        intro e
        subst e
        have := ha x (by simp)
        rw [this] at hx
        exact absurd hx (by simp)
      have h1 := ih true hlast (fun e => absurd e hrest)
      simp only [List.cons_append, List.append_assoc] at h1 ⊢
      simp only [collapseFrom, hx, if_true, h1]
      split <;> simp
    · have hx1 : isJsSpace x = false := by simpa using hx
      have h1 := ih false hlast (fun _ => rfl)
      simp only [List.cons_append, List.append_assoc] at h1 ⊢
      simp [collapseFrom, hx1, h1]

/-- C19: the stored file name is the decimal text of the upload time, a `-`,
and the original name with its white space collapsed: a name without white
space is kept, and a maximal run of white space between two parts becomes a
single `-`.  The stored name contains no white space, the text before its
first `-` is the decimal text of the upload time, and an image list that shows
the file reports that text, which `parseInt` reads back as the upload time. -/
theorem storedName_shape (t : Nat) (s : String) :
    storedName t s = toString t ++ "-" ++ collapseSpaces s
      ∧ (∀ cs, (∀ c ∈ cs, isJsSpace c = false) → collapseSpaces (String.mk cs) = String.mk cs)
      ∧ (∀ a ws b, ws ≠ [] → (∀ c ∈ ws, isJsSpace c = true) →
          (∀ x, a.getLast? = some x → isJsSpace x = false) →
          (∀ y, b.head? = some y → isJsSpace y = false) →
          collapseSpaces (String.mk (a ++ ws ++ b)) =
            collapseSpaces (String.mk a) ++ "-" ++ collapseSpaces (String.mk b))
      ∧ (∀ c ∈ (storedName t s).data, isJsSpace c = false)
      ∧ splitFirst (storedName t s) = toString t
      ∧ (∀ files e, e ∈ listImages files → e.filename = storedName t s →
          e.uploadDate = toString t ∧ parseInt e.uploadDate = some (t : Int)) := by
  have hdig := decimalValue_digits _ 0 t (decimalValue_repr t)
  have hdata : (storedName t s).data
      = Nat.toDigits 10 t ++ '-' :: collapseFrom false s.data := by
    simp [storedName, collapseSpaces, toString_data]
  have hsplit : splitFirst (storedName t s) = toString t := by
    unfold splitFirst
    rw [hdata, takeWhile_digits_dash _ _ hdig]
    rfl
  refine ⟨rfl, ?_, ?_, ?_, hsplit, ?_⟩
  · intro cs hcs
    simp [collapseSpaces, collapseFrom_plain false cs hcs]
  · intro a ws b hne hws ha hb
    have := collapseFrom_run false a ws b hne hws ha (fun _ => rfl) hb
    apply String.ext
    simpa [collapseSpaces, List.append_assoc] using this
  · intro c hc
    rw [hdata] at hc
    rcases List.mem_append.1 hc with hc | hc
    · exact isJsSpace_digit c (hdig c hc)
    · rcases List.mem_cons.1 hc with rfl | hc
      · decide
      · exact collapseFrom_no_space false _ c hc
  · intro files e he hname
    obtain ⟨f, _, _, rfl⟩ := (mem_listImages files e).1 he
    have hf : f = storedName t s := hname
    subst hf
    refine ⟨hsplit, ?_⟩
    show parseInt (splitFirst (storedName t s)) = some (t : Int)
    rw [hsplit]
    exact parseInt_digits (Nat.toDigits 10 t) t (toDigits_ne_nil t) (decimalValue_repr t)

/-! ## Upload checks -/

theorem fileFilter_iff (mimetype : String) :
    fileFilter mimetype = true ↔ ∃ rest, mimetype.data = "image/".data ++ rest := by
  unfold fileFilter
  rw [List.isPrefixOf_iff_prefix]
  constructor
  · rintro ⟨rest, h⟩
    exact ⟨rest, h.symm⟩
  · rintro ⟨rest, h⟩
    exact ⟨rest, h.symm⟩

/-- C20: an upload is accepted, by the server and also when it goes through
the client, exactly when its MIME type begins with `image/` and its size is at
most 5 * 1024 * 1024 = 5242880 bytes, and it is then stored under the generated
name.  Every file whose MIME type does not begin with `image/` is rejected by
the file filter, whatever its size; an image larger than the limit is rejected
by the server and refused by the client; the configured limit is 5242880; the
client refuses exactly the files larger than 5242880 bytes.  A file of 6291456
bytes is rejected on both sides, a file of exactly 5242880 bytes on neither. -/
theorem upload_checks :
    (∀ now mimetype originalname size,
        (∃ name path, upload now mimetype originalname size = .stored name path)
          ↔ ((∃ rest, mimetype.data = "image/".data ++ rest) ∧ size ≤ 5242880))
      ∧ (∀ now mimetype originalname size,
        (∃ name path, uploadImage now mimetype originalname size = .stored name path)
          ↔ ((∃ rest, mimetype.data = "image/".data ++ rest) ∧ size ≤ 5242880))
      ∧ (∀ now mimetype originalname size name path,
        uploadImage now mimetype originalname size = .stored name path →
          upload now mimetype originalname size = .stored name path
            ∧ name = storedName now originalname ∧ path = "/images/" ++ name)
      ∧ (∀ now mimetype originalname size,
        (¬ ∃ rest, mimetype.data = "image/".data ++ rest) →
          upload now mimetype originalname size = .notImage)
      ∧ (∀ now mimetype originalname size,
        (∃ rest, mimetype.data = "image/".data ++ rest) → size > 5242880 →
          upload now mimetype originalname size = .tooLarge
            ∧ uploadImage now mimetype originalname size = .refused)
      ∧ (∀ mimetype, fileFilter mimetype = true ↔ ∃ rest, mimetype.data = "image/".data ++ rest)
      ∧ (∀ mimetype, (¬ ∃ rest, mimetype.data = "image/".data ++ rest) →
          fileFilter mimetype = false)
      ∧ fileSizeLimit = 5242880
      ∧ (∀ size, clientRefuses size = true ↔ size > 5242880)
      ∧ clientRefuses 6291456 = true ∧ 6291456 > fileSizeLimit
      ∧ clientRefuses 5242880 = false ∧ 5242880 ≤ fileSizeLimit
      ∧ upload 1700000000000 "image/png" "beach.png" 6291456 = .tooLarge
      ∧ uploadImage 1700000000000 "image/png" "beach.png" 6291456 = .refused
      ∧ uploadImage 1700000000000 "image/png" "beach.png" 5242880
          = .stored "1700000000000-beach.png" "/images/1700000000000-beach.png"
      ∧ uploadImage 1700000000000 "text/plain" "notes.txt" 12 = .notImage := by
  have hlim : fileSizeLimit = 5242880 := rfl
  have hcl : ∀ size, clientRefuses size = true ↔ size > 5242880 := by
    intro size
    simp [clientRefuses]
  have hno : ∀ mimetype, (¬ ∃ rest, mimetype.data = "image/".data ++ rest) →
      fileFilter mimetype = false := by
    intro mimetype hn
    cases hf : fileFilter mimetype with
    | false => rfl
    | true => exact absurd ((fileFilter_iff mimetype).1 hf) hn
  have hup : ∀ now mimetype originalname size,
      (∃ name path, upload now mimetype originalname size = .stored name path)
        ↔ ((∃ rest, mimetype.data = "image/".data ++ rest) ∧ size ≤ 5242880) := by
    intro now mimetype originalname size
    rw [← fileFilter_iff]
    unfold upload
    rw [hlim]
    cases hf : fileFilter mimetype with
    | false => simp
    | true =>
      by_cases hs : size > 5242880
      · simp [hs]
      · simp only [Bool.not_true, Bool.false_eq_true, if_false, hs, true_and]
        exact ⟨fun _ => by omega, fun _ => ⟨_, _, rfl⟩⟩
  have hsame : ∀ now mimetype originalname size, size ≤ 5242880 →
      uploadImage now mimetype originalname size = upload now mimetype originalname size := by
    intro now mimetype originalname size hs
    have hc : clientRefuses size = false := by
      cases h : clientRefuses size with
      | false => rfl
      | true => exact absurd ((hcl size).1 h) (by omega)
    simp [uploadImage, hc]
  have hrefused : ∀ now mimetype originalname size, size > 5242880 →
      uploadImage now mimetype originalname size = .refused := by
    intro now mimetype originalname size hs
    simp [uploadImage, (hcl size).2 hs]
  refine ⟨hup, ?_, ?_, ?_, ?_, fileFilter_iff, hno, hlim, hcl, by decide, by decide, by decide,
    by decide, rfl, rfl, rfl, rfl⟩
  · intro now mimetype originalname size
    by_cases hs : size ≤ 5242880
    · rw [hsame now mimetype originalname size hs]
      exact hup now mimetype originalname size
    · rw [hrefused now mimetype originalname size (by omega)]
      constructor
      · rintro ⟨name, path, h⟩
        cases h
      · rintro ⟨_, h⟩
        exact absurd h hs
  · intro now mimetype originalname size name path h
    by_cases hs : size ≤ 5242880
    · rw [hsame now mimetype originalname size hs] at h
      refine ⟨h, ?_⟩
      unfold upload at h
      split at h
      · cases h
      · split at h
        · cases h
        · cases h
          exact ⟨rfl, rfl⟩
    · rw [hrefused now mimetype originalname size (by omega)] at h
      cases h
  · intro now mimetype originalname size hn
    simp [upload, hno mimetype hn]
  · intro now mimetype originalname size hi hs
    refine ⟨?_, hrefused now mimetype originalname size hs⟩
    have hf := (fileFilter_iff mimetype).2 hi
    have hs1 : size > fileSizeLimit := by rw [hlim]; exact hs
    simp [upload, hf, hs1]

/-! ## Deleting at an index -/

/-- Support for C14: an index text that denotes a position of the items holding
a truthy element removes exactly that element; one that denotes a position past
the end is answered 404 'Itinerary not found'. -/
theorem deleteItinerary_at_index (fields cfields bf : List (String × JVal)) (K idx : String)
    (items : List JVal) (i : Nat)
    (hK : fields.lookup K = some (.obj cfields))
    (hb : cfields.lookup "itineraries" = some (.obj bf))
    (hi : bf.lookup "items" = some (.arr items))
    (hidx : arrayIndex idx = some i) :
    (∀ x, items.get? i = some x → x.truthy = true →
        deleteItinerary (.obj fields) K idx =
          .reply 200 (.success "Itinerary deleted successfully")
            (some (.obj (setOwn fields K (.obj (setOwn cfields "itineraries"
              (.obj (setOwn bf "items" (.arr (items.eraseIdx i))))))))))
      ∧ (items.get? i = none →
        deleteItinerary (.obj fields) K idx = .reply 404 (.error "Itinerary not found") none) := by
  have hgK := getProp_obj_own _ _ _ hK
  have hgb := getProp_obj_own _ _ _ hb
  have hgi := getProp_obj_own _ _ _ hi
  constructor
  · intro x hx ht
    have hge : getProp (.arr items) idx = some (.val x) := by simp only [getProp, hidx, hx]
    have htx : (JRes.val x).truthy = true := ht
    simp [deleteItinerary, hgK, truthy_val_obj, hgb, hgi, truthy_val_arr, hge, htx, setProp,
      spliceOne, spliceStart, hidx]
  · intro hx
    have hge : getProp (.arr items) idx = some .undefined := by simp only [getProp, hidx, hx]
    simp [deleteItinerary, hgK, truthy_val_obj, hgb, hgi, truthy_val_arr, truthy_obj, truthy_arr, hge, JRes.truthy]

/-- Support for C14: the same for the modes of the transport block. -/
theorem deleteTransport_at_index (fields cfields bf : List (String × JVal)) (K idx : String)
    (modes : List JVal) (i : Nat)
    (hK : fields.lookup K = some (.obj cfields))
    (hb : cfields.lookup "transport" = some (.obj bf))
    (hi : bf.lookup "modes" = some (.arr modes))
    (hidx : arrayIndex idx = some i) :
    (∀ x, modes.get? i = some x → x.truthy = true →
        deleteTransport (.obj fields) K idx =
          .reply 200 (.success "Transport mode deleted successfully")
            (some (.obj (setOwn fields K (.obj (setOwn cfields "transport"
              (.obj (setOwn bf "modes" (.arr (modes.eraseIdx i))))))))))
      ∧ (modes.get? i = none →
        deleteTransport (.obj fields) K idx =
          .reply 404 (.error "Transport mode not found") none) := by
  have hgK := getProp_obj_own _ _ _ hK
  have hgb := getProp_obj_own _ _ _ hb
  have hgi := getProp_obj_own _ _ _ hi
  constructor
  · intro x hx ht
    have hge : getProp (.arr modes) idx = some (.val x) := by simp only [getProp, hidx, hx]
    have htx : (JRes.val x).truthy = true := ht
    simp [deleteTransport, hgK, truthy_val_obj, hgb, hgi, truthy_val_arr, hge, htx, setProp,
      spliceOne, spliceStart, hidx]
  · intro hx
    have hge : getProp (.arr modes) idx = some .undefined := by simp only [getProp, hidx, hx]
    simp [deleteTransport, hgK, truthy_val_obj, hgb, hgi, truthy_val_arr, truthy_obj, truthy_arr, hge, JRes.truthy]


/-! ## Adding a guide -/

theorem set_first_match (pre post : List JVal) (c d : JVal) :
    (pre ++ c :: post).set pre.length d = pre ++ d :: post := by
  induction pre with
  | nil => rfl
  | cons x rest ih => simp [List.set, ih]

/-- Support for C21: where the country key resolves to nothing add-guide
answers 404 'Country not found'; where country K is an object whose cities
carry no slug S it answers 404 'City not found'; otherwise it writes the
document in which the first city with slug S has its guides followed by `g`
(just `g` when the city had no `guides`), the cities before and after it and
every other property of K and of the document being as they were. -/
theorem addGuide_on_country (fields : List (String × JVal)) (K S : String) (g : JVal) :
    (fields.lookup K = none → K ∉ objectProto →
        addGuide (.obj fields) K S g = .reply 404 (.error "Country not found") none)
      ∧ (∀ cfields cities, fields.lookup K = some (.obj cfields) →
        cfields.lookup "cities" = some (.arr cities) →
        (∀ x ∈ cities, slugIs x S = some false) →
        addGuide (.obj fields) K S g = .reply 404 (.error "City not found") none)
      ∧ (∀ cfields pre post cf guides, fields.lookup K = some (.obj cfields) →
        cfields.lookup "cities" = some (.arr (pre ++ .obj cf :: post)) →
        (∀ x ∈ pre, slugIs x S = some false) → cf.lookup "slug" = some (.str S) →
        cf.lookup "guides" = some (.arr guides) →
        addGuide (.obj fields) K S g = .reply 200 (.success "Guide added successfully")
          (some (.obj (setOwn fields K (.obj (setOwn cfields "cities"
            (.arr (pre ++ .obj (setOwn cf "guides" (.arr (guides ++ [g]))) :: post))))))))
      ∧ (∀ cfields pre post cf, fields.lookup K = some (.obj cfields) →
        cfields.lookup "cities" = some (.arr (pre ++ .obj cf :: post)) →
        (∀ x ∈ pre, slugIs x S = some false) → cf.lookup "slug" = some (.str S) →
        cf.lookup "guides" = none →
        addGuide (.obj fields) K S g = .reply 200 (.success "Guide added successfully")
          (some (.obj (setOwn fields K (.obj (setOwn cfields "cities"
            (.arr (pre ++ .obj (setOwn cf "guides" (.arr [g])) :: post)))))))) := by
  refine ⟨?_, ?_, ?_, ?_⟩
  · intro hnone hinh
    simp [addGuide, getProp, hnone, inherited, hinh, JRes.truthy]
  · intro cfields cities hK hc hall
    have hgK := getProp_obj_own _ _ _ hK
    have hgc := getProp_obj_own _ _ _ hc
    simp [addGuide, hgK, truthy_obj, hgc, JRes.truthy, findBySlug_none cities S hall]
  · intro cfields pre post cf guides hK hc hpre hslug hg
    have hgK := getProp_obj_own _ _ _ hK
    have hgc := getProp_obj_own _ _ _ hc
    have hgg := getProp_obj_own _ _ _ hg
    have hs : slugIs (.obj cf) S = some true := by simp [slugIs, getProp, hslug]
    simp [addGuide, hgK, truthy_obj, truthy_arr, hgc, JRes.truthy, hgg,
      findBySlug_first pre post _ S hpre hs, setProp, set_first_match]
  · intro cfields pre post cf hK hc hpre hslug hg
    have hgK := getProp_obj_own _ _ _ hK
    have hgc := getProp_obj_own _ _ _ hc
    have hin : inherited [objectProto] "guides" = .undefined := rfl
    have hgg : getProp (.obj cf) "guides" = some .undefined := by simp [getProp, hg, hin]
    have hs : slugIs (.obj cf) S = some true := by simp [slugIs, getProp, hslug]
    simp [addGuide, hgK, truthy_obj, hgc, JRes.truthy, hgg,
      findBySlug_first pre post _ S hpre hs, setProp, set_first_match]

/-- C21 (defect in the code): `constructor` is not a key of the document, yet
add-guide answers 404 'City not found' instead of 404 'Country not found': the
test `!data[countryKey]` sees the inherited built-in and lets the request
through to the search for the city. -/
theorem addGuide_constructor_city_not_found :
    addGuide japanDoc "constructor" "tokyo" blankGuide =
      .reply 404 (.error "City not found") none := rfl


/-! ## The client's copy of the document -/

theorem JRes.eq_other (r : JRes) (ht : ¬ (!r.truthy) = true) (hv : ∀ c, r = .val c → False) :
    r = .other := by
  cases r with
  | undefined => simp [JRes.truthy] at ht
  | val c => exact absurd rfl (hv c)
  | other => rfl

theorem clientAddItinerary_agrees (data : JVal) (K : String) (p : JVal) (st : Nat) (b : Body)
    (doc1 : JVal) (h : addItinerary data K p = .reply st b (some doc1)) :
    clientAddItinerary data K p = some doc1 := by
  simp only [addItinerary] at h
  repeat' split at h
  all_goals (cases h)
  all_goals first
    | (simp [clientAddItinerary, clientItineraries, newItineraries, *]; done)
    | (rename_i r heq ht r2 hv
       have hr := JRes.eq_other r ht hv
       subst hr
       simp [clientAddItinerary, heq])

theorem clientAddTransport_agrees (data : JVal) (K : String) (p : JVal) (st : Nat) (b : Body)
    (doc1 : JVal) (h : addTransport data K p = .reply st b (some doc1)) :
    clientAddTransport data K p = some doc1 := by
  simp only [addTransport] at h
  repeat' split at h
  all_goals (cases h)
  all_goals first
    | (simp [clientAddTransport, clientTransport, newTransport, *]; done)
    | (rename_i r heq ht r2 hv
       have hr := JRes.eq_other r ht hv
       subst hr
       simp [clientAddTransport, heq])

theorem clientAddGuide_agrees (data : JVal) (K S : String) (g : JVal) (st : Nat) (b : Body)
    (doc1 : JVal) (h : addGuide data K S g = .reply st b (some doc1)) :
    clientAddGuide data K S g = some doc1 := by
  simp only [addGuide] at h
  repeat' split at h
  all_goals (cases h)
  all_goals first
    | (simp [clientAddGuide, *]; done)
    | (rename_i city heq hc _ r hg hr
       obtain ⟨cf, hcf, _⟩ := slugIs_true city S (findBySlug_hit_slug _ _ _ _ heq)
       subst hcf
       simp [clientAddGuide, *])


/-- C22: take a document in which K is a country record, shared by the client's
copy and the data file.  For every input of the itinerary form, when
add-itinerary succeeds and writes `doc1`, the client's edit of its copy gives
`doc1` as well, and the items of K in `doc1` end with the record the form
produced; the same holds for the guide form with add-guide and for the
transport form with add-transport-mode.  Where K has the name N and no block
yet, both requests succeed and both sides create the same block. -/
theorem client_edits_agree (fields cfields : List (String × JVal)) (K : String)
    (hK : fields.lookup K = some (.obj cfields)) :
    (∀ title citiesText duration description st b doc1,
        addItinerary (.obj fields) K (itineraryRecord title citiesText duration description)
          = .reply st b (some doc1) →
        clientAddItinerary (.obj fields) K
            (itineraryRecord title citiesText duration description) = some doc1
          ∧ ∃ xs, blockListOf doc1 K "itineraries" "items"
              = some (xs ++ [itineraryRecord title citiesText duration description]))
      ∧ (∀ S title description duration st b doc1,
        addGuide (.obj fields) K S (guideRecord title description duration)
          = .reply st b (some doc1) →
        clientAddGuide (.obj fields) K S (guideRecord title description duration) = some doc1
          ∧ ∃ xs, guidesOf doc1 K S = some (xs ++ [guideRecord title description duration]))
      ∧ (∀ type details image cost st b doc1,
        addTransport (.obj fields) K (transportRecord type details image cost)
          = .reply st b (some doc1) →
        clientAddTransport (.obj fields) K (transportRecord type details image cost)
            = some doc1
          ∧ ∃ xs, blockListOf doc1 K "transport" "modes"
              = some (xs ++ [transportRecord type details image cost]))
      ∧ (∀ N p, cfields.lookup "name" = some (.str N) → cfields.lookup "itineraries" = none →
        ∃ doc1, addItinerary (.obj fields) K p
            = .reply 200 (.success "Itinerary added successfully") (some doc1)
          ∧ clientAddItinerary (.obj fields) K p = some doc1)
      ∧ (∀ N p, cfields.lookup "name" = some (.str N) → cfields.lookup "transport" = none →
        ∃ doc1, addTransport (.obj fields) K p
            = .reply 200 (.success "Transport mode added successfully") (some doc1)
          ∧ clientAddTransport (.obj fields) K p = some doc1) := by
  refine ⟨?_, ?_, ?_, ?_, ?_⟩
  · intro title citiesText duration description st b doc1 h
    exact ⟨clientAddItinerary_agrees _ _ _ _ _ _ h,
      addItinerary_stores_payload fields cfields K _ hK st b doc1 h⟩
  · intro S title description duration st b doc1 h
    exact ⟨clientAddGuide_agrees _ _ _ _ _ _ _ h,
      addGuide_stores_payload fields cfields K S _ hK st b doc1 h⟩
  · intro type details image cost st b doc1 h
    exact ⟨clientAddTransport_agrees _ _ _ _ _ _ h,
      addTransport_stores_payload fields cfields K _ hK st b doc1 h⟩
  · intro N p hname hnone
    have hin : inherited [objectProto] "itineraries" = .undefined := rfl
    have hs : addItinerary (.obj fields) K p
        = .reply 200 (.success "Itinerary added successfully")
          (some (.obj (setOwn fields K (.obj (setOwn cfields "itineraries"
            (newItineraries N p)))))) := by
      simp [addItinerary, getProp, hK, hname, hnone, hin, JRes.truthy, JVal.truthy,
        templateText, JVal.toStr, setProp]
    exact ⟨_, hs, clientAddItinerary_agrees _ _ _ _ _ _ hs⟩
  · intro N p hname hnone
    have hin : inherited [objectProto] "transport" = .undefined := rfl
    have hs : addTransport (.obj fields) K p
        = .reply 200 (.success "Transport mode added successfully")
          (some (.obj (setOwn fields K (.obj (setOwn cfields "transport"
            (newTransport N p)))))) := by
      simp [addTransport, getProp, hK, hname, hnone, hin, JRes.truthy, JVal.truthy,
        templateText, JVal.toStr, setProp]
    exact ⟨_, hs, clientAddTransport_agrees _ _ _ _ _ _ hs⟩

/-- Witness for C22: on the sample document the itinerary form with the cities
text "Tokyo", " Kyoto " and an empty line, the guide form with only a title,
and the transport form with two values give the same document on both sides. -/
theorem client_edits_agree_witness :
    (clientAddItinerary japanDoc "japan" (itineraryRecord "Golden Route" "Tokyo\n Kyoto \n" "7 days" "")
        = some (.obj [("japan", .obj [("name", .str "Japan"), ("continent", .str "Asia"),
            ("cities", .arr [tokyo]),
            ("itineraries", .obj [("title", .str "Japan Itineraries"),
              ("description", .str "Explore Japan with our curated itineraries."),
              ("items", .arr [.obj [("title", .str "Golden Route"),
                ("cities", .arr [.str "Tokyo", .str "Kyoto"]),
                ("duration", .str "7 days")]])])])]))
      ∧ (clientAddGuide japanDoc "japan" "tokyo" (guideRecord "Nightlife" "" "")
        = some (.obj [("japan", .obj [("name", .str "Japan"), ("continent", .str "Asia"),
            ("cities", .arr [.obj [("slug", .str "tokyo"), ("name", .str "Tokyo"),
              ("guides", .arr [.obj [("title", .str "Temples")], .obj [("title", .str "Food")],
                .obj [("title", .str "Nightlife")]])]])])]))
      ∧ (clientAddTransport japanDoc "japan" (transportRecord "Train" "Rail pass" "" "")
        = some (.obj [("japan", .obj [("name", .str "Japan"), ("continent", .str "Asia"),
            ("cities", .arr [tokyo]),
            ("transport", .obj [("title", .str "Getting Around Japan"),
              ("description", .str "Transportation options in Japan."),
              ("modes", .arr [train])])])])) :=
  have h := client_edits_agree [("japan", japan)]
    [("name", .str "Japan"), ("continent", .str "Asia"), ("cities", .arr [tokyo])] "japan" rfl
  ⟨(h.1 "Golden Route" "Tokyo\n Kyoto \n" "7 days" "" 200
      (.success "Itinerary added successfully") _ rfl).1,
   (h.2.1 "tokyo" "Nightlife" "" "" 200 (.success "Guide added successfully") _ rfl).1,
   (h.2.2.1 "Train" "Rail pass" "" "" 200
      (.success "Transport mode added successfully") _ rfl).1⟩

/-! ## The guide form -/

/-- C23 (as stated, refuted): with an empty title input the record the client
builds and sends has no `title`: the removal loop treats `title` like the
optional fields. -/
theorem guideRecord_drops_empty_title :
    guideRecord "" "A walk through the old town" "2 hours" =
        .obj [("description", .str "A walk through the old town"), ("duration", .str "2 hours")]
      ∧ getProp (guideRecord "" "A walk through the old town" "2 hours") "title"
        = some .undefined := ⟨rfl, rfl⟩

/-- C23 (amended): the record built from the guide form holds `title`,
`description` and `duration`, each exactly when its input is not the empty
string and then with the input as its value; it has no other property, its
properties come in the order title, description, duration (the names of the
record are those three with the missing ones left out), none of its values is
the empty string, and the removal of empty fields leaves it as it is. -/
theorem guideRecord_shape (title description duration : String) :
    ∃ r, guideRecord title description duration = .obj r
      ∧ r.lookup "title" = (if title = "" then none else some (.str title))
      ∧ r.lookup "description" = (if description = "" then none else some (.str description))
      ∧ r.lookup "duration" = (if duration = "" then none else some (.str duration))
      ∧ (∀ k, k ≠ "title" → k ≠ "description" → k ≠ "duration" → r.lookup k = none)
      ∧ (r.map Prod.fst).Sublist ["title", "description", "duration"]
      ∧ (∀ p ∈ r, p.2 ≠ .str "")
      ∧ removeEmpty r = r := by
  refine ⟨_, rfl, ?_, ?_, ?_, ?_, ?_, ?_, ?_⟩
  case refine_4 =>
    intro k h1 h2 h3
    have e1 : (k == "title") = false := by simpa using h1
    have e2 : (k == "description") = false := by simpa using h2
    have e3 : (k == "duration") = false := by simpa using h3
    by_cases ht : title = "" <;> by_cases hd : description = "" <;>
      by_cases hu : duration = "" <;>
      simp [removeEmpty, JVal.truthy, ht, hd, hu, List.lookup, e1, e2, e3]
  all_goals
    by_cases ht : title = "" <;> by_cases hd : description = "" <;>
      by_cases hu : duration = "" <;>
      simp [removeEmpty, JVal.truthy, ht, hd, hu, List.lookup]


/-! ## Uploaded files in the image list -/

theorem storedName_data (t : Nat) (s : String) :
    (storedName t s).data = Nat.toDigits 10 t ++ '-' :: collapseFrom false s.data := by
  simp [storedName, collapseSpaces, toString_data]

theorem splitFirst_storedName (t : Nat) (s : String) :
    splitFirst (storedName t s) = toString t := by
  unfold splitFirst
  rw [storedName_data, takeWhile_digits_dash _ _ (decimalValue_digits _ 0 t (decimalValue_repr t))]
  rfl

theorem isJsSpace_visible (c : Char) (h : 33 ≤ c.toNat ∧ c.toNat ≤ 159) :
    isJsSpace c = false := by
  simp only [isJsSpace, Bool.or_eq_false_iff, Bool.and_eq_false_iff, decide_eq_false_iff_not]
  refine ⟨?_, Or.inl (by omega)⟩
  simp only [List.contains, List.elem_eq_mem, decide_eq_false_iff_not, List.mem_cons,
    List.mem_singleton, List.not_mem_nil, or_false]
  omega

theorem letter_of_toLower (c : Char) (h : 97 ≤ c.toLower.toNat ∧ c.toLower.toNat ≤ 122) :
    65 ≤ c.toNat ∧ c.toNat ≤ 122 := by
  by_cases hr : 65 ≤ c.toNat ∧ c.toNat ≤ 90
  · omega
  · have hc : c.toLower = c := by
      unfold Char.toLower
      simp only [ge_iff_le]
      rw [if_neg hr]
    rw [hc] at h
    omega

theorem collapseFrom_append_plain (r : Bool) (a b : List Char)
    (hb : ∀ c ∈ b, isJsSpace c = false) :
    collapseFrom r (a ++ b) = collapseFrom r a ++ b := by
  induction a generalizing r with
  | nil => simp [collapseFrom, collapseFrom_plain r b hb]
  | cons x rest ih =>
    by_cases hx : isJsSpace x = true
    · cases r <;> simp [collapseFrom, hx, ih]
    · have hx1 : isJsSpace x = false := by simpa using hx
      simp [collapseFrom, hx1, ih]

theorem plain_of_no_dash (cs : List Char) (h : '-' ∉ collapseFrom false cs) :
    ∀ c ∈ cs, isJsSpace c = false := by
  induction cs with
  | nil => simp
  | cons x rest ih =>
    by_cases hx : isJsSpace x = true
    · simp [collapseFrom, hx] at h
    · have hx1 : isJsSpace x = false := by simpa using hx
      simp only [collapseFrom, hx1, Bool.false_eq_true, if_false, List.mem_cons, not_or] at h
      intro c hc
      rcases List.mem_cons.1 hc with rfl | hc
      · exact hx1
      · exact ih h.2 c hc

theorem suffix_of_collapse (s : List Char) (r : Bool) (f t : List Char)
    (h : collapseFrom r s = f ++ t) (ht : '-' ∉ t) (hne : t ≠ []) :
    ∃ f0, s = f0 ++ t := by
  induction s generalizing r f with
  | nil =>
    simp only [collapseFrom] at h
    have := List.append_eq_nil.1 h.symm
    exact absurd this.2 hne
  | cons x rest ih =>
    by_cases hx : isJsSpace x = true
    · cases r with
      | true =>
        simp only [collapseFrom, hx, if_true] at h
        obtain ⟨f0, h0⟩ := ih true f h
        exact ⟨x :: f0, by rw [h0]; rfl⟩
      | false =>
        simp only [collapseFrom, hx, if_true, Bool.false_eq_true, if_false] at h
        cases f with
        | nil =>
          simp only [List.nil_append] at h
          rw [← h] at ht
          simp at ht
        | cons y f1 =>
          simp only [List.cons_append, List.cons.injEq] at h
          obtain ⟨f0, h0⟩ := ih true f1 h.2
          exact ⟨x :: f0, by rw [h0]; rfl⟩
    · have hx1 : isJsSpace x = false := by simpa using hx
      simp only [collapseFrom, hx1, Bool.false_eq_true, if_false] at h
      cases f with
      | nil =>
        simp only [List.nil_append] at h
        rw [← h] at ht
        have hplain := plain_of_no_dash rest (fun hm => ht (List.mem_cons_of_mem _ hm))
        refine ⟨[], ?_⟩
        rw [← h, collapseFrom_plain false rest hplain]
        rfl
      | cons y f1 =>
        simp only [List.cons_append, List.cons.injEq] at h
        obtain ⟨f0, h0⟩ := ih false f1 h.2
        exact ⟨x :: f0, by rw [h0]; rfl⟩

theorem endsWithExtension_storedName (t : Nat) (s ext : String)
    (hext : ∀ x ∈ ext.data, 97 ≤ x.toNat ∧ x.toNat ≤ 122) :
    endsWithExtension (storedName t s) ext ↔ endsWithExtension s ext := by
  have hletters : ∀ body : List Char, body.map Char.toLower = ext.data →
      ∀ c ∈ body, 65 ≤ c.toNat ∧ c.toNat ≤ 122 := by
    intro body hb c hc
    apply letter_of_toLower
    apply hext
    rw [← hb]
    exact List.mem_map_of_mem _ hc
  unfold endsWithExtension
  rw [storedName_data]
  constructor
  · rintro ⟨front, body, hcs, hb⟩
    have hl := hletters body hb
    have hdash : '-' ∉ '.' :: body := by
      intro hm
      rcases List.mem_cons.1 hm with h1 | h1
      · exact absurd h1 (by decide)
      · have := hl _ h1
        have h45 : '-'.toNat = 45 := rfl
        omega
    have happ : (Nat.toDigits 10 t ++ ['-']) ++ collapseFrom false s.data
        = front ++ '.' :: body := by
      rw [← hcs]; simp
    rcases List.append_eq_append_iff.1 happ with ⟨a1, h1, h2⟩ | ⟨c1, h1, h2⟩
    · obtain ⟨f0, h0⟩ := suffix_of_collapse s.data false a1 ('.' :: body) h2 hdash (by simp)
      exact ⟨f0, body, h0, hb⟩
    · cases hc1 : c1.reverse with
      | nil =>
        have : c1 = [] := by simpa using hc1
        subst this
        simp only [List.nil_append] at h2
        obtain ⟨f0, h0⟩ := suffix_of_collapse s.data false [] ('.' :: body)
          (by rw [h2]; rfl) hdash (by simp)
        exact ⟨f0, body, h0, hb⟩
      | cons z zs =>
        exfalso
        have hc1r : c1 = zs.reverse ++ [z] := by
          have := congrArg List.reverse hc1
          simpa using this
        rw [hc1r] at h1
        have hz : z = '-' := by
          have := congrArg List.getLast? h1
          simpa using this.symm
        apply hdash
        rw [h2, hc1r, hz]
        simp
  · rintro ⟨front, body, hcs, hb⟩
    have hl := hletters body hb
    have hplain : ∀ c ∈ '.' :: body, isJsSpace c = false := by
      intro c hc
      rcases List.mem_cons.1 hc with rfl | hc
      · decide
      · exact isJsSpace_visible c (by have := hl c hc; omega)
    refine ⟨Nat.toDigits 10 t ++ '-' :: collapseFrom false front, body, ?_, hb⟩
    rw [hcs, collapseFrom_append_plain false front _ hplain]
    simp

theorem hasImageSuffix_storedName (t : Nat) (s : String) :
    hasImageSuffix (storedName t s) ↔ hasImageSuffix s := by
  unfold hasImageSuffix
  rw [endsWithExtension_storedName t s "jpg" (by decide),
    endsWithExtension_storedName t s "jpeg" (by decide),
    endsWithExtension_storedName t s "png" (by decide),
    endsWithExtension_storedName t s "gif" (by decide),
    endsWithExtension_storedName t s "webp" (by decide)]

/-- C24 (defect in the code): a bitmap with the MIME type `image/bmp` passes
the upload filter and is stored under its generated name, but the image list
of the directory that holds it, which is to give all uploaded images, shows
only the other file: the list keeps the names that end with one of five
extensions. -/
theorem accepted_bmp_not_listed :
    fileFilter "image/bmp" = true
      ∧ storedName 1700000000000 "scan.bmp" = "1700000000000-scan.bmp"
      ∧ (listImages ["1700000000000-scan.bmp", "1700000000001-beach.png"]).map
          (fun e => e.filename) = ["1700000000001-beach.png"] := by
  refine ⟨by decide, by decide, by decide⟩

/-- Support for C24: a file stored under its generated name appears in the image
list of a directory that contains it exactly when its original name ends with
`.jpg`, `.jpeg`, `.png`, `.gif` or `.webp`, letters compared without regard to
case (the MIME type that let it pass plays no part); its entry then has the
generated name, the path "/images/" ++ name and the decimal text of the upload
time as `uploadDate`. -/
theorem stored_upload_listed (now : Nat) (originalname : String) (files : List String)
    (hf : storedName now originalname ∈ files) :
    ((∃ e ∈ listImages files, e.filename = storedName now originalname)
        ↔ hasImageSuffix originalname)
      ∧ (hasImageSuffix originalname →
          ImageEntry.mk (storedName now originalname)
            ("/images/" ++ storedName now originalname) (toString now) ∈ listImages files) := by
  have hentry : toEntry (storedName now originalname)
      = ImageEntry.mk (storedName now originalname)
          ("/images/" ++ storedName now originalname) (toString now) := by
    simp [toEntry, splitFirst_storedName]
  constructor
  · constructor
    · rintro ⟨e, he, hname⟩
      obtain ⟨f, _, hi, rfl⟩ := (mem_listImages files e).1 he
      have hfe : f = storedName now originalname := hname
      subst hfe
      exact (hasImageSuffix_storedName now originalname).1 ((isImageName_iff _).1 hi)
    · intro hs
      exact ⟨toEntry (storedName now originalname),
        (mem_listImages files _).2 ⟨_, hf,
          (isImageName_iff _).2 ((hasImageSuffix_storedName now originalname).2 hs), rfl⟩, rfl⟩
  · intro hs
    rw [← hentry]
    exact (mem_listImages files _).2 ⟨_, hf,
      (isImageName_iff _).2 ((hasImageSuffix_storedName now originalname).2 hs), rfl⟩

/-- Example for the support of C24: the upload `beach photo.PNG` in a
directory with one other file is listed. -/
theorem stored_upload_listed_witness :
    ImageEntry.mk (storedName 1700000000000 "beach photo.PNG")
        ("/images/" ++ storedName 1700000000000 "beach photo.PNG") (toString 1700000000000)
      ∈ listImages [storedName 1700000000000 "beach photo.PNG", "notes.txt"] :=
  (stored_upload_listed 1700000000000 "beach photo.PNG"
    [storedName 1700000000000 "beach photo.PNG", "notes.txt"] (List.mem_cons_self _ _)).2
    (Or.inr (Or.inr (Or.inl ⟨"beach photo".data, "PNG".data, by decide, by decide⟩)))


/-! ## Deleting an image -/

theorem segmentsFrom_plain (cur cs : List Char) (h : '/' ∉ cs) :
    segmentsFrom cur cs = [String.mk (cur.reverse ++ cs)] := by
  induction cs generalizing cur with
  | nil => simp [segmentsFrom]
  | cons c rest ih =>
    have hc : c ≠ '/' := fun e => h (by simp [e])
    have hrest : '/' ∉ rest := fun e => h (by simp [e])
    simp [segmentsFrom, hc, ih (c :: cur) hrest]

theorem isPrefixOf_append_self (d a b : List String) :
    (d ++ a).isPrefixOf (d ++ b) = a.isPrefixOf b := by
  induction d with
  | nil => rfl
  | cons x rest ih => simp [List.isPrefixOf, ih]

/-- Support for C25: a file name without a separator that is not `.` or `..`
(every name the upload path generates, and every name the image list shows) is
resolved to the file of that name directly inside the uploads directory. -/
theorem unlinkPath_plain (dirname : List String) (filename : String)
    (hs : '/' ∉ filename.data) (h0 : filename ≠ "") (h1 : filename ≠ ".")
    (h2 : filename ≠ "..") :
    unlinkPath dirname filename = uploadsDir dirname ++ [filename]
      ∧ insideDir (uploadsDir dirname) (unlinkPath dirname filename) = true := by
  have hp : unlinkPath dirname filename = uploadsDir dirname ++ [filename] := by
    unfold unlinkPath
    rw [segmentsFrom_plain [] _ hs]
    have hname : String.mk ([].reverse ++ filename.data) = filename := rfl
    simp [resolveFrom, hname, h0, h1, h2]
  refine ⟨hp, ?_⟩
  rw [hp]
  have := isPrefixOf_append_self (uploadsDir dirname) [] [filename]
  simp only [List.append_nil] at this
  simp [insideDir, this, List.isPrefixOf]

/-- Support for C25: whatever the directory of the server, the parameter
`../data/travel-data.json` is resolved to the document file, which is not
inside the uploads directory. -/
theorem unlinkPath_reaches_document (dirname : List String) :
    unlinkPath dirname "../data/travel-data.json" = dataFilePath dirname
      ∧ insideDir (uploadsDir dirname) (dataFilePath dirname) = false := by
  have hseg : segmentsFrom [] "../data/travel-data.json".data
      = ["..", "data", "travel-data.json"] := by decide
  constructor
  · unfold unlinkPath
    rw [hseg]
    simp [resolveFrom, uploadsDir, dataFilePath]
  · have := isPrefixOf_append_self dirname ["images"] ["data", "travel-data.json"]
    simp only [insideDir, uploadsDir, dataFilePath, this]
    simp [List.isPrefixOf]

/-- C25 (defect in the code): the filename parameter `../data/travel-data.json`
(sent as `..%2Fdata%2Ftravel-data.json`) is joined to a path outside the
uploads directory, the path of the document file, and the image delete
answers 200 after removing that file; the uploaded image is still there. -/
theorem deleteImage_removes_document :
    unlinkPath ["srv", "app"] "../data/travel-data.json" = dataFilePath ["srv", "app"]
      ∧ insideDir (uploadsDir ["srv", "app"])
          (unlinkPath ["srv", "app"] "../data/travel-data.json") = false
      ∧ deleteImage ["srv", "app"] sampleFiles "../data/travel-data.json"
          = (200, .success "Image deleted successfully",
              [["srv", "app", "images", "1700000000000-beach.png"],
               ["srv", "app", "server.js"]]) := by
  refine ⟨by decide, by decide, rfl⟩

end FpSelections
